import Mathlib

/-!
# mkxp: the VX tile map renderer, the key binding menu and the configuration

A shallow embedding of `TilemapVXPrivate` and of the public `TilemapVX`
interface, followed by theorems about the visible-region tracker, the
dirty-flag pipeline of `prepare`, the subscription handling of the setters, the
animation clocks of `update`, the vertex streams and the draw calls of a frame
(`src/tilemapvx.cpp`); of `validUtf8`, `Config::read` and `Config::readGameINI`
(`src/config.cpp`); and of the binding widgets of `SettingsMenuPrivate`
(`src/settingsmenu.cpp`).

Conventions of the embedding:

* C `int` values are mathematical integers kept in the 32-bit two's complement
  range by `wrap32` after every arithmetic operation (the wrap-around the
  compiled code exhibits; the C++ standard leaves signed overflow undefined).
* `size_t` quantities are natural numbers (vector sizes never reach `2^64`).
* Pointers to externally owned objects (`Table*`, `Bitmap*`) are optional
  object identities: `none` is the null pointer.
* A `sigc::connection` is the identity of the object whose signal it is
  attached to, or `none` when empty or disconnected.
* An emitted signal runs the member function of every connection member that
  is attached to that signal of the emitting object (`emit`).
* `float` values that are whole numbers are kept as integers. The flash alpha
  is computed in `float` arithmetic (IEEE 754 binary32, round to nearest, ties
  to even): a `float` is the rational it denotes, and `f32Round` delivers the
  `float` nearest to an exact result.
* Calls into external services (signal connections, atlas builder, flash map,
  vertex buffer, shaders, draw calls) are recorded, in order, in the ghost field `trace`, together with one entry for
  each run of the three rebuild handlers.
* Strings are lists of byte values; a read through a `const char *` is
  optional, `none` standing for a read past the end of the buffer.
* A failed `assert` makes the function return `none`.
-/

namespace Mkxp

/-! ## Machine integers -/

/-- Reduce an integer to the range of a 32-bit two's complement `int`. -/
def wrap32 (x : Int) : Int := (x + 2147483648) % 4294967296 - 2147483648

/-- Smallest value of a C `int`. -/
def INT_MIN : Int := -2147483648

/-- Largest value of a C `int`. -/
def INT_MAX : Int := 2147483647

/-- The C expression `a + b` on `int`. -/
def iadd (a b : Int) : Int := wrap32 (a + b)

/-- The C expression `a - b` on `int`. -/
def isub (a b : Int) : Int := wrap32 (a - b)

/-- The C expression `a * b` on `int`. -/
def imul (a b : Int) : Int := wrap32 (a * b)

/-- The C expression `-a` on `int`. -/
def ineg (a : Int) : Int := wrap32 (-a)

/-- The C expression `a / b` on `int`: division truncating toward zero. -/
def idiv (a b : Int) : Int := wrap32 (Int.tdiv a b)

/-- The C expression `a % b` on `int`: remainder with the sign of `a`. -/
def imod (a b : Int) : Int := wrap32 (Int.tmod a b)

/-- The C expression `!!a`: `1` when `a` is non-zero, `0` otherwise. -/
def notnot (a : Int) : Int := if a = 0 then 0 else 1

/-! ## Data model -/

/-- Identity of an externally owned `Table` object. -/
abbrev TableRef := Nat

/-- Identity of an externally owned `Bitmap` object. -/
abbrev BitmapRef := Nat

/-- Modelled from the spec: `BM_COUNT` of the absent `tilemap-common.h`, the
number of tileset bitmap slots (A1, A2, A3, A4, A5, B, C, D, E). -/
def BM_COUNT : Nat := 9

/-- Modelled from the spec: `BM_A1` of the absent `tilemap-common.h`, the slot of
the animated tileset, first of the bitmap slots. -/
def BM_A1 : Nat := 0

/-- The table `flashAlpha`: flash tiles pulsing opacity, fade in then fade out. -/
def flashAlpha : List Nat :=
  [0x78, 0x78, 0x78, 0x78, 0x96, 0x96, 0x96, 0x96,
   0xB4, 0xB4, 0xB4, 0xB4, 0xD2, 0xD2, 0xD2, 0xD2,
   0xF0, 0xF0, 0xF0, 0xF0, 0xD2, 0xD2, 0xD2, 0xD2,
   0xB4, 0xB4, 0xB4, 0xB4, 0x96, 0x96, 0x96, 0x96]

/-- The constant `flashAlphaN` declared by `static elementsN(flashAlpha);`: the
number of elements of the table. -/
def flashAlphaN : Nat := flashAlpha.length

/-- Rounding of a rational to the nearest integer, a tie going to the even
neighbour: the rounding of IEEE 754 arithmetic in its default mode. -/
def roundHalfEven (t : ℚ) : Int :=
  if t - ⌊t⌋ < 1 / 2 then ⌊t⌋
  else if 1 / 2 < t - ⌊t⌋ then ⌊t⌋ + 1
  else if ⌊t⌋ % 2 = 0 then ⌊t⌋
  else ⌊t⌋ + 1

/-- The binary exponent a `float` (IEEE 754 binary32) has for the real value
`x`: the exponent of the leading bit of `x`, and -126 for the subnormal range. -/
def f32Exponent (x : ℚ) : Int :=
  max (Int.log 2 |x|) (-126)

/-- The unit in the last place of a `float` for the real value `x`: the
significand has 24 bits. -/
def f32Ulp (x : ℚ) : ℚ :=
  2 ^ (f32Exponent x - 23)

/-- The `float` an arithmetic operation delivers when its exact result is `x`:
the multiple of the unit in the last place nearest to `x`, ties to even. Results
of magnitude 2^128 and above, which the hardware turns into infinities, are not
told apart. -/
def f32Round (x : ℚ) : ℚ :=
  roundHalfEven (x / f32Ulp x) * f32Ulp x

/-- The C expression `a / b` on two `float` operands: the exact quotient,
rounded. -/
def fdiv (a b : ℚ) : ℚ :=
  f32Round (a / b)

/-- The table `aniIndicesA` of `TilemapVX::update`. -/
def aniIndicesA : List Nat := [0, 1, 2, 1, 0, 1, 2, 1, 0, 1, 2, 1]

/-- The table `aniIndicesC` of `TilemapVX::update`. -/
def aniIndicesC : List Nat := [0, 1, 2, 0, 1, 2, 0, 1, 2, 0, 1, 2]

/-- Type `Vec2i` of `etc-internal.h`: a pair of `int`, zero by default. -/
structure Vec2i where
  x : Int := 0
  y : Int := 0
deriving DecidableEq

/-- Type `IntRect` of `etc-internal.h`: position and size, zero by default. -/
structure IntRect where
  x : Int := 0
  y : Int := 0
  w : Int := 0
  h : Int := 0
deriving DecidableEq

/-- Type `Scene::Geometry` of `scene.h`: the viewport rectangle and origin. -/
structure Geometry where
  xOrigin : Int := 0
  yOrigin : Int := 0
  rect : IntRect := {}
deriving DecidableEq

/-- Type `FloatRect` of `etc-internal.h`. Every coordinate the renderer handles
is a whole number of pixels, so the components are kept as integers. -/
structure FloatRect where
  x : Int := 0
  y : Int := 0
  w : Int := 0
  h : Int := 0
deriving DecidableEq

/-- Type `SVertex` of `vertex.h`: a position and a texture (atlas) position. -/
structure SVertex where
  pos : Vec2i := {}
  texPos : Vec2i := {}
deriving DecidableEq

/-- The `sigc::connection` members of the renderer. -/
inductive Slot where
  /-- Member `mapDataCon`, to the `modified` signal of the map data table. -/
  | mapData
  /-- Member `flagsCon`, to the `modified` signal of the flag table. -/
  | flags
  /-- Member `bmChangedCons[i]`, to the `modified` signal of the bitmap in slot `i`. -/
  | bmChanged (i : Nat)
  /-- Member `bmDisposedCons[i]`, to the `wasDisposed` signal of the bitmap in slot `i`. -/
  | bmDisposed (i : Nat)
deriving DecidableEq

/-- The two shaders the renderer draws with. -/
inductive ShaderKind where
  /-- The tile-animation-aware shader `shState->shaders().tilemapVX`. -/
  | tilemapVX
  /-- The plain textured-quad shader `shState->shaders().simple`. -/
  | simple
deriving DecidableEq

/-- Calls observed on the external services, and runs of the rebuild handlers. -/
inductive Call where
  /-- The call `disconnect()` on a connection member. -/
  | disconnect (slot : Slot)
  /-- The call `connect(...)` on the signal of object `source` that the connection
  member `slot` then holds. -/
  | connect (slot : Slot) (source : Nat)
  /-- Entry of `rebuildAtlas`. -/
  | rebuildAtlas
  /-- The call `TileAtlasVX::build(atlas, bitmaps)`. -/
  | atlasBuild (bitmaps : List (Option BitmapRef))
  /-- Entry of `updateMapViewport`. -/
  | updateMapViewport
  /-- The call `flashMap.setViewport(mapViewp)`. -/
  | flashSetViewport (r : IntRect)
  /-- Entry of `rebuildBuffers`. -/
  | rebuildBuffers
  /-- The call `TileAtlasVX::readTiles(*this, *mapData, flags, x, y, w, h)`. -/
  | readTiles (mapData : TableRef) (flags : Option TableRef) (x y w h : Int)
  /-- The call `VBO::bind(vbo)`. -/
  | vboBind
  /-- The call `VBO::allocEmpty(bytes, GL_DYNAMIC_DRAW)`. -/
  | vboAllocEmpty (bytes : Nat)
  /-- The call `VBO::uploadSubData(offset, size, data)`. -/
  | vboUploadSubData (offset size : Nat) (data : List SVertex)
  /-- The call `VBO::unbind()`. -/
  | vboUnbind
  /-- The call `shState->ensureQuadIBO(quads)`. -/
  | ensureQuadIBO (quads : Nat)
  /-- The call `flashMap.prepare()`. -/
  | flashPrepare
  /-- The call `bind()` on a shader. -/
  | shaderBind (shader : ShaderKind)
  /-- The call `tmShader.setAniOffset(aniOffset)`. -/
  | setAniOffset (aniOffset : Vec2i)
  /-- The call `setTexSize(Vec2i(atlas.width, atlas.height))` on a shader. -/
  | setTexSize (shader : ShaderKind) (size : Vec2i)
  /-- The call `applyViewportProj()` on a shader. -/
  | applyViewportProj (shader : ShaderKind)
  /-- The call `setTranslation(dispPos)` on a shader. -/
  | setTranslation (shader : ShaderKind) (dispPos : Vec2i)
  /-- The call `TEX::bind(atlas.tex)`. -/
  | texBind
  /-- The call `GLMeta::vaoBind(vao)`. -/
  | vaoBind
  /-- The call `gl.DrawElements(GL_TRIANGLES, count, _GL_INDEX_TYPE, offset)`,
  `offset` in bytes into the index buffer. -/
  | drawElements (count offset : Nat)
  /-- The call `GLMeta::vaoUnbind(vao)`. -/
  | vaoUnbind
  /-- The call `flashMap.draw(alpha, dispPos)`. -/
  | flashDraw (alpha : ℚ) (dispPos : Vec2i)
  /-- The call `flashMap.setData(value)`. -/
  | flashSetData (value : Option TableRef)
deriving DecidableEq

/-- State of `struct TilemapVXPrivate`. The GPU handles (`atlas`, `vbo`, `vao`)
and the internals of `flashMap`, the table it holds apart, belong to external
services and appear only through `trace`. -/
structure TilemapVXPrivate where
  bitmaps : List (Option BitmapRef) := List.replicate BM_COUNT none
  mapData : Option TableRef := none
  flags : Option TableRef := none
  offset : Vec2i := {}
  dispPos : Vec2i := {}
  mapViewp : IntRect := {}
  sceneOffset : Vec2i := {}
  sceneGeo : Geometry := {}
  groundVert : List SVertex := []
  aboveVert : List SVertex := []
  allocQuads : Nat := 0
  groundQuads : Nat := 0
  aboveQuads : Nat := 0
  frameIdx : Nat := 0
  aniOffset : Vec2i := {}
  flashAlphaIdx : Nat := 0
  atlasDirty : Bool := true
  buffersDirty : Bool := false
  mapViewportDirty : Bool := false
  mapDataCon : Option TableRef := none
  flagsCon : Option TableRef := none
  prepareCon : Bool := false
  bmChangedCons : List (Option BitmapRef) := List.replicate BM_COUNT none
  bmDisposedCons : List (Option BitmapRef) := List.replicate BM_COUNT none
  trace : List Call := []
  /-- The viewport of the base class `ViewportElement` (absent `viewport.h`). -/
  viewport : Option Nat := none
  /-- The visibility of the base class `ViewportElement`. -/
  visible : Bool := true
  /-- The viewport of the member `above`, itself a `ViewportElement`. -/
  aboveViewport : Option Nat := none
  /-- The visibility of the member `above`. -/
  aboveVisible : Bool := true
  /-- The table held by `flashMap` (what `flashMap.getData()` returns). -/
  flashData : Option TableRef := none
deriving DecidableEq

namespace TilemapVXPrivate

/-- Record a call to an external service. -/
def call (s : TilemapVXPrivate) (c : Call) : TilemapVXPrivate :=
  { s with trace := s.trace ++ [c] }

/-- Method `invalidateAtlas`. -/
def invalidateAtlas (s : TilemapVXPrivate) : TilemapVXPrivate :=
  { s with atlasDirty := true }

/-- Method `invalidateBuffers`. -/
def invalidateBuffers (s : TilemapVXPrivate) : TilemapVXPrivate :=
  { s with buffersDirty := true }

/-- Method `rebuildAtlas`. -/
def rebuildAtlas (s : TilemapVXPrivate) : TilemapVXPrivate :=
  (s.call Call.rebuildAtlas).call (Call.atlasBuild s.bitmaps)

/-- Method `updatePosition`. -/
def updatePosition (s : TilemapVXPrivate) : TilemapVXPrivate :=
  { s with dispPos :=
      { x := iadd (ineg (isub s.offset.x (imul s.mapViewp.x 32))) s.sceneOffset.x
        y := iadd (ineg (isub s.offset.y (imul s.mapViewp.y 32))) s.sceneOffset.y } }

/-- The cell computation of `updateMapViewport`, applied there to each axis:
`if (offs >= 0) tile = offs / 32; else tile = -(-(offs-31) / 32);`. -/
def tileOrigin (offs : Int) : Int :=
  if offs ≥ 0 then idiv offs 32 else ineg (idiv (ineg (isub offs 31)) 32)

/-- Method `updateMapViewport`. -/
def updateMapViewport (s : TilemapVXPrivate) : TilemapVXPrivate :=
  let s := s.call Call.updateMapViewport
  let offs : Vec2i := { x := isub s.offset.x s.sceneOffset.x, y := isub s.offset.y s.sceneOffset.y }
  let tileOX := tileOrigin offs.x
  let tileOY := tileOrigin offs.y
  let dirty := false
  let (s, dirty) :=
    if tileOX < s.mapViewp.x ∨ tileOX > s.mapViewp.x then
      ({ s with mapViewp := { s.mapViewp with x := tileOX } }, true)
    else (s, dirty)
  let (s, dirty) :=
    if tileOY < s.mapViewp.y ∨ tileOY > s.mapViewp.y then
      ({ s with mapViewp := { s.mapViewp with y := tileOY } }, true)
    else (s, dirty)
  let s := if dirty then { s with buffersDirty := true } else s
  let s := updatePosition s
  s.call (Call.flashSetViewport s.mapViewp)

/-- Method `onGeometryChange`. -/
def onGeometryChange (s : TilemapVXPrivate) (geo : Geometry) : TilemapVXPrivate :=
  let s := { s with mapViewp :=
    { s.mapViewp with w := iadd (iadd (idiv geo.rect.w 32) (notnot (imod geo.rect.w 32))) 1 } }
  let s := { s with mapViewp :=
    { s.mapViewp with h := iadd (iadd (idiv geo.rect.h 32) (notnot (imod geo.rect.h 32))) 1 } }
  let s := { s with sceneOffset := { s.sceneOffset with x := isub geo.rect.x geo.xOrigin } }
  let s := { s with sceneOffset := { s.sceneOffset with y := isub geo.rect.y geo.yOrigin } }
  let s := { s with sceneGeo := geo }
  let s := { s with buffersDirty := true }
  { s with mapViewportDirty := true }

end TilemapVXPrivate

/-! ## External collaborators of the geometry builder -/

/-- Modelled from the spec: the `Table` of the absent `table.h`, a 2-D grid of
integer tile codes addressable by (x, y) within its bounds, stored row by row. -/
structure Table where
  xSize : Nat
  ySize : Nat
  data : List Int
deriving DecidableEq

/-- Modelled from the spec: the element accessor of the absent `Table`; a read
outside the bounds yields no tile code. -/
def Table.get? (t : Table) (x y : Int) : Option Int :=
  if 0 ≤ x ∧ x < t.xSize ∧ 0 ≤ y ∧ y < t.ySize then
    t.data[y.toNat * t.xSize + x.toNat]?
  else none

/-- What the renderer needs to know about the world outside it: the contents of
the tables its references point to, the tile-code to quad rule of the atlas
(absent `tileatlasvx.cpp`): texture rectangle and over-player flag of every quad
of a tile code, given the flag bits of the cell when a flag table is assigned,
and the constant `sizeof(SVertex)`. -/
structure World where
  table : TableRef → Table
  tileQuads : Int → Option Int → List (FloatRect × Bool)
  sizeofSVertex : Nat
  /-- Whether the bitmap behind a reference has been disposed. -/
  bitmapDisposed : BitmapRef → Bool := fun _ => false
  /-- The constant `sizeof(index_t)` of the shared index buffer. -/
  sizeofIndex : Nat := 4
  /-- The size `(atlas.width, atlas.height)` of the atlas texture. -/
  atlasSize : Vec2i := {}

/-- One call `reader.onQuads(t, p, n, overPlayer)` made by the tile reader. -/
structure QuadBatch where
  t : List FloatRect
  p : List FloatRect
  n : Nat
  overPlayer : Bool
deriving DecidableEq

/-- Modelled from the spec: the four vertices of a textured quad, each a corner
of the position rectangle paired with the matching corner of the texture
rectangle. -/
def Quad.corners (tex pos : FloatRect) : List SVertex :=
  [ { pos := { x := pos.x, y := pos.y }, texPos := { x := tex.x, y := tex.y } },
    { pos := { x := pos.x + pos.w, y := pos.y }, texPos := { x := tex.x + tex.w, y := tex.y } },
    { pos := { x := pos.x + pos.w, y := pos.y + pos.h },
      texPos := { x := tex.x + tex.w, y := tex.y + tex.h } },
    { pos := { x := pos.x, y := pos.y + pos.h }, texPos := { x := tex.x, y := tex.y + tex.h } } ]

/-- Modelled from the spec: `Quad::setTexPosRect(vert, tex, pos)` of the absent
`quad.h`, `vert` pointing at index `idx` of `vec`: the four vertices from that
index on are overwritten with the corners of the quad. -/
def Quad.setTexPosRect (vec : List SVertex) (idx : Nat) (tex pos : FloatRect) : List SVertex :=
  vec.take idx ++ Quad.corners tex pos ++ vec.drop (idx + 4)

/-- Modelled from the spec: the quads of one cell in the absent
`TileAtlasVX::readTiles`. A cell outside the table and a negative (sentinel)
tile code emit nothing; otherwise the tile code, with the flag bits of the cell,
is translated by the atlas rule into quads placed at the cell, in map pixel
space. -/
def TileAtlasVX.cellQuads (w : World) (data : Table) (flags : Option Table)
    (cx cy : Int) : List QuadBatch :=
  match data.get? cx cy with
  | none => []
  | some code =>
    if code < 0 then []
    else
      (w.tileQuads code (flags.bind fun f => f.get? cx cy)).map fun q =>
        { t := [q.1], p := [{ x := cx * 32, y := cy * 32, w := 32, h := 32 }], n := 1,
          overPlayer := q.2 }

/-- Modelled from the spec: `TileAtlasVX::readTiles` of the absent
`tileatlasvx.cpp`; for each cell of the region of `w` by `h` cells at (`ox`,
`oy`), row by row, the quads of that cell, as the calls made on the reader. -/
def TileAtlasVX.readTiles (world : World) (data : Table) (flags : Option Table)
    (ox oy w h : Int) : List QuadBatch :=
  (List.range h.toNat).flatMap fun j =>
    (List.range w.toNat).flatMap fun i =>
      TileAtlasVX.cellQuads world data flags (ox + i) (oy + j)

namespace TilemapVXPrivate

/-- Method `allocVert`: the vector grown by `count` value-initialised vertices,
and the index of the first of them (the returned pointer `&vec[size]`). -/
def allocVert (vec : List SVertex) (count : Nat) : List SVertex × Nat :=
  (vec ++ List.replicate count ({} : SVertex), vec.length)

/-- Method `onQuads`: the stream chosen by `overPlayer` grows by `n*4` vertices,
and quad `i` is written at `&vert[i*4]` from `t[i]` and `p[i]`. -/
def onQuads (s : TilemapVXPrivate) (t p : List FloatRect) (n : Nat) (overPlayer : Bool) :
    TilemapVXPrivate :=
  let (vec, vert) := allocVert (if overPlayer then s.aboveVert else s.groundVert) (n * 4)
  let vec := (List.range n).foldl
    (fun v i => Quad.setTexPosRect v (vert + i * 4) (t.getD i {}) (p.getD i {})) vec
  if overPlayer then { s with aboveVert := vec } else { s with groundVert := vec }

/-- Method `quadBytes`. -/
def quadBytes (w : World) (quads : Nat) : Nat :=
  quads * 4 * w.sizeofSVertex

/-- Method `rebuildBuffers`. -/
def rebuildBuffers (w : World) (s : TilemapVXPrivate) : TilemapVXPrivate :=
  let s := s.call Call.rebuildBuffers
  match s.mapData with
  | none => s
  | some mapData =>
    let s := { s with groundVert := [] }
    let s := { s with aboveVert := [] }
    let s := s.call
      (Call.readTiles mapData s.flags s.mapViewp.x s.mapViewp.y s.mapViewp.w s.mapViewp.h)
    let s : TilemapVXPrivate := (TileAtlasVX.readTiles w (w.table mapData) (s.flags.map w.table)
      s.mapViewp.x s.mapViewp.y s.mapViewp.w s.mapViewp.h).foldl
        (fun r b => r.onQuads b.t b.p b.n b.overPlayer) s
    let s := { s with groundQuads := s.groundVert.length / 4 }
    let s := { s with aboveQuads := s.aboveVert.length / 4 }
    let totalQuads : Nat := s.groundQuads + s.aboveQuads
    let s := s.call Call.vboBind
    let s : TilemapVXPrivate :=
      if totalQuads > s.allocQuads then
        { s.call (Call.vboAllocEmpty (quadBytes w totalQuads)) with allocQuads := totalQuads }
      else s
    let s := s.call (Call.vboUploadSubData 0 (quadBytes w s.groundQuads) s.groundVert)
    let s := s.call
      (Call.vboUploadSubData (quadBytes w s.groundQuads) (quadBytes w s.aboveQuads) s.aboveVert)
    let s := s.call Call.vboUnbind
    s.call (Call.ensureQuadIBO totalQuads)

/-- Method `prepare`. -/
def prepare (w : World) (s : TilemapVXPrivate) : TilemapVXPrivate :=
  match s.mapData with
  | none => s
  | some _ =>
    let s := if s.atlasDirty then { rebuildAtlas s with atlasDirty := false } else s
    let s := if s.mapViewportDirty then { updateMapViewport s with mapViewportDirty := false }
      else s
    let s := if s.buffersDirty then { rebuildBuffers w s with buffersDirty := false } else s
    s.call Call.flashPrepare

/-- Emission of the `modified` signal of table `t`: every slot the renderer has
connected to it runs (both connections call `invalidateBuffers`). -/
def tableModified (t : TableRef) (s : TilemapVXPrivate) : TilemapVXPrivate :=
  let s := if s.mapDataCon = some t then invalidateBuffers s else s
  if s.flagsCon = some t then invalidateBuffers s else s

/-- The constructor `TilemapVXPrivate(viewport)`, `geo` being the geometry of the
scene it is created in. -/
def new (geo : Geometry) : TilemapVXPrivate :=
  let s : TilemapVXPrivate :=
    { mapData := none, flags := none, allocQuads := 0, groundQuads := 0, aboveQuads := 0,
      frameIdx := 0, flashAlphaIdx := 0, atlasDirty := true, buffersDirty := false,
      mapViewportDirty := false, bitmaps := List.replicate BM_COUNT none }
  let s := onGeometryChange s geo
  { s with prepareCon := true }

/-- Modelled from the spec: `nullOrDisposed` of the absent `disposable.h`; a
null reference and a reference to a disposed bitmap both count as no data. -/
def nullOrDisposed (w : World) (bitmap : Option BitmapRef) : Bool :=
  match bitmap with
  | none => true
  | some b => w.bitmapDisposed b

/-- Method `drawGround`. -/
def drawGround (w : World) (s : TilemapVXPrivate) : TilemapVXPrivate :=
  if s.groundQuads = 0 then s
  else
    let (s, shader) :=
      if !nullOrDisposed w (s.bitmaps.getD BM_A1 none) then
        ((s.call (Call.shaderBind ShaderKind.tilemapVX)).call (Call.setAniOffset s.aniOffset),
          ShaderKind.tilemapVX)
      else (s.call (Call.shaderBind ShaderKind.simple), ShaderKind.simple)
    let s := s.call (Call.setTexSize shader w.atlasSize)
    let s := s.call (Call.applyViewportProj shader)
    let s := s.call (Call.setTranslation shader s.dispPos)
    let s := s.call Call.texBind
    let s := s.call Call.vaoBind
    let s := s.call (Call.drawElements (s.groundQuads * 6) 0)
    s.call Call.vaoUnbind

/-- Method `drawAbove`. -/
def drawAbove (w : World) (s : TilemapVXPrivate) : TilemapVXPrivate :=
  if s.aboveQuads = 0 then s
  else
    let s := s.call (Call.shaderBind ShaderKind.simple)
    let s := s.call (Call.setTexSize ShaderKind.simple w.atlasSize)
    let s := s.call (Call.applyViewportProj ShaderKind.simple)
    let s := s.call (Call.setTranslation ShaderKind.simple s.dispPos)
    let s := s.call Call.texBind
    let s := s.call Call.vaoBind
    let s := s.call (Call.drawElements (s.aboveQuads * 6) (s.groundQuads * 6 * w.sizeofIndex))
    s.call Call.vaoUnbind

/-- Method `drawFlashLayer`. The byte `flashAlpha[flashAlphaIdx]` is converted
to `float` without loss, and both divisions are `float` divisions. -/
def drawFlashLayer (s : TilemapVXPrivate) : TilemapVXPrivate :=
  let alpha : ℚ := fdiv (fdiv (flashAlpha.getD s.flashAlphaIdx 0 : ℚ) 255) 2
  s.call (Call.flashDraw alpha s.dispPos)

/-- Method `draw` of the ground element. -/
def draw (w : World) (s : TilemapVXPrivate) : TilemapVXPrivate :=
  let s := drawGround w s
  drawFlashLayer s

/-- Method `AboveLayer::draw` of the member `above`, whose `p` is the renderer. -/
def AboveLayer.draw (w : World) (p : TilemapVXPrivate) : TilemapVXPrivate :=
  let p := drawAbove w p
  drawFlashLayer p

/-- The scene z of the member `above`: `ViewportElement(viewport, 200)`. -/
def AboveLayer.z : Int := 200

end TilemapVXPrivate

/-! ## Signals and the slots connected to them -/

/-- The signals the objects handed to the renderer can emit. -/
inductive Signal where
  /-- Signal `modified` of a `Table`. -/
  | tableModified
  /-- A disposal notification of a `Table`. -/
  | tableDisposed
  /-- Signal `modified` of a `Bitmap`. -/
  | bitmapModified
  /-- Signal `wasDisposed` of a `Bitmap`. -/
  | bitmapDisposed
deriving DecidableEq

/-- The signal a connection member is attached to, as written at its `connect`
call: `value->modified` for both tables, `bitmap->modified` and
`bitmap->wasDisposed` for a bitmap slot. -/
def Slot.signal : Slot → Signal
  | Slot.mapData => Signal.tableModified
  | Slot.flags => Signal.tableModified
  | Slot.bmChanged _ => Signal.bitmapModified
  | Slot.bmDisposed _ => Signal.bitmapDisposed

/-- The member function a connection member calls, as written at its `connect`
call: `invalidateBuffers` for the tables, `invalidateAtlas` for the bitmaps. -/
def Slot.handler : Slot → TilemapVXPrivate → TilemapVXPrivate
  | Slot.mapData => TilemapVXPrivate.invalidateBuffers
  | Slot.flags => TilemapVXPrivate.invalidateBuffers
  | Slot.bmChanged _ => TilemapVXPrivate.invalidateAtlas
  | Slot.bmDisposed _ => TilemapVXPrivate.invalidateAtlas

/-- The object a connection member of the renderer is attached to, if any. -/
def TilemapVXPrivate.connection (s : TilemapVXPrivate) : Slot → Option Nat
  | Slot.mapData => s.mapDataCon
  | Slot.flags => s.flagsCon
  | Slot.bmChanged i => s.bmChangedCons.getD i none
  | Slot.bmDisposed i => s.bmDisposedCons.getD i none

/-- All connection members of the renderer to signals of tables and bitmaps. -/
def allSlots : List Slot :=
  [Slot.mapData, Slot.flags] ++ (List.range BM_COUNT).map Slot.bmChanged
    ++ (List.range BM_COUNT).map Slot.bmDisposed

/-- Emission of signal `sig` by object `source`: every connection member of the
renderer attached to that signal of that object calls its member function. -/
def TilemapVXPrivate.emit (sig : Signal) (source : Nat) (s : TilemapVXPrivate) :
    TilemapVXPrivate :=
  allSlots.foldl
    (fun r slot => if slot.signal = sig ∧ r.connection slot = some source then slot.handler r
      else r) s

/-! ## The public interface `TilemapVX` -/

/-- Ways an operation of the public interface fails. -/
inductive Error where
  /-- Thrown by `guardDisposed` on a renderer whose resources were released. -/
  | disposed
  /-- A member of a null pointer was accessed. -/
  | nullDereference
deriving DecidableEq

/-- State of `class TilemapVX`: the private state `p`, which is also the `p` of
the bitmap slot proxy `bmProxy`; `none` once `releaseResources` has run. -/
structure TilemapVX where
  p : Option TilemapVXPrivate
deriving DecidableEq

namespace TilemapVX

/-- Modelled from the spec: `guardDisposed` of the absent `disposable.h`, the
guarded precondition check that fails fast on a released renderer. -/
def guardDisposed (tm : TilemapVX) : Except Error TilemapVXPrivate :=
  match tm.p with
  | none => Except.error Error.disposed
  | some p => Except.ok p

/-- Method `TilemapVX::setMapData`. -/
def setMapData (tm : TilemapVX) (value : Option TableRef) : Except Error TilemapVX :=
  match guardDisposed tm with
  | Except.error e => Except.error e
  | Except.ok p =>
    if p.mapData = value then Except.ok tm
    else
      let p := { p with mapData := value }
      let p := { p with buffersDirty := true }
      let p := { p.call (Call.disconnect Slot.mapData) with mapDataCon := none }
      match value with
      | none => Except.error Error.nullDereference
      | some t =>
        Except.ok { p := some { p.call (Call.connect Slot.mapData t) with mapDataCon := some t } }

/-- Method `TilemapVX::setFlags`. -/
def setFlags (tm : TilemapVX) (value : Option TableRef) : Except Error TilemapVX :=
  match guardDisposed tm with
  | Except.error e => Except.error e
  | Except.ok p =>
    if p.flags = value then Except.ok tm
    else
      let p := { p with flags := value }
      let p := { p with buffersDirty := true }
      let p := { p.call (Call.disconnect Slot.flags) with flagsCon := none }
      match value with
      | none => Except.error Error.nullDereference
      | some t =>
        Except.ok { p := some { p.call (Call.connect Slot.flags t) with flagsCon := some t } }

/-- Method `TilemapVX::setOX`. -/
def setOX (tm : TilemapVX) (value : Int) : Except Error TilemapVX :=
  match guardDisposed tm with
  | Except.error e => Except.error e
  | Except.ok p =>
    if p.offset.x = value then Except.ok tm
    else
      let p := { p with offset := { p.offset with x := value } }
      Except.ok { p := some { p with mapViewportDirty := true } }

/-- Method `TilemapVX::setOY`. -/
def setOY (tm : TilemapVX) (value : Int) : Except Error TilemapVX :=
  match guardDisposed tm with
  | Except.error e => Except.error e
  | Except.ok p =>
    if p.offset.y = value then Except.ok tm
    else
      let p := { p with offset := { p.offset with y := value } }
      Except.ok { p := some { p with mapViewportDirty := true } }

/-- Method `TilemapVX::BitmapArray::set`, on the proxy of renderer `tm`. -/
def BitmapArray.set (tm : TilemapVX) (i : Int) (bitmap : Option BitmapRef) :
    Except Error TilemapVX :=
  match tm.p with
  | none => Except.ok tm
  | some p =>
    if i < 0 ∨ i ≥ BM_COUNT then Except.ok tm
    else if p.bitmaps.getD i.toNat none = bitmap then Except.ok tm
    else
      let p := { p with bitmaps := p.bitmaps.set i.toNat bitmap }
      let p := { p with atlasDirty := true }
      let p := { p.call (Call.disconnect (Slot.bmChanged i.toNat)) with
        bmChangedCons := p.bmChangedCons.set i.toNat none }
      match bitmap with
      | none => Except.error Error.nullDereference
      | some b =>
        let p := { p.call (Call.connect (Slot.bmChanged i.toNat) b) with
          bmChangedCons := p.bmChangedCons.set i.toNat (some b) }
        let p := { p.call (Call.disconnect (Slot.bmDisposed i.toNat)) with
          bmDisposedCons := p.bmDisposedCons.set i.toNat none }
        Except.ok { p := some { p.call (Call.connect (Slot.bmDisposed i.toNat) b) with
          bmDisposedCons := p.bmDisposedCons.set i.toNat (some b) } }

/-- Method `TilemapVX::BitmapArray::get`, on the proxy of renderer `tm`. -/
def BitmapArray.get (tm : TilemapVX) (i : Int) : Option BitmapRef :=
  match tm.p with
  | none => none
  | some p =>
    if i < 0 ∨ i ≥ BM_COUNT then none
    else p.bitmaps.getD i.toNat none

/-- Method `TilemapVX::update`. `frameIdx` is a `uint16_t` and `flashAlphaIdx` a
`uint8_t`: the increments wrap at `2^16` and `2^8`. -/
def update (tm : TilemapVX) : Except Error TilemapVX :=
  match guardDisposed tm with
  | Except.error e => Except.error e
  | Except.ok p =>
    let p := { p with frameIdx := (p.frameIdx + 1) % 65536 }
    let p := if p.frameIdx ≥ 30 * 3 * 4 then { p with frameIdx := 0 } else p
    let aniIdxA := aniIndicesA.getD (p.frameIdx / 30) 0
    let aniIdxC := aniIndicesC.getD (p.frameIdx / 30) 0
    let p := { p with aniOffset := { x := aniIdxA * 2 * 32, y := aniIdxC * 32 } }
    let p := { p with flashAlphaIdx := (p.flashAlphaIdx + 1) % 256 }
    let p := if p.flashAlphaIdx ≥ flashAlphaN then { p with flashAlphaIdx := 0 } else p
    Except.ok { p := some p }

/-- Method `TilemapVX::getBitmapArray`: the proxy `bmProxy`, which shares the
private state of the renderer. -/
def getBitmapArray (tm : TilemapVX) : Except Error TilemapVX :=
  match guardDisposed tm with
  | Except.error e => Except.error e
  | Except.ok _ => Except.ok tm

/-- Modelled from the spec: the getter the absent macro `DEF_ATTR_RD_SIMPLE`
(`util.h`) defines for `location`, behind the disposed guard. -/
def attrRdSimple {α : Type} (tm : TilemapVX) (location : TilemapVXPrivate → α) :
    Except Error α :=
  match guardDisposed tm with
  | Except.error e => Except.error e
  | Except.ok p => Except.ok (location p)

/-- Getter `DEF_ATTR_RD_SIMPLE(TilemapVX, MapData, Table*, p->mapData)`. -/
def getMapData (tm : TilemapVX) : Except Error (Option TableRef) :=
  attrRdSimple tm fun p => p.mapData

/-- Getter `DEF_ATTR_RD_SIMPLE(TilemapVX, FlashData, Table*, p->flashMap.getData())`. -/
def getFlashData (tm : TilemapVX) : Except Error (Option TableRef) :=
  attrRdSimple tm fun p => p.flashData

/-- Getter `DEF_ATTR_RD_SIMPLE(TilemapVX, Flags, Table*, p->flags)`. -/
def getFlags (tm : TilemapVX) : Except Error (Option TableRef) :=
  attrRdSimple tm fun p => p.flags

/-- Getter `DEF_ATTR_RD_SIMPLE(TilemapVX, OX, int, p->offset.x)`. -/
def getOX (tm : TilemapVX) : Except Error Int :=
  attrRdSimple tm fun p => p.offset.x

/-- Getter `DEF_ATTR_RD_SIMPLE(TilemapVX, OY, int, p->offset.y)`. -/
def getOY (tm : TilemapVX) : Except Error Int :=
  attrRdSimple tm fun p => p.offset.y

/-- Method `TilemapVX::getViewport`. -/
def getViewport (tm : TilemapVX) : Except Error (Option Nat) :=
  match guardDisposed tm with
  | Except.error e => Except.error e
  | Except.ok p => Except.ok p.viewport

/-- Method `TilemapVX::getVisible`. -/
def getVisible (tm : TilemapVX) : Except Error Bool :=
  match guardDisposed tm with
  | Except.error e => Except.error e
  | Except.ok p => Except.ok p.visible

/-- Method `TilemapVX::setViewport`. -/
def setViewport (tm : TilemapVX) (value : Option Nat) : Except Error TilemapVX :=
  match guardDisposed tm with
  | Except.error e => Except.error e
  | Except.ok p =>
    let p := { p with viewport := value }
    Except.ok { p := some { p with aboveViewport := value } }

/-- Method `TilemapVX::setFlashData`. -/
def setFlashData (tm : TilemapVX) (value : Option TableRef) : Except Error TilemapVX :=
  match guardDisposed tm with
  | Except.error e => Except.error e
  | Except.ok p =>
    Except.ok { p := some { p.call (Call.flashSetData value) with flashData := value } }

/-- Method `TilemapVX::setVisible`. -/
def setVisible (tm : TilemapVX) (value : Bool) : Except Error TilemapVX :=
  match guardDisposed tm with
  | Except.error e => Except.error e
  | Except.ok p =>
    let p := { p with visible := value }
    Except.ok { p := some { p with aboveVisible := value } }

/-- Method `TilemapVX::releaseResources`: `delete p; bmProxy.p = 0;`. -/
def releaseResources (_tm : TilemapVX) : TilemapVX :=
  { p := none }

end TilemapVX

/-! ## Vocabulary of the statements -/

/-- The vertices one reader call contributes: four for each of its `n` quads. -/
def QuadBatch.verts (b : QuadBatch) : List SVertex :=
  (List.range b.n).flatMap fun i => Quad.corners (b.t.getD i {}) (b.p.getD i {})

/-- The vertices a sequence of reader calls contributes to the above-player
stream (`over = true`) or to the ground stream (`over = false`). -/
def streamOf (over : Bool) (bs : List QuadBatch) : List SVertex :=
  (bs.filter fun b => b.overPlayer = over).flatMap QuadBatch.verts

/-- The reader calls `rebuildBuffers` receives in state `s` for map data `md`. -/
def TilemapVXPrivate.batches (w : World) (s : TilemapVXPrivate) (md : TableRef) :
    List QuadBatch :=
  TileAtlasVX.readTiles w (w.table md) (s.flags.map w.table)
    s.mapViewp.x s.mapViewp.y s.mapViewp.w s.mapViewp.h

/-- The calls recorded between state `before` and the later state `s`. -/
def TilemapVXPrivate.callsSince (s before : TilemapVXPrivate) : List Call :=
  s.trace.drop before.trace.length

/-- The stored region origin is the cell computed from the current scroll and
scene offsets (what `updateMapViewport` would store). -/
def TilemapVXPrivate.RegionCurrent (s : TilemapVXPrivate) : Prop :=
  s.mapViewp.x = TilemapVXPrivate.tileOrigin (isub s.offset.x s.sceneOffset.x) ∧
  s.mapViewp.y = TilemapVXPrivate.tileOrigin (isub s.offset.y s.sceneOffset.y)

instance (s : TilemapVXPrivate) : Decidable s.RegionCurrent := by
  unfold TilemapVXPrivate.RegionCurrent
  infer_instance

/-- A prepared renderer: map data assigned, the three dirty flags clear, and the
stored region origin current. -/
def TilemapVXPrivate.Prepared (s : TilemapVXPrivate) : Prop :=
  s.mapData ≠ none ∧ s.atlasDirty = false ∧ s.mapViewportDirty = false ∧
  s.buffersDirty = false ∧ s.RegionCurrent

instance (s : TilemapVXPrivate) : Decidable s.Prepared := by
  unfold TilemapVXPrivate.Prepared
  infer_instance

/-- A prepared renderer at scroll offset (0, 0) with region origin (0, 0). -/
def preparedAtOrigin : TilemapVXPrivate :=
  { mapData := some 1, mapDataCon := some 1, atlasDirty := false, prepareCon := true,
    mapViewp := { x := 0, y := 0, w := 6, h := 6 } }

/-- A world in which every table is a 10 by 10 map filled with tile code 1, and
tile code 1 is drawn as one ground quad. -/
def filledWorld : World :=
  { table := fun _ => { xSize := 10, ySize := 10, data := List.replicate 100 1 }
    tileQuads := fun code _ => if code = 1 then [({ x := 0, y := 0, w := 32, h := 32 }, false)]
      else []
    sizeofSVertex := 16 }

/-- The prepared renderer, with a scroll to x = 40 pending. -/
def scrollPending : TilemapVXPrivate :=
  { preparedAtOrigin with offset := { x := 40, y := 0 }, mapViewportDirty := true }

/-- The scene geometry of a viewport of 160 by 160 pixels at the origin. -/
def viewport5x5 : Geometry :=
  { xOrigin := 0, yOrigin := 0, rect := { x := 0, y := 0, w := 160, h := 160 } }

/-- The renderer of the end-to-end scenario: created in a scene whose viewport
is 160 by 160 pixels, then given the map data table 1, scroll offset (0, 0). -/
def fiveByFive : TilemapVXPrivate :=
  { TilemapVXPrivate.new viewport5x5 with
    mapData := some 1, mapDataCon := some 1, buffersDirty := true,
    trace := [Call.disconnect Slot.mapData, Call.connect Slot.mapData 1] }

/-- The scene geometry of a viewport of 100 by 64 pixels. -/
def viewport100x64 : Geometry :=
  { xOrigin := 0, yOrigin := 0, rect := { x := 0, y := 0, w := 100, h := 64 } }

/-- The calls of the atlas step of `prepare` in state `s`. -/
def TilemapVXPrivate.atlasCalls (s : TilemapVXPrivate) : List Call :=
  if s.atlasDirty then [Call.rebuildAtlas, Call.atlasBuild s.bitmaps] else []

/-- The state in which the buffer step of `prepare` finds region and flags:
`s` after the region step. -/
def TilemapVXPrivate.regionState (s : TilemapVXPrivate) : TilemapVXPrivate :=
  if s.mapViewportDirty then TilemapVXPrivate.updateMapViewport s else s

/-- The calls of the region step of `prepare` in state `s`. -/
def TilemapVXPrivate.regionCalls (s : TilemapVXPrivate) : List Call :=
  if s.mapViewportDirty then
    [Call.updateMapViewport, Call.flashSetViewport s.regionState.mapViewp]
  else []

/-- The calls of one run of `rebuildBuffers` on map data `md`, flag table `flags`
and region `r`, with `alloc` quads allocated so far. -/
def rebuildCalls (w : World) (md : TableRef) (flags : Option TableRef) (r : IntRect)
    (alloc : Nat) : List Call :=
  [Call.rebuildBuffers, Call.readTiles md flags r.x r.y r.w r.h, Call.vboBind] ++
  (if (streamOf false (TileAtlasVX.readTiles w (w.table md) (flags.map w.table)
          r.x r.y r.w r.h)).length / 4
        + (streamOf true (TileAtlasVX.readTiles w (w.table md) (flags.map w.table)
          r.x r.y r.w r.h)).length / 4 > alloc
   then [Call.vboAllocEmpty (TilemapVXPrivate.quadBytes w
      ((streamOf false (TileAtlasVX.readTiles w (w.table md) (flags.map w.table)
          r.x r.y r.w r.h)).length / 4
        + (streamOf true (TileAtlasVX.readTiles w (w.table md) (flags.map w.table)
          r.x r.y r.w r.h)).length / 4))]
   else []) ++
  [Call.vboUploadSubData 0
      (TilemapVXPrivate.quadBytes w ((streamOf false (TileAtlasVX.readTiles w (w.table md)
        (flags.map w.table) r.x r.y r.w r.h)).length / 4))
      (streamOf false (TileAtlasVX.readTiles w (w.table md) (flags.map w.table)
        r.x r.y r.w r.h)),
    Call.vboUploadSubData
      (TilemapVXPrivate.quadBytes w ((streamOf false (TileAtlasVX.readTiles w (w.table md)
        (flags.map w.table) r.x r.y r.w r.h)).length / 4))
      (TilemapVXPrivate.quadBytes w ((streamOf true (TileAtlasVX.readTiles w (w.table md)
        (flags.map w.table) r.x r.y r.w r.h)).length / 4))
      (streamOf true (TileAtlasVX.readTiles w (w.table md) (flags.map w.table)
        r.x r.y r.w r.h)),
    Call.vboUnbind,
    Call.ensureQuadIBO
      ((streamOf false (TileAtlasVX.readTiles w (w.table md) (flags.map w.table)
          r.x r.y r.w r.h)).length / 4
        + (streamOf true (TileAtlasVX.readTiles w (w.table md) (flags.map w.table)
          r.x r.y r.w r.h)).length / 4)]

/-- The calls of the buffer step of `prepare` started in state `s`. -/
def TilemapVXPrivate.bufferCalls (w : World) (s : TilemapVXPrivate) (md : TableRef) :
    List Call :=
  if s.regionState.buffersDirty then rebuildCalls w md s.flags s.regionState.mapViewp s.allocQuads
  else []

/-- A prepared renderer whose map data and flags are one and the same table 1. -/
def sharedTableState : TilemapVXPrivate :=
  { mapData := some 1, flags := some 1, mapDataCon := some 1, flagsCon := some 1,
    atlasDirty := false, prepareCon := true }

/-- The state `sharedTableState` after `setMapData` to table 2. -/
def sharedAfterSet : TilemapVXPrivate :=
  { sharedTableState with
    mapData := some 2, buffersDirty := true, mapDataCon := some 2,
    trace := [Call.disconnect Slot.mapData, Call.connect Slot.mapData 2] }

/-- A later state of `preparedAtOrigin` after `setMapData` to table 2, with
buffers-dirty clear again. -/
def originAfterSet : TilemapVXPrivate :=
  { preparedAtOrigin with
    mapData := some 2, mapDataCon := some 2,
    trace := [Call.disconnect Slot.mapData, Call.connect Slot.mapData 2] }

/-- The region invariant: unless the region flag is set, the stored region
origin is current. -/
def TilemapVXPrivate.RegionInv (s : TilemapVXPrivate) : Prop :=
  s.mapViewportDirty = false → s.RegionCurrent

/-- A renderer with map data assigned and clear flags, scrolled to (40, 7) while
its stored region origin is still (0, 0). -/
def scrolledState : TilemapVXPrivate :=
  { mapData := some 1, mapDataCon := some 1, offset := { x := 40, y := 7 }, atlasDirty := false,
    prepareCon := true }

/-- Whether a connection member is one of the two table connections. -/
def Slot.isTable : Slot → Bool
  | Slot.mapData => true
  | Slot.flags => true
  | Slot.bmChanged _ => false
  | Slot.bmDisposed _ => false

/-- Whether connection member `slot` of `s` is attached to signal `sig` of `source`. -/
def TilemapVXPrivate.attached (s : TilemapVXPrivate) (sig : Signal) (source : Nat)
    (slot : Slot) : Bool :=
  decide (slot.signal = sig ∧ s.connection slot = some source)

/-- The bitmap connections mirror the bitmap slots, and there are `BM_COUNT` of
each: what construction establishes and `BitmapArray::set` keeps. -/
def TilemapVXPrivate.SlotsWF (s : TilemapVXPrivate) : Prop :=
  s.bitmaps.length = BM_COUNT ∧ s.bmChangedCons = s.bitmaps ∧ s.bmDisposedCons = s.bitmaps

instance (s : TilemapVXPrivate) : Decidable s.SlotsWF := by
  unfold TilemapVXPrivate.SlotsWF
  infer_instance

/-- The prepared renderer with bitmap 7 assigned to the animated-tileset slot. -/
def withBitmap : TilemapVXPrivate :=
  { preparedAtOrigin with
    bitmaps := (List.replicate BM_COUNT none).set BM_A1 (some 7)
    bmChangedCons := (List.replicate BM_COUNT none).set BM_A1 (some 7)
    bmDisposedCons := (List.replicate BM_COUNT none).set BM_A1 (some 7) }

/-- The alpha `drawFlashLayer` passes to the flash map in state `s`. -/
def TilemapVXPrivate.flashLayerAlpha (s : TilemapVXPrivate) : ℚ :=
  fdiv (fdiv (flashAlpha.getD s.flashAlphaIdx 0 : ℚ) 255) 2

/-- The calls of `drawGround` in state `s`. -/
def TilemapVXPrivate.groundCalls (w : World) (s : TilemapVXPrivate) : List Call :=
  if s.groundQuads = 0 then []
  else
    (if TilemapVXPrivate.nullOrDisposed w (s.bitmaps.getD BM_A1 none) then
      [Call.shaderBind ShaderKind.simple, Call.setTexSize ShaderKind.simple w.atlasSize,
        Call.applyViewportProj ShaderKind.simple, Call.setTranslation ShaderKind.simple s.dispPos]
    else
      [Call.shaderBind ShaderKind.tilemapVX, Call.setAniOffset s.aniOffset,
        Call.setTexSize ShaderKind.tilemapVX w.atlasSize,
        Call.applyViewportProj ShaderKind.tilemapVX,
        Call.setTranslation ShaderKind.tilemapVX s.dispPos]) ++
    [Call.texBind, Call.vaoBind, Call.drawElements (s.groundQuads * 6) 0, Call.vaoUnbind]

/-- The calls of `drawAbove` in state `s`. -/
def TilemapVXPrivate.aboveCalls (w : World) (s : TilemapVXPrivate) : List Call :=
  if s.aboveQuads = 0 then []
  else
    [Call.shaderBind ShaderKind.simple, Call.setTexSize ShaderKind.simple w.atlasSize,
      Call.applyViewportProj ShaderKind.simple, Call.setTranslation ShaderKind.simple s.dispPos,
      Call.texBind, Call.vaoBind,
      Call.drawElements (s.aboveQuads * 6) (s.groundQuads * 6 * w.sizeofIndex), Call.vaoUnbind]

/-- Modelled from the spec: one frame of a visible renderer. The scene (absent
`scene.cpp`) draws its elements by ascending z: the ground element, created at
the default z, before the member `above`, created at z 200. -/
def TilemapVXPrivate.frame (w : World) (s : TilemapVXPrivate) : TilemapVXPrivate :=
  TilemapVXPrivate.AboveLayer.draw w (TilemapVXPrivate.draw w s)

/-- The world `filledWorld` in which bitmap 7 has been disposed. -/
def disposedWorld : World :=
  { filledWorld with bitmapDisposed := fun b => decide (b = 7) }

/-- The renderer `withBitmap` with ground quads to draw. -/
def withBitmapQuads : TilemapVXPrivate :=
  { withBitmap with groundQuads := 36, allocQuads := 36 }

/-- The frame index after one `update` tick. -/
def nextFrame (i : Nat) : Nat :=
  if (i + 1) % 65536 ≥ 30 * 3 * 4 then 0 else (i + 1) % 65536

/-- The flash pulse index after one `update` tick. -/
def nextFlash (a : Nat) : Nat :=
  if (a + 1) % 256 ≥ flashAlphaN then 0 else (a + 1) % 256

/-- The animation offset `update` derives from frame index `i`. -/
def aniOffsetOf (i : Nat) : Vec2i :=
  { x := aniIndicesA.getD (i / 30) 0 * 2 * 32, y := aniIndicesC.getD (i / 30) 0 * 32 }

/-- The renderer after `n` consecutive calls of `update`. -/
def TilemapVX.ticks : Nat → TilemapVX → Except Error TilemapVX
  | 0, tm => Except.ok tm
  | n + 1, tm => (TilemapVX.update tm).bind (TilemapVX.ticks n)

/-- The private state after `n` ticks: frame index and flash pulse index
advanced `n` times, and the animation offset derived from the frame index by the
last tick. -/
def TilemapVXPrivate.ticked (n : Nat) (s : TilemapVXPrivate) : TilemapVXPrivate :=
  { s with
    frameIdx := nextFrame^[n] s.frameIdx
    aniOffset := if n = 0 then s.aniOffset else aniOffsetOf (nextFrame^[n] s.frameIdx)
    flashAlphaIdx := nextFlash^[n] s.flashAlphaIdx }

/-- The byte ranges, as (offset, size), of the `VBO::uploadSubData` calls among
`calls`, in the order of the calls. -/
def uploadRanges (calls : List Call) : List (Nat × Nat) :=
  calls.filterMap fun c =>
    match c with
    | Call.vboUploadSubData offset size _ => some (offset, size)
    | _ => none

/-- The capacity in bytes of the vertex buffer after `calls`, `cap` being its
capacity before them: every `VBO::allocEmpty(bytes)` replaces the storage by one
of `bytes` bytes. -/
def vboCapacity (cap : Nat) (calls : List Call) : Nat :=
  calls.foldl
    (fun c call =>
      match call with
      | Call.vboAllocEmpty bytes => bytes
      | _ => c) cap

/-- The calls of `rebuildBuffers` up to the first upload, on map data `md`. -/
def TilemapVXPrivate.callsBeforeUpload (w : World) (s : TilemapVXPrivate) (md : TableRef) :
    List Call :=
  [Call.rebuildBuffers,
    Call.readTiles md s.flags s.mapViewp.x s.mapViewp.y s.mapViewp.w s.mapViewp.h,
    Call.vboBind] ++
  (if (rebuildBuffers w s).groundQuads + (rebuildBuffers w s).aboveQuads > s.allocQuads
   then [Call.vboAllocEmpty (quadBytes w
      ((rebuildBuffers w s).groundQuads + (rebuildBuffers w s).aboveQuads))]
   else [])

/-- Modelled from the spec: the standard quad index pattern of the shared quad
index buffer (absent `global-ibo.h`), two triangles over the four vertices of a
quad. -/
def quadIndexPattern : List Nat := [0, 1, 2, 2, 3, 0]

/-- Modelled from the spec: the index stored at position `i` of the shared quad
index buffer; quad `k` occupies positions `6k .. 6k+5` and uses vertices
`4k .. 4k+3`. -/
def quadIndex (i : Nat) : Nat :=
  i / 6 * 4 + quadIndexPattern.getD (i % 6) 0

/-- Modelled from the spec: the vertices held by the vertex buffer after
`calls`, by vertex index. `VBO::allocEmpty` leaves no vertex defined;
`VBO::uploadSubData(offset, size, data)` overwrites the vertices of the byte
range with those of `data`. -/
def vboContents (w : World) (calls : List Call) : Nat → Option SVertex :=
  calls.foldl
    (fun buf c =>
      match c with
      | Call.vboAllocEmpty _ => fun _ => none
      | Call.vboUploadSubData offset size data => fun v =>
        if offset / w.sizeofSVertex ≤ v ∧ v < offset / w.sizeofSVertex + size / w.sizeofSVertex
        then data[v - offset / w.sizeofSVertex]?
        else buf v
      | _ => buf) (fun _ => none)

/-- The `gl.DrawElements` calls among `calls`, as (count, byte offset). -/
def drawRanges (calls : List Call) : List (Nat × Nat) :=
  calls.filterMap fun c =>
    match c with
    | Call.drawElements count offset => some (count, offset)
    | _ => none

/-- The positions of the index buffer a draw call of `count` indices at byte
offset `offset` reads: from the first component up to, not including, the
second. -/
def indexRange (w : World) (r : Nat × Nat) : Nat × Nat :=
  (r.2 / w.sizeofIndex, r.2 / w.sizeofIndex + r.1)

/-- A renderer with map data table 1 assigned and a rebuild pending. -/
def rebuildPending : TilemapVXPrivate :=
  { preparedAtOrigin with buffersDirty := true }

/-- The scene geometry of a viewport of 640 by 480 pixels at the origin. -/
def viewport640x480 : Geometry :=
  { xOrigin := 0, yOrigin := 0, rect := { x := 0, y := 0, w := 640, h := 480 } }

/-- A renderer created for a viewport of 640 by 480 pixels and scrolled to
x = `INT_MIN + 1`, with the region step of `prepare` done. -/
def scrolledToIntMin : TilemapVXPrivate :=
  TilemapVXPrivate.updateMapViewport
    { TilemapVXPrivate.new viewport640x480 with offset := { x := INT_MIN + 1, y := 0 } }

/-- The operations a live renderer undergoes: the calls of the public interface,
the events delivered to it (a geometry change of its scene, a signal emitted by
a table or a bitmap), the `prepare` tick and the two draw calls of a frame. -/
inductive Op where
  /-- The call `setMapData(value)`. -/
  | setMapData (value : Option TableRef)
  /-- The call `setFlags(value)`. -/
  | setFlags (value : Option TableRef)
  /-- The call `setFlashData(value)`. -/
  | setFlashData (value : Option TableRef)
  /-- The call `setOX(value)`. -/
  | setOX (value : Int)
  /-- The call `setOY(value)`. -/
  | setOY (value : Int)
  /-- The call `setViewport(value)`. -/
  | setViewport (value : Option Nat)
  /-- The call `setVisible(value)`. -/
  | setVisible (value : Bool)
  /-- The call `set(i, bitmap)` on the bitmap slot proxy. -/
  | setBitmap (i : Int) (bitmap : Option BitmapRef)
  /-- The call `update()`. -/
  | update
  /-- The event `onGeometryChange(geo)`. -/
  | geometryChange (geo : Geometry)
  /-- Signal `sig` emitted by object `source`. -/
  | emit (sig : Signal) (source : Nat)
  /-- The `prepareDraw` tick, which calls `prepare`. -/
  | prepare
  /-- The call `draw()` on the ground element. -/
  | draw
  /-- The call `draw()` on the member `above`. -/
  | drawAbove
deriving DecidableEq

/-- The private state a call of the public interface leaves. -/
def TilemapVX.after (r : Except Error TilemapVX) : Except Error TilemapVXPrivate :=
  match r with
  | Except.error e => Except.error e
  | Except.ok tm => TilemapVX.guardDisposed tm

/-- One operation on a live renderer in state `s`. -/
def Op.apply (w : World) (op : Op) (s : TilemapVXPrivate) : Except Error TilemapVXPrivate :=
  match op with
  | Op.setMapData value => TilemapVX.after (TilemapVX.setMapData { p := some s } value)
  | Op.setFlags value => TilemapVX.after (TilemapVX.setFlags { p := some s } value)
  | Op.setFlashData value => TilemapVX.after (TilemapVX.setFlashData { p := some s } value)
  | Op.setOX value => TilemapVX.after (TilemapVX.setOX { p := some s } value)
  | Op.setOY value => TilemapVX.after (TilemapVX.setOY { p := some s } value)
  | Op.setViewport value => TilemapVX.after (TilemapVX.setViewport { p := some s } value)
  | Op.setVisible value => TilemapVX.after (TilemapVX.setVisible { p := some s } value)
  | Op.setBitmap i bitmap => TilemapVX.after (TilemapVX.BitmapArray.set { p := some s } i bitmap)
  | Op.update => TilemapVX.after (TilemapVX.update { p := some s })
  | Op.geometryChange geo => Except.ok (s.onGeometryChange geo)
  | Op.emit sig source => Except.ok (s.emit sig source)
  | Op.prepare => Except.ok (TilemapVXPrivate.prepare w s)
  | Op.draw => Except.ok (TilemapVXPrivate.draw w s)
  | Op.drawAbove => Except.ok (TilemapVXPrivate.AboveLayer.draw w s)

/-- A sequence of operations on a live renderer, stopping at the first failure. -/
def Op.run (w : World) : List Op → TilemapVXPrivate → Except Error TilemapVXPrivate
  | [], s => Except.ok s
  | op :: ops, s =>
    match op.apply w s with
    | Except.error e => Except.error e
    | Except.ok t => Op.run w ops t

/-- The three dirty flags of `s` are all set. -/
def TilemapVXPrivate.AllDirty (s : TilemapVXPrivate) : Prop :=
  s.atlasDirty = true ∧ s.mapViewportDirty = true ∧ s.buffersDirty = true

instance (s : TilemapVXPrivate) : Decidable s.AllDirty := by
  unfold TilemapVXPrivate.AllDirty
  infer_instance

/-- Flags that are set in `s` are set in `t`, and the trace of `t` extends that
of `s`. -/
def TilemapVXPrivate.KeepsDirty (s t : TilemapVXPrivate) : Prop :=
  (s.atlasDirty = true → t.atlasDirty = true) ∧
  (s.mapViewportDirty = true → t.mapViewportDirty = true) ∧
  (s.buffersDirty = true → t.buffersDirty = true) ∧
  s.trace <+: t.trace

/-- The C operator `a && b` on conditions that read memory: `b` is evaluated
only when `a` is true. A condition is `none` when evaluating it reads outside
the buffer. -/
def cand (a b : Option Bool) : Option Bool :=
  match a with
  | some true => b
  | some false => some false
  | none => none

/-- The C operator `a || b` on conditions that read memory: `b` is evaluated
only when `a` is false. -/
def cor (a b : Option Bool) : Option Bool :=
  match a with
  | some true => some true
  | some false => b
  | none => none

/-- The condition `lo <= bytes[k] && bytes[k] <= hi`, `bytes` being the memory
from the pointer to the end of the buffer. -/
def inRange (bytes : List Nat) (k lo hi : Nat) : Option Bool :=
  (bytes[k]?).map fun b => decide (lo ≤ b ∧ b ≤ hi)

/-- The condition `bytes[k] == v`. -/
def isByte (bytes : List Nat) (k v : Nat) : Option Bool :=
  (bytes[k]?).map fun b => decide (b = v)

/-- The first condition of the loop of `validUtf8`: ASCII. -/
def validUtf8.ascii (bytes : List Nat) : Option Bool :=
  cor (isByte bytes 0 0x09) (cor (isByte bytes 0 0x0A) (cor (isByte bytes 0 0x0D)
    (inRange bytes 0 0x20 0x7E)))

/-- The second condition of the loop of `validUtf8`: non-overlong 2-byte. -/
def validUtf8.twoByte (bytes : List Nat) : Option Bool :=
  cand (inRange bytes 0 0xC2 0xDF) (inRange bytes 1 0x80 0xBF)

/-- The third condition of the loop of `validUtf8`: excluding overlongs,
straight 3-byte, excluding surrogates. -/
def validUtf8.threeByte (bytes : List Nat) : Option Bool :=
  cor
    (cand (isByte bytes 0 0xE0) (cand (inRange bytes 1 0xA0 0xBF) (inRange bytes 2 0x80 0xBF)))
    (cor
      (cand (cor (inRange bytes 0 0xE1 0xEC) (cor (isByte bytes 0 0xEE) (isByte bytes 0 0xEF)))
        (cand (inRange bytes 1 0x80 0xBF) (inRange bytes 2 0x80 0xBF)))
      (cand (isByte bytes 0 0xED) (cand (inRange bytes 1 0x80 0x9F) (inRange bytes 2 0x80 0xBF))))

/-- The fourth condition of the loop of `validUtf8`: planes 1-3, planes 4-15,
plane 16. -/
def validUtf8.fourByte (bytes : List Nat) : Option Bool :=
  cor
    (cand (isByte bytes 0 0xF0) (cand (inRange bytes 1 0x90 0xBF)
      (cand (inRange bytes 2 0x80 0xBF) (inRange bytes 3 0x80 0xBF))))
    (cor
      (cand (inRange bytes 0 0xF1 0xF3) (cand (inRange bytes 1 0x80 0xBF)
        (cand (inRange bytes 2 0x80 0xBF) (inRange bytes 3 0x80 0xBF))))
      (cand (isByte bytes 0 0xF4) (cand (inRange bytes 1 0x80 0x8F)
        (cand (inRange bytes 2 0x80 0xBF) (inRange bytes 3 0x80 0xBF)))))

/-- The loop `while (*bytes)` of `validUtf8`, `bytes` being the memory from the
pointer to the end of the buffer and `bytes += n` dropping `n` bytes. Every
iteration advances the pointer, so `fuel` iterations suffice for a buffer of
`fuel` bytes. The result is `none` when a byte outside the buffer is read. -/
def validUtf8.loop : Nat → List Nat → Option Bool
  | 0, _ => none
  | fuel + 1, bytes =>
    match bytes[0]? with
    | none => none
    | some b =>
      if b = 0 then some true
      else
        match validUtf8.ascii bytes with
        | none => none
        | some true => validUtf8.loop fuel (bytes.drop 1)
        | some false =>
          match validUtf8.twoByte bytes with
          | none => none
          | some true => validUtf8.loop fuel (bytes.drop 2)
          | some false =>
            match validUtf8.threeByte bytes with
            | none => none
            | some true => validUtf8.loop fuel (bytes.drop 3)
            | some false =>
              match validUtf8.fourByte bytes with
              | none => none
              | some true => validUtf8.loop fuel (bytes.drop 4)
              | some false => some false

/-- Function `validUtf8` of `config.cpp`, on the buffer `string` points into:
`some` of the returned value, or `none` when a byte outside the buffer is
read. -/
def validUtf8 (string : List Nat) : Option Bool :=
  validUtf8.loop string.length string

/-- The UTF-8 encoding of the code point `c`, as the Unicode standard defines
it: one byte below U+0080, two below U+0800, three below U+10000, else four. -/
def utf8Encode (c : Nat) : List Nat :=
  if c < 0x80 then [c]
  else if c < 0x800 then [0xC0 + c / 64, 0x80 + c % 64]
  else if c < 0x10000 then [0xE0 + c / 4096, 0x80 + c / 64 % 64, 0x80 + c % 64]
  else [0xF0 + c / 262144, 0x80 + c / 4096 % 64, 0x80 + c / 64 % 64, 0x80 + c % 64]

/-- A Unicode scalar value: a code point up to U+10FFFF that is no surrogate. -/
def IsScalar (c : Nat) : Prop :=
  c ≤ 0x10FFFF ∧ ¬ (0xD800 ≤ c ∧ c ≤ 0xDFFF)

instance (c : Nat) : Decidable (IsScalar c) := by
  unfold IsScalar
  infer_instance

/-- A unit the validator accepts, in the words of the claim: a single byte
from {0x09, 0x0A, 0x0D, 0x20..0x7E}, or the UTF-8 encoding of a scalar value
from U+0080 on (two, three or four bytes, hence no overlong form). -/
def AcceptedUnit (seg : List Nat) : Prop :=
  (∃ b, seg = [b] ∧ (b = 0x09 ∨ b = 0x0A ∨ b = 0x0D ∨ (0x20 ≤ b ∧ b ≤ 0x7E))) ∨
  (∃ c, 0x80 ≤ c ∧ IsScalar c ∧ seg = utf8Encode c)

/-- A byte string that is a concatenation of accepted units. -/
def AcceptedString (s : List Nat) : Prop :=
  ∃ segs : List (List Nat), s = segs.flatMap id ∧ ∀ seg ∈ segs, AcceptedUnit seg

/-- Well-formed UTF-8: the concatenation of the encodings of scalar values. -/
def WellFormedUtf8 (s : List Nat) : Prop :=
  ∃ cs : List Nat, (∀ c ∈ cs, IsScalar c) ∧ s = cs.flatMap utf8Encode

/-- The byte at index `i` of the string `s`, 0 from the terminator on. -/
def peek (s : List Nat) (i : Nat) : Nat :=
  (s[i]?).getD 0

/-- A chain `c0 && (c1 && ...)` of conditions on consecutive bytes from index `k`. -/
def readChain (bytes : List Nat) : Nat → List (Nat → Bool) → Option Bool
  | _, [] => some true
  | k, [p] => (bytes[k]?).map p
  | k, p :: q :: ps => cand ((bytes[k]?).map p) (readChain bytes (k + 1) (q :: ps))

/-- The value of a chain of conditions on consecutive bytes of `s` from index `k`. -/
def chainValue (s : List Nat) : Nat → List (Nat → Bool) → Bool
  | _, [] => true
  | k, p :: ps => p (peek s k) && chainValue s (k + 1) ps

/-- Whether `b` is a byte of the ASCII subset the validator accepts. -/
def isAscii (b : Nat) : Bool :=
  decide (b = 0x09 ∨ b = 0x0A ∨ b = 0x0D ∨ (0x20 ≤ b ∧ b ≤ 0x7E))

/-- Whether `b0 b1` is a 2-byte sequence the validator accepts. -/
def isTwoByte (b0 b1 : Nat) : Bool :=
  decide ((0xC2 ≤ b0 ∧ b0 ≤ 0xDF) ∧ (0x80 ≤ b1 ∧ b1 ≤ 0xBF))

/-- Whether `b0 b1 b2` is a 3-byte sequence the validator accepts. -/
def isThreeByte (b0 b1 b2 : Nat) : Bool :=
  decide (((b0 = 0xE0 ∧ (0xA0 ≤ b1 ∧ b1 ≤ 0xBF)) ∨
      (((0xE1 ≤ b0 ∧ b0 ≤ 0xEC) ∨ b0 = 0xEE ∨ b0 = 0xEF) ∧ (0x80 ≤ b1 ∧ b1 ≤ 0xBF)) ∨
      (b0 = 0xED ∧ (0x80 ≤ b1 ∧ b1 ≤ 0x9F))) ∧
    (0x80 ≤ b2 ∧ b2 ≤ 0xBF))

/-- Whether `b0 b1 b2 b3` is a 4-byte sequence the validator accepts. -/
def isFourByte (b0 b1 b2 b3 : Nat) : Bool :=
  decide (((b0 = 0xF0 ∧ (0x90 ≤ b1 ∧ b1 ≤ 0xBF)) ∨
      ((0xF1 ≤ b0 ∧ b0 ≤ 0xF3) ∧ (0x80 ≤ b1 ∧ b1 ≤ 0xBF)) ∨
      (b0 = 0xF4 ∧ (0x80 ≤ b1 ∧ b1 ≤ 0x8F))) ∧
    (0x80 ≤ b2 ∧ b2 ≤ 0xBF) ∧ (0x80 ≤ b3 ∧ b3 ≤ 0xBF))

/-- The number of bytes one iteration of the loop of `validUtf8` advances over
at the head of the string `s`; 0 when it returns false. -/
def unitLength (s : List Nat) : Nat :=
  if isAscii (peek s 0) then 1
  else if isTwoByte (peek s 0) (peek s 1) then 2
  else if isThreeByte (peek s 0) (peek s 1) (peek s 2) then 3
  else if isFourByte (peek s 0) (peek s 1) (peek s 2) (peek s 3) then 4
  else 0

/-- Whether `seg` is, byte for byte, a unit one iteration of the loop of
`validUtf8` advances over. -/
def unitBytes (seg : List Nat) : Bool :=
  match seg with
  | [b0] => isAscii b0
  | [b0, b1] => isTwoByte b0 b1
  | [b0, b1, b2] => isThreeByte b0 b1 b2
  | [b0, b1, b2, b3] => isFourByte b0 b1 b2 b3
  | _ => false

/-- A byte string that splits into units the loop of `validUtf8` advances over. -/
def SplitsIntoUnits (s : List Nat) : Prop :=
  ∃ segs : List (List Nat), s = segs.flatMap id ∧ ∀ seg ∈ segs, unitBytes seg = true

/-- Modelled from the spec: `enum SourceType` of the absent `keybindings.h`, the
kinds of input source a binding can name; `Invalid` marks an empty slot. -/
inductive SourceType where
  | Invalid
  | Key
  | JButton
  | JAxis
  | JHat
deriving DecidableEq

/-- Modelled from the spec: `struct SourceDesc` of the absent `keybindings.h`, an
input source: its type and the data `d` of that type (scancode, joystick button,
axis and direction, or hat and position), kept as one number. -/
structure SourceDesc where
  type : SourceType := SourceType.Invalid
  d : Nat := 0
deriving DecidableEq

/-- Modelled from the spec: `SourceDesc::operator==` of the absent
`keybindings.h`; two sources are equal when they have the same type and, unless
that type is `Invalid`, the same data. -/
def SourceDesc.equals (a o : SourceDesc) : Bool :=
  if a.type ≠ o.type then false
  else if a.type = SourceType.Invalid then true
  else decide (a.d = o.d)

/-- Modelled from the spec: `SourceDesc::operator!=` of the absent
`keybindings.h`, the negation of `operator==`. -/
def SourceDesc.differs (a o : SourceDesc) : Bool :=
  !(a.equals o)

/-- Modelled from the spec: `Input::ButtonCode` of the absent `input.h`, the
button codes of the engine; the first twelve are the virtual buttons the
settings menu binds. -/
inductive ButtonCode where
  | Up | Down | L | Left | Right | R | A | B | C | X | Y | Z
  | None | Shift | Ctrl | Alt | F5 | F6 | F7 | F8 | F9
deriving DecidableEq

/-- Type `struct VButton`: a button code and its label. -/
structure VButton where
  code : ButtonCode
  str : String
deriving DecidableEq

/-- The table `vButtons`. -/
def vButtons : List VButton :=
  [ { code := ButtonCode.Up, str := "Up" },
    { code := ButtonCode.Down, str := "Down" },
    { code := ButtonCode.L, str := "L" },
    { code := ButtonCode.Left, str := "Left" },
    { code := ButtonCode.Right, str := "Right" },
    { code := ButtonCode.R, str := "W-Atk" },
    { code := ButtonCode.A, str := "Dismount" },
    { code := ButtonCode.B, str := "Cancel" },
    { code := ButtonCode.C, str := "Confirm" },
    { code := ButtonCode.X, str := "A-Atk" },
    { code := ButtonCode.Y, str := "S-Atk" },
    { code := ButtonCode.Z, str := "D-Atk" } ]

/-- The constant `vButtonsN` declared by `static elementsN(vButtons);`. -/
def vButtonsN : Nat := vButtons.length

/-- Modelled from the spec: `struct BindingDesc` of the absent `keybindings.h`,
one binding: an input source and the button it triggers. -/
structure BindingDesc where
  src : SourceDesc
  target : ButtonCode
deriving DecidableEq

/-- Type `struct BindingWidget`: the virtual button `vb`, the source slots
`src[4]` and the duplicate flags `dupFlag[4]`. -/
structure BindingWidget where
  vb : VButton
  src : List SourceDesc
  dupFlag : List Bool
deriving DecidableEq

/-- The fields of `struct SettingsMenuPrivate` the binding data lives in. -/
structure SettingsMenuPrivate where
  bWidgets : List BindingWidget
  dupWarn : Bool
deriving DecidableEq

/-- The value of `bWidgets[i].src[j]`. -/
def srcAt (ws : List BindingWidget) (i j : Nat) : SourceDesc :=
  ((ws[i]?).bind fun w => w.src[j]?).getD {}

/-- The value of `bWidgets[i].dupFlag[j]`. -/
def flagAt (ws : List BindingWidget) (i j : Nat) : Bool :=
  ((ws[i]?).bind fun w => w.dupFlag[j]?).getD false

/-- The assignment `bWidgets[i].dupFlag[j] = v`. -/
def setDupFlag (ws : List BindingWidget) (i j : Nat) (v : Bool) : List BindingWidget :=
  match ws[i]? with
  | none => ws
  | some w => ws.set i { w with dupFlag := w.dupFlag.set j v }

/-- Method `updateDuplicateStatus`. The reference `src` names `bWidgets[i].src[j]`,
which the method never writes. -/
def SettingsMenuPrivate.updateDuplicateStatus (p : SettingsMenuPrivate) : SettingsMenuPrivate :=
  let p := (List.range p.bWidgets.length).foldl
    (fun p i => (List.range 4).foldl
      (fun p j => { p with bWidgets := setDupFlag p.bWidgets i j false }) p) p
  let p := { p with dupWarn := false }
  (List.range p.bWidgets.length).foldl
    (fun p i => (List.range 4).foldl
      (fun p j =>
        let src := srcAt p.bWidgets i j
        if src.type = SourceType.Invalid then p
        else
          (List.range p.bWidgets.length).foldl
            (fun p k =>
              if k = i then p
              else
                (List.range 4).foldl
                  (fun p l =>
                    if (srcAt p.bWidgets k l).differs src then p
                    else
                      let p := { p with bWidgets := setDupFlag p.bWidgets i j true }
                      let p := { p with bWidgets := setDupFlag p.bWidgets k l true }
                      { p with dupWarn := true }) p) p) p) p

/-- The widgets hold arrays of four source slots and four duplicate flags. -/
def WidgetsWF (ws : List BindingWidget) : Prop :=
  ∀ w ∈ ws, w.src.length = 4 ∧ w.dupFlag.length = 4

instance (ws : List BindingWidget) : Decidable (WidgetsWF ws) := by
  unfold WidgetsWF
  infer_instance

/-- The assignments `bWidgets[m.1].dupFlag[m.2] = v` for the index pairs `m` of
`ms`, in order. -/
def markAll (v : Bool) (ws : List BindingWidget) (ms : List (Nat × Nat)) : List BindingWidget :=
  ms.foldl (fun r m => setDupFlag r m.1 m.2 v) ws

/-- The index pairs the innermost loop of `updateDuplicateStatus` flags for slot
`j` of widget `i`, whose source is `src`, against slot `l` of widget `k`. -/
def dupMarksSlot (src : SourceDesc) (i j k : Nat) (ws : List BindingWidget) (l : Nat) :
    List (Nat × Nat) :=
  if (srcAt ws k l).differs src then [] else [(i, j), (k, l)]

/-- The index pairs `updateDuplicateStatus` flags for slot `j` of widget `i`,
whose source is `src`, against widget `k`. -/
def dupMarksWidget (src : SourceDesc) (i j : Nat) (ws : List BindingWidget) (k : Nat) :
    List (Nat × Nat) :=
  if k = i then [] else (List.range 4).flatMap (dupMarksSlot src i j k ws)

/-- The index pairs `updateDuplicateStatus` flags for slot `j` of widget `i`. -/
def dupMarksSource (i : Nat) (ws : List BindingWidget) (j : Nat) : List (Nat × Nat) :=
  if (srcAt ws i j).type = SourceType.Invalid then []
  else (List.range ws.length).flatMap (dupMarksWidget (srcAt ws i j) i j ws)

/-- The index pairs `updateDuplicateStatus` flags for the slots of widget `i`. -/
def dupMarksOf (ws : List BindingWidget) (i : Nat) : List (Nat × Nat) :=
  (List.range 4).flatMap (dupMarksSource i ws)

/-- The index pairs `updateDuplicateStatus` flags, in the order of its loops. -/
def dupMarks (ws : List BindingWidget) : List (Nat × Nat) :=
  (List.range ws.length).flatMap (dupMarksOf ws)

/-- All index pairs of the duplicate flags of the widgets `is`. -/
def allSlotsOf (is : List Nat) : List (Nat × Nat) :=
  is.flatMap fun i => (List.range 4).map fun j => (i, j)

/-- Three widgets: the first two share the key source 40 in different slots, the
third holds the key source 41 twice. -/
def dupExample : SettingsMenuPrivate :=
  { bWidgets :=
      [ { vb := { code := ButtonCode.Up, str := "Up" }
          src := [{ type := SourceType.Key, d := 40 }, {}, {}, {}]
          dupFlag := [true, true, false, false] },
        { vb := { code := ButtonCode.Down, str := "Down" }
          src := [{}, { type := SourceType.Key, d := 40 }, {}, {}]
          dupFlag := [false, false, false, false] },
        { vb := { code := ButtonCode.L, str := "L" }
          src := [{ type := SourceType.Key, d := 41 }, { type := SourceType.Key, d := 41 }, {}, {}]
          dupFlag := [false, false, false, true] } ]
    dupWarn := false }

/-- A slot is a duplicate when it holds a valid source and a slot of another
widget holds an equal source. -/
def IsDuplicate (ws : List BindingWidget) (i j : Nat) : Prop :=
  (srcAt ws i j).type ≠ SourceType.Invalid ∧
  ∃ k l, k < ws.length ∧ k ≠ i ∧ l < 4 ∧ (srcAt ws k l).equals (srcAt ws i j) = true

/-- The assignment `bWidgets[i].src[j].type = t`. -/
def setSrcType (ws : List BindingWidget) (i j : Nat) (t : SourceType) : List BindingWidget :=
  match ws[i]? with
  | none => ws
  | some w =>
    match w.src[j]? with
    | none => ws
    | some s => ws.set i { w with src := w.src.set j { s with type := t } }

/-- The assignment `bWidgets[i].src[j] = s`. -/
def setSrc (ws : List BindingWidget) (i j : Nat) (s : SourceDesc) : List BindingWidget :=
  match ws[i]? with
  | none => ws
  | some w => ws.set i { w with src := w.src.set j s }

/-- The search loop of `setupBindingData`: the first `j` below `vButtonsN`
with `bWidgets[j].vb.code == trg`, or `vButtonsN` when there is none. -/
def findWidget (ws : List BindingWidget) (trg : ButtonCode) : Nat :=
  ((List.range vButtonsN).find? fun j =>
    decide ((ws[j]?).map (fun w => w.vb.code) = some trg)).getD vButtonsN

/-- The body of the loop over `d` of `setupBindingData`, for the binding `desc`,
on the menu and the local array `slotI`; `none` when `assert(j < vButtonsN)`
fails. -/
def SettingsMenuPrivate.setupBindingData.step (st : SettingsMenuPrivate × List Nat)
    (desc : BindingDesc) : Option (SettingsMenuPrivate × List Nat) :=
  let (p, slotI) := st
  let trg := desc.target
  let j := findWidget p.bWidgets trg
  if ¬ j < vButtonsN then none
  else
    let slot := slotI.getD j 0
    if slot = 4 then some (p, slotI)
    else
      some ({ p with bWidgets := setSrc p.bWidgets j slot desc.src }, slotI.set j (slot + 1))

/-- The next iteration of the loop over `d` of `setupBindingData`, unless an
earlier one failed. -/
def SettingsMenuPrivate.setupBindingData.next
    (st : Option (SettingsMenuPrivate × List Nat)) (desc : BindingDesc) :
    Option (SettingsMenuPrivate × List Nat) :=
  match st with
  | none => none
  | some st => SettingsMenuPrivate.setupBindingData.step st desc

/-- Method `setupBindingData`; `none` when `assert(j < vButtonsN)` fails. -/
def SettingsMenuPrivate.setupBindingData (p : SettingsMenuPrivate) (d : List BindingDesc) :
    Option SettingsMenuPrivate :=
  let slotI : List Nat := List.replicate vButtonsN 0
  let p := (List.range p.bWidgets.length).foldl
    (fun p i => (List.range 4).foldl
      (fun p j => { p with bWidgets := setSrcType p.bWidgets i j SourceType.Invalid }) p) p
  (d.foldl SettingsMenuPrivate.setupBindingData.next (some (p, slotI))).map fun st => st.1

/-- Method `BindingWidget::appendBindings`. -/
def BindingWidget.appendBindings (w : BindingWidget) (d : List BindingDesc) :
    List BindingDesc :=
  (List.range 4).foldl
    (fun d i =>
      if (w.src.getD i {}).type = SourceType.Invalid then d
      else d ++ [{ src := w.src.getD i {}, target := w.vb.code }]) d

/-- The binding list `binds` that `onAccept` collects from the widgets, posts
and stores. -/
def SettingsMenuPrivate.onAccept (p : SettingsMenuPrivate) : List BindingDesc :=
  p.bWidgets.foldl (fun binds w => w.appendBindings binds) []

/-- The bindings of `d` for button `code`, in their order in `d`. -/
def bindingsFor (d : List BindingDesc) (code : ButtonCode) : List BindingDesc :=
  d.filter fun b => b.target = code

/-- The widgets as the constructor of `SettingsMenu` creates them: one for each
entry of `vButtons`, in order, with arrays of four slots. -/
def Constructed (p : SettingsMenuPrivate) : Prop :=
  p.bWidgets.map (fun w => w.vb) = vButtons ∧ WidgetsWF p.bWidgets

instance (p : SettingsMenuPrivate) : Decidable (Constructed p) := by
  unfold Constructed
  infer_instance

/-- The index in `vButtons` of button `trg`, `vButtonsN` when it is no virtual
button. -/
def buttonIndex (trg : ButtonCode) : Nat :=
  ((List.range vButtonsN).find? fun j =>
    decide ((vButtons[j]?).map (fun vb => vb.code) = some trg)).getD vButtonsN

/-- The assignments `bWidgets[m.1].src[m.2].type = Invalid` for the index pairs
`m` of `ms`, in order. -/
def clearAll (ws : List BindingWidget) (ms : List (Nat × Nat)) : List BindingWidget :=
  ms.foldl (fun r m => setSrcType r m.1 m.2 SourceType.Invalid) ws

/-- The state of the loop over `d` of `setupBindingData` once the bindings `pre`
are processed: for every virtual button, the slot counter is the number of its
bindings in `pre`, at most 4, the first slots of its widget hold the sources of
these bindings in order, and the other slots are `Invalid`. -/
def SlotsFilled (pre : List BindingDesc) (ws : List BindingWidget) (slotI : List Nat) : Prop :=
  ws.map (fun w => w.vb) = vButtons ∧ WidgetsWF ws ∧ slotI.length = vButtonsN ∧
  ∀ c, buttonIndex c < vButtonsN →
    slotI.getD (buttonIndex c) 0 = min 4 (bindingsFor pre c).length ∧
    ∀ k, k < 4 →
      (∀ b, (bindingsFor pre c)[k]? = some b → srcAt ws (buttonIndex c) k = b.src) ∧
      ((bindingsFor pre c).length ≤ k →
        (srcAt ws (buttonIndex c) k).type = SourceType.Invalid)

/-- The settings menu as constructed, its slots not yet assigned. -/
def freshMenu : SettingsMenuPrivate :=
  { bWidgets := vButtons.map fun vb =>
      { vb := vb, src := List.replicate 4 { type := SourceType.Key, d := 7 }
        dupFlag := List.replicate 4 false }
    dupWarn := false }

/-- A binding list with five bindings for `Up` and one for `Z`. -/
def fiveUps : List BindingDesc :=
  [ { src := { type := SourceType.Key, d := 1 }, target := ButtonCode.Up },
    { src := { type := SourceType.Key, d := 2 }, target := ButtonCode.Z },
    { src := { type := SourceType.Key, d := 3 }, target := ButtonCode.Up },
    { src := { type := SourceType.JButton, d := 4 }, target := ButtonCode.Up },
    { src := { type := SourceType.Key, d := 5 }, target := ButtonCode.Up },
    { src := { type := SourceType.Key, d := 6 }, target := ButtonCode.Up } ]

/-- The binding `appendBindings` appends for slot `k` of widget `w`, if any. -/
def BindingWidget.slotBinding (w : BindingWidget) (k : Nat) : List BindingDesc :=
  if (w.src.getD k {}).type = SourceType.Invalid then []
  else [{ src := w.src.getD k {}, target := w.vb.code }]

/-- Modelled from the spec: `clamp` of the absent `util.h`, the value brought
into the range from `lo` to `hi`. -/
def clamp (value lo hi : Int) : Int :=
  if value < lo then lo else if value > hi then hi else value

/-- The fields of `struct Config` that `read` and `readGameINI` decide the
version and the screen size from. Strings are kept as their bytes. -/
structure Config where
  rgssVersion : Int := 0
  defScreenW : Int := 0
  defScreenH : Int := 0
  gameFolder : List Nat := [46]
  customScript : List Nat := []
  seSourceCount : Int := 6
  gameTitle : List Nat := []
  gameScripts : List Nat := []
deriving DecidableEq

/-- The entries of the `variables_map` that `read` assigns these fields from; an
entry is `none` when `vm[key].as<type>()` throws, which `GUARD_ALL` swallows. -/
structure ConfigOptions where
  rgssVersion : Option Int := none
  defScreenW : Option Int := none
  defScreenH : Option Int := none
  gameFolder : Option (List Nat) := none
  customScript : Option (List Nat) := none
  seSourceCount : Option Int := none
deriving DecidableEq

/-- The entries `Game.Title` and `Game.Scripts` parsed from `Game.ini`; an entry
is `none` when the file does not give it. -/
structure GameIni where
  title : Option (List Nat) := none
  scripts : Option (List Nat) := none
deriving DecidableEq

/-- The statement `GUARD_ALL( key = vm[#key].as< type >(); )`. -/
def guardAll {α : Type} (key : α) (entry : Option α) : α :=
  match entry with
  | some v => v
  | none => key

/-- Method `Config::read`, on the options parsed from the command line and the
configuration file, for the fields kept here. -/
def Config.read (c : Config) (vm : ConfigOptions) : Config :=
  let c := { c with rgssVersion := guardAll c.rgssVersion vm.rgssVersion }
  let c := { c with defScreenW := guardAll c.defScreenW vm.defScreenW }
  let c := { c with defScreenH := guardAll c.defScreenH vm.defScreenH }
  let c := { c with gameFolder := guardAll c.gameFolder vm.gameFolder }
  let c := { c with seSourceCount := guardAll c.seSourceCount vm.seSourceCount }
  let c := { c with customScript := guardAll c.customScript vm.customScript }
  let c := { c with rgssVersion := clamp c.rgssVersion 0 3 }
  { c with seSourceCount := clamp c.seSourceCount 1 64 }

/-- Function `baseName`: the part of `path` after the last `/` or `\`. -/
def baseName (path : List Nat) : List Nat :=
  match (List.range path.length).reverse.find? fun i => path.getD i 0 = 47 ∨ path.getD i 0 = 92 with
  | none => path
  | some pos => path.drop (pos + 1)

/-- Function `setupScreenSize`. -/
def setupScreenSize (conf : Config) : Config :=
  let conf :=
    if conf.defScreenW ≤ 0 then
      { conf with defScreenW := if conf.rgssVersion = 1 then 640 else 544 }
    else conf
  if conf.defScreenH ≤ 0 then
    { conf with defScreenH := if conf.rgssVersion = 1 then 480 else 416 }
  else conf

/-- Modelled from the spec: `strReplace` of the absent `util.h`, every byte `a`
of the string replaced by `b`. -/
def strReplace (s : List Nat) (a b : Nat) : List Nat :=
  s.map fun x => if x = a then b else x

/-- The loop `while (--p != head) if (*p == '.') break;` of `readGameINI`, the
pointers `p` and `head` kept as indices into `scripts` (`head` is 0): the index
`p` ends at, from its value before the first decrement. -/
def scanDot (scripts : List Nat) : Nat → Nat
  | 0 => 0
  | p + 1 => if p = 0 then 0 else if scripts.getD p 0 = 46 then p else scanDot scripts p

/-- The C string at a pointer into a buffer: the bytes up to the first NUL. -/
def cString (bytes : List Nat) : List Nat :=
  bytes.takeWhile fun b => b ≠ 0

/-- The bytes of the literal ".rvdata". -/
def dotRvdata : List Nat := [46, 114, 118, 100, 97, 116, 97]

/-- The bytes of the literal ".rvdata2". -/
def dotRvdata2 : List Nat := [46, 114, 118, 100, 97, 116, 97, 50]

/-- Method `Config::readGameINI`, built without `INI_ENCODING`, on the parsed
`Game.ini`; `none` when parsing the file throws (the exception leaves the
method). -/
def Config.readGameINI (c : Config) (ini : Option GameIni) : Option Config :=
  if c.customScript ≠ [] then
    let c := { c with gameTitle := baseName c.customScript }
    let c := if c.rgssVersion = 0 then { c with rgssVersion := 1 } else c
    some (setupScreenSize c)
  else
    match ini with
    | none => none
    | some vm =>
      let c := { c with gameTitle := guardAll c.gameTitle vm.title }
      let c := { c with gameScripts := guardAll c.gameScripts vm.scripts }
      let c := { c with gameScripts := strReplace c.gameScripts 92 47 }
      let c := if validUtf8 (c.gameTitle ++ [0]) ≠ some true then { c with gameTitle := [] } else c
      let c := if c.gameTitle = [] then { c with gameTitle := baseName c.gameFolder } else c
      let c :=
        if c.rgssVersion = 0 then
          let c := { c with rgssVersion := 1 }
          if c.gameScripts ≠ [] then
            let p := scanDot c.gameScripts c.gameScripts.length
            if cString (c.gameScripts.drop p) = dotRvdata then { c with rgssVersion := 2 }
            else if cString (c.gameScripts.drop p) = dotRvdata2 then { c with rgssVersion := 3 }
            else c
          else c
        else c
      some (setupScreenSize c)

/-- A configuration with version 0 and no screen size, as constructed, and the
`Game.ini` of a game whose scripts are in "Data/Scripts.rvdata2". -/
def vxAceIni : GameIni :=
  { title := some [71], scripts := some
      [68, 97, 116, 97, 92, 83, 99, 114, 105, 112, 116, 115, 46, 114, 118, 100, 97, 116, 97, 50] }

/-- The version `readGameINI` guesses from the scripts path. -/
def guessVersion (scripts : List Nat) : Int :=
  if scripts ≠ [] then
    if cString (scripts.drop (scanDot scripts scripts.length)) = dotRvdata then 2
    else if cString (scripts.drop (scanDot scripts scripts.length)) = dotRvdata2 then 3
    else 1
  else 1

/-! ## Theorems -/

open TilemapVXPrivate
open SettingsMenuPrivate

/-- Without overflow `wrap32` is the identity. -/
theorem wrap32_of_range (x : Int) (h1 : INT_MIN ≤ x) (h2 : x ≤ INT_MAX) : wrap32 x = x := by
  unfold INT_MIN at h1
  unfold INT_MAX at h2
  unfold wrap32
  omega

/-- For every offset whose negation step does not overflow, that is from
`INT_MIN + 32` upward, the cell computation is floor division by 32. -/
theorem tileOrigin_eq_floor (o : Int) (h1 : INT_MIN + 32 ≤ o) (h2 : o ≤ INT_MAX) :
    tileOrigin o = o / 32 := by
  unfold INT_MIN at h1
  unfold INT_MAX at h2
  unfold tileOrigin
  split
  · next h =>
    unfold idiv
    rw [Int.tdiv_eq_ediv h (by decide)]
    apply wrap32_of_range <;> simp only [INT_MIN, INT_MAX] <;> omega
  · next h =>
    have e1 : isub o 31 = o - 31 := by
      unfold isub; apply wrap32_of_range <;> simp only [INT_MIN, INT_MAX] <;> omega
    have e2 : ineg (o - 31) = 31 - o := by
      unfold ineg
      rw [wrap32_of_range _ (by unfold INT_MIN; omega) (by unfold INT_MAX; omega)]
      omega
    have e3 : idiv (31 - o) 32 = (31 - o) / 32 := by
      unfold idiv
      rw [Int.tdiv_eq_ediv (by omega) (by decide)]
      apply wrap32_of_range <;> simp only [INT_MIN, INT_MAX] <;> omega
    rw [e1, e2, e3]
    unfold ineg
    rw [wrap32_of_range _ (by unfold INT_MIN; omega) (by unfold INT_MAX; omega)]
    omega

/-- The origin cell stored by `updateMapViewport` is the computed cell of the
offset relative to the scene, on both axes; the size is untouched. -/
theorem updateMapViewport_mapViewp (s : TilemapVXPrivate) :
    (updateMapViewport s).mapViewp =
      { s.mapViewp with
        x := tileOrigin (isub s.offset.x s.sceneOffset.x)
        y := tileOrigin (isub s.offset.y s.sceneOffset.y) } := by
  unfold updateMapViewport updatePosition call
  simp only []
  split_ifs <;> simp_all


/-- The buffers-dirty flag after `updateMapViewport`: the old flag, or a change
of the origin cell on either axis. -/
theorem updateMapViewport_buffersDirty (s : TilemapVXPrivate) :
    (updateMapViewport s).buffersDirty =
      (s.buffersDirty || decide (tileOrigin (isub s.offset.x s.sceneOffset.x) ≠ s.mapViewp.x)
        || decide (tileOrigin (isub s.offset.y s.sceneOffset.y) ≠ s.mapViewp.y)) := by
  unfold updateMapViewport updatePosition call
  simp only []
  split_ifs <;> simp_all

/-- What `setOX` does on a live renderer. -/
theorem setOX_live (s : TilemapVXPrivate) (v : Int) :
    TilemapVX.setOX { p := some s } v =
      Except.ok { p := some (if s.offset.x = v then s else
        { s with offset := { s.offset with x := v }, mapViewportDirty := true }) } := by
  unfold TilemapVX.setOX TilemapVX.guardDisposed
  by_cases h : s.offset.x = v <;> simp [h]

/-- What `setOY` does on a live renderer. -/
theorem setOY_live (s : TilemapVXPrivate) (v : Int) :
    TilemapVX.setOY { p := some s } v =
      Except.ok { p := some (if s.offset.y = v then s else
        { s with offset := { s.offset with y := v }, mapViewportDirty := true }) } := by
  unfold TilemapVX.setOY TilemapVX.guardDisposed
  by_cases h : s.offset.y = v <;> simp [h]

/-- In-range behaviour of the region tracker: with scene offset zero and a
scroll offset of at least `INT_MIN + 32` on an axis, the origin cell stored by
`updateMapViewport` on that axis is the floor of offset / 32. -/
theorem updateMapViewport_origin_eq_floor (s : TilemapVXPrivate)
    (hs : s.sceneOffset = { x := 0, y := 0 }) :
    (INT_MIN + 32 ≤ s.offset.x → s.offset.x ≤ INT_MAX →
      (updateMapViewport s).mapViewp.x = ⌊(s.offset.x : ℚ) / 32⌋) ∧
    (INT_MIN + 32 ≤ s.offset.y → s.offset.y ≤ INT_MAX →
      (updateMapViewport s).mapViewp.y = ⌊(s.offset.y : ℚ) / 32⌋) := by
  rw [updateMapViewport_mapViewp, hs]
  have fl : ∀ o : Int, ⌊(o : ℚ) / 32⌋ = o / 32 := fun o => by
    simpa using Rat.floor_intCast_div_natCast o 32
  have sub0 : ∀ o : Int, INT_MIN + 32 ≤ o → o ≤ INT_MAX → isub o 0 = o := fun o h1 h2 => by
    unfold isub
    rw [Int.sub_zero]
    exact wrap32_of_range o (by unfold INT_MIN at *; omega) h2
  constructor
  · intro h1 h2
    simp only [sub0 _ h1 h2, fl]
    exact tileOrigin_eq_floor _ h1 h2
  · intro h1 h2
    simp only [sub0 _ h1 h2, fl]
    exact tileOrigin_eq_floor _ h1 h2

/-- C1 (the code departs from the claim at the low end of the `int` range):
with scene offset zero and scroll offset `INT_MIN = -2147483648` on the x axis,
`offs.x - 31` overflows and `updateMapViewport` stores the origin cell
`67108863`, whereas floor(`INT_MIN` / 32) is `-67108864`; the same happens on
the y axis at `INT_MIN + 30`. -/
theorem updateMapViewport_origin_overflow :
    (updateMapViewport { offset := { x := INT_MIN, y := INT_MIN + 30 } }).mapViewp.x = 67108863 ∧
    ⌊((INT_MIN : Int) : ℚ) / 32⌋ = -67108864 ∧
    (updateMapViewport { offset := { x := INT_MIN, y := INT_MIN + 30 } }).mapViewp.y = 67108863 ∧
    ⌊((INT_MIN + 30 : Int) : ℚ) / 32⌋ = -67108864 := by
  have fl : ∀ o : Int, ⌊(o : ℚ) / 32⌋ = o / 32 := fun o => by
    simpa using Rat.floor_intCast_div_natCast o 32
  refine ⟨by decide, ?_, by decide, ?_⟩
  · rw [fl]; decide
  · rw [fl]; decide

/-- C2: from a state whose buffers-dirty flag is clear, `updateMapViewport` sets
the flag exactly when the computed origin cell differs from the stored one on
the x or the y axis (the test `a < b || a > b` of the code is `a != b`), which
is exactly when the stored region changes; and after a scroll to (`v`, `u`) that
stays in the stored cell on both axes the flag stays clear and the region is
unchanged. -/
theorem updateMapViewport_dirty_iff_origin_changed (s : TilemapVXPrivate) (v u : Int)
    (h : s.buffersDirty = false) :
    ((updateMapViewport s).buffersDirty = true ↔
      (tileOrigin (isub s.offset.x s.sceneOffset.x) ≠ s.mapViewp.x ∨
        tileOrigin (isub s.offset.y s.sceneOffset.y) ≠ s.mapViewp.y)) ∧
    ((updateMapViewport s).buffersDirty = true ↔ (updateMapViewport s).mapViewp ≠ s.mapViewp) ∧
    (tileOrigin (isub v s.sceneOffset.x) = s.mapViewp.x →
      tileOrigin (isub u s.sceneOffset.y) = s.mapViewp.y →
      ∃ s2, (TilemapVX.setOX { p := some s } v).bind (fun tm => TilemapVX.setOY tm u)
            = Except.ok { p := some s2 } ∧
        s2.offset = { x := v, y := u } ∧
        (updateMapViewport s2).buffersDirty = false ∧
        (updateMapViewport s2).mapViewp = s.mapViewp) := by
  refine ⟨?_, ?_, ?_⟩
  · rw [updateMapViewport_buffersDirty, h]
    simp
  · rw [updateMapViewport_buffersDirty, updateMapViewport_mapViewp, h]
    cases hm : s.mapViewp
    simp
    tauto
  · intro hx hy
    rw [setOX_live]
    simp only [Except.bind]
    rw [setOY_live]
    refine ⟨_, rfl, ?_, ?_, ?_⟩
    · cases ho : s.offset
      split_ifs <;> simp_all
    · rw [updateMapViewport_buffersDirty]
      split_ifs <;> simp_all
    · rw [updateMapViewport_mapViewp]
      cases hm : s.mapViewp
      split_ifs <;> simp_all

/-- Witness of C2 at `scrolledState`: the flag is clear before, the computed x
cell 1 differs from the stored 0, so the flag is set; a scroll to (31, 0) stays
in cell (0, 0) and leaves it clear. -/
theorem updateMapViewport_dirty_iff_origin_changed_witness :
    scrolledState.buffersDirty = false ∧
    (updateMapViewport scrolledState).buffersDirty = true ∧
    (∃ s2, (TilemapVX.setOX { p := some scrolledState } 31).bind
        (fun tm => TilemapVX.setOY tm 0) = Except.ok { p := some s2 } ∧
      s2.offset = { x := 31, y := 0 } ∧
      (updateMapViewport s2).buffersDirty = false ∧
      (updateMapViewport s2).mapViewp = scrolledState.mapViewp) :=
  ⟨rfl,
    (updateMapViewport_dirty_iff_origin_changed scrolledState 31 0 rfl).1.mpr
      (Or.inl (by decide)),
    (updateMapViewport_dirty_iff_origin_changed scrolledState 31 0 rfl).2.2
      (by decide) (by decide)⟩

/-- The whole effect of `updateMapViewport`. -/
theorem updateMapViewport_eq (s : TilemapVXPrivate) :
    updateMapViewport s =
      { s with
        mapViewp := { s.mapViewp with
          x := tileOrigin (isub s.offset.x s.sceneOffset.x)
          y := tileOrigin (isub s.offset.y s.sceneOffset.y) }
        buffersDirty := (s.buffersDirty
          || decide (tileOrigin (isub s.offset.x s.sceneOffset.x) ≠ s.mapViewp.x)
          || decide (tileOrigin (isub s.offset.y s.sceneOffset.y) ≠ s.mapViewp.y))
        dispPos :=
          { x := iadd (ineg (isub s.offset.x
              (imul (tileOrigin (isub s.offset.x s.sceneOffset.x)) 32))) s.sceneOffset.x
            y := iadd (ineg (isub s.offset.y
              (imul (tileOrigin (isub s.offset.y s.sceneOffset.y)) 32))) s.sceneOffset.y }
        trace := s.trace ++ [Call.updateMapViewport, Call.flashSetViewport
          { s.mapViewp with
            x := tileOrigin (isub s.offset.x s.sceneOffset.x)
            y := tileOrigin (isub s.offset.y s.sceneOffset.y) }] } := by
  unfold updateMapViewport updatePosition call
  simp only []
  split_ifs <;> simp_all

/-- Length of a `flatMap` whose pieces all have the same length. -/
theorem length_flatMap_const {α β : Type} (l : List α) (f : α → List β) (k : Nat)
    (h : ∀ a ∈ l, (f a).length = k) : (l.flatMap f).length = l.length * k := by
  induction l with
  | nil => simp
  | cons a l ih =>
    rw [List.flatMap_cons, List.length_append, h a (List.mem_cons_self a l),
      ih (fun b hb => h b (List.mem_cons_of_mem a hb)), List.length_cons]
    ring

/-- A reader call of `n` quads contributes `4 * n` vertices. -/
theorem verts_length (b : QuadBatch) : b.verts.length = b.n * 4 := by
  unfold QuadBatch.verts
  rw [length_flatMap_const (List.range b.n)
    (fun i => Quad.corners (b.t.getD i {}) (b.p.getD i {})) 4 (fun _ _ => rfl),
    List.length_range]

/-- Writing `k` of `n` quads, one after the other, into the `n * 4` vertices
appended to `vec` leaves `vec`, the `k` quads, and the vertices not yet written. -/
theorem fill_quads (d : SVertex) (vec : List SVertex) (f : Nat → List SVertex)
    (hf : ∀ i, (f i).length = 4) (n k : Nat) (hk : k ≤ n) :
    (List.range k).foldl
        (fun v i => v.take (vec.length + i * 4) ++ f i ++ v.drop (vec.length + i * 4 + 4))
        (vec ++ List.replicate (n * 4) d)
      = vec ++ (List.range k).flatMap f ++ List.replicate ((n - k) * 4) d := by
  induction k with
  | zero => simp
  | succ k ih =>
    rw [List.range_succ, List.foldl_append, ih (by omega)]
    have hlen : (vec ++ (List.range k).flatMap f).length = vec.length + k * 4 := by
      rw [List.length_append, length_flatMap_const _ _ 4 (fun i _ => hf i), List.length_range]
    have hrest : (n - k) * 4 - 4 = (n - (k + 1)) * 4 := by omega
    simp only [List.foldl_cons, List.foldl_nil]
    rw [← hlen, List.take_left' rfl, List.drop_append, List.drop_replicate, hrest]
    simp [List.flatMap_append, List.append_assoc]

/-- The effect of `onQuads`: the vertices of the call are appended to the stream
chosen by `overPlayer`, and nothing else changes. -/
theorem onQuads_eq (s : TilemapVXPrivate) (t p : List FloatRect) (n : Nat) (over : Bool) :
    onQuads s t p n over =
      if over then
        { s with aboveVert := s.aboveVert ++ QuadBatch.verts ⟨t, p, n, over⟩ }
      else { s with groundVert := s.groundVert ++ QuadBatch.verts ⟨t, p, n, over⟩ } := by
  have key : ∀ vec : List SVertex,
      (List.range n).foldl
        (fun v i => Quad.setTexPosRect v (vec.length + i * 4) (t.getD i {}) (p.getD i {}))
        (vec ++ List.replicate (n * 4) ({} : SVertex))
      = vec ++ QuadBatch.verts ⟨t, p, n, over⟩ := by
    intro vec
    have h := fill_quads ({} : SVertex) vec (fun i => Quad.corners (t.getD i {}) (p.getD i {}))
      (fun _ => rfl) n n (Nat.le_refl n)
    simpa [Quad.setTexPosRect, QuadBatch.verts] using h
  unfold onQuads allocVert
  cases over
  · simp only [Bool.false_eq_true, if_false]
    rw [key]
  · simp only [if_true]
    rw [key]

/-- Folding `onQuads` over reader calls appends to each stream the vertices of
the calls addressed to it, and touches nothing else. -/
theorem foldl_onQuads (bs : List QuadBatch) (s : TilemapVXPrivate) :
    bs.foldl (fun r b => r.onQuads b.t b.p b.n b.overPlayer) s =
      { s with
        groundVert := s.groundVert ++ streamOf false bs
        aboveVert := s.aboveVert ++ streamOf true bs } := by
  induction bs generalizing s with
  | nil => simp [streamOf]
  | cons b bs ih =>
    rw [List.foldl_cons, ih, onQuads_eq]
    cases hb : b.overPlayer <;>
      simp [streamOf, List.filter_cons, hb, QuadBatch.verts, List.append_assoc]

/-- The whole effect of `rebuildBuffers` when map data is assigned. -/
theorem rebuildBuffers_eq (w : World) (s : TilemapVXPrivate) (md : TableRef)
    (h : s.mapData = some md) :
    rebuildBuffers w s =
      { s with
        groundVert := streamOf false (s.batches w md)
        aboveVert := streamOf true (s.batches w md)
        groundQuads := (streamOf false (s.batches w md)).length / 4
        aboveQuads := (streamOf true (s.batches w md)).length / 4
        allocQuads :=
          if (streamOf false (s.batches w md)).length / 4
              + (streamOf true (s.batches w md)).length / 4 > s.allocQuads
          then (streamOf false (s.batches w md)).length / 4
              + (streamOf true (s.batches w md)).length / 4
          else s.allocQuads
        trace := s.trace ++
          [Call.rebuildBuffers,
            Call.readTiles md s.flags s.mapViewp.x s.mapViewp.y s.mapViewp.w s.mapViewp.h,
            Call.vboBind] ++
          (if (streamOf false (s.batches w md)).length / 4
              + (streamOf true (s.batches w md)).length / 4 > s.allocQuads
           then [Call.vboAllocEmpty (quadBytes w
              ((streamOf false (s.batches w md)).length / 4
                + (streamOf true (s.batches w md)).length / 4))]
           else []) ++
          [Call.vboUploadSubData 0
              (quadBytes w ((streamOf false (s.batches w md)).length / 4))
              (streamOf false (s.batches w md)),
            Call.vboUploadSubData
              (quadBytes w ((streamOf false (s.batches w md)).length / 4))
              (quadBytes w ((streamOf true (s.batches w md)).length / 4))
              (streamOf true (s.batches w md)),
            Call.vboUnbind,
            Call.ensureQuadIBO ((streamOf false (s.batches w md)).length / 4
              + (streamOf true (s.batches w md)).length / 4)] } := by
  unfold rebuildBuffers call
  simp only [h, foldl_onQuads, batches]
  split_ifs <;> simp_all

/-- With no map data assigned `rebuildBuffers` returns at once. -/
theorem rebuildBuffers_none (w : World) (s : TilemapVXPrivate) (h : s.mapData = none) :
    rebuildBuffers w s = s.call Call.rebuildBuffers := by
  unfold rebuildBuffers call
  simp [h]

/-- With no map data assigned `prepare` returns at once. -/
theorem prepare_none (w : World) (s : TilemapVXPrivate) (h : s.mapData = none) :
    prepare w s = s := by
  unfold prepare
  simp [h]

/-- After a `prepare` with map data assigned the three dirty flags are clear and
the map data reference is the same. -/
theorem prepare_flags (w : World) (s : TilemapVXPrivate) (md : TableRef)
    (h : s.mapData = some md) :
    (prepare w s).mapData = some md ∧ (prepare w s).atlasDirty = false ∧
      (prepare w s).mapViewportDirty = false ∧ (prepare w s).buffersDirty = false := by
  unfold prepare
  simp only [h]
  split_ifs <;>
    simp_all [rebuildAtlas, call, updateMapViewport_eq, rebuildBuffers_eq]

/-- A `prepare` that finds map data and clear flags only ticks the flash map. -/
theorem prepare_clean (w : World) (s : TilemapVXPrivate) (md : TableRef)
    (h : s.mapData = some md) (ha : s.atlasDirty = false) (hv : s.mapViewportDirty = false)
    (hb : s.buffersDirty = false) :
    prepare w s = s.call Call.flashPrepare := by
  unfold prepare
  simp [h, ha, hv, hb]

/-- C3: a second `prepare` right after a first one only ticks the flash map (and
does nothing at all when no map data is assigned): its trace extends that of the
first by no run of `rebuildAtlas`, `updateMapViewport` or `rebuildBuffers`, no
vertex upload and no other call, and the vertex streams, quad counts, region
and dirty flags are those left by the first call. -/
theorem prepare_twice (w : World) (s : TilemapVXPrivate) :
    (prepare w (prepare w s)).trace =
      (prepare w s).trace ++ (if s.mapData = none then [] else [Call.flashPrepare]) ∧
    ((prepare w (prepare w s)).callsSince (prepare w s)).count Call.rebuildAtlas = 0 ∧
    ((prepare w (prepare w s)).callsSince (prepare w s)).count Call.updateMapViewport = 0 ∧
    ((prepare w (prepare w s)).callsSince (prepare w s)).count Call.rebuildBuffers = 0 ∧
    (prepare w (prepare w s)).groundVert = (prepare w s).groundVert ∧
    (prepare w (prepare w s)).aboveVert = (prepare w s).aboveVert ∧
    (prepare w (prepare w s)).groundQuads = (prepare w s).groundQuads ∧
    (prepare w (prepare w s)).aboveQuads = (prepare w s).aboveQuads ∧
    (prepare w (prepare w s)).mapViewp = (prepare w s).mapViewp ∧
    (prepare w (prepare w s)).atlasDirty = (prepare w s).atlasDirty ∧
    (prepare w (prepare w s)).mapViewportDirty = (prepare w s).mapViewportDirty ∧
    (prepare w (prepare w s)).buffersDirty = (prepare w s).buffersDirty ∧
    { prepare w (prepare w s) with trace := [] } = { prepare w s with trace := [] } := by
  cases hmd : s.mapData with
  | none =>
    rw [prepare_none w s hmd, prepare_none w s hmd]
    simp [callsSince]
  | some md =>
    obtain ⟨h1, h2, h3, h4⟩ := prepare_flags w s md hmd
    rw [prepare_clean w (prepare w s) md h1 h2 h3 h4]
    simp [callsSince, call]

/-- Truncating division by 32 in terms of floor division. -/
theorem tdiv32 (c : Int) : Int.tdiv c 32 = if 0 ≤ c then c / 32 else -((-c) / 32) := by
  split
  · next h => exact Int.tdiv_eq_ediv h (by decide)
  · next h =>
    have hc : c = -(-c) := by omega
    rw [hc, Int.neg_tdiv, Int.tdiv_eq_ediv (by omega) (by decide)]
    simp

/-- When offset 0 lies in cell 0 relative to the scene, offset 32 lies in cell 1. -/
theorem tileOrigin_scroll_one_cell (so : Int) (h : tileOrigin (isub 0 so) = 0) :
    tileOrigin (isub 32 so) = 1 := by
  unfold tileOrigin isub ineg idiv at *
  simp only [tdiv32] at *
  unfold wrap32 at *
  split_ifs at * <;> omega

/-- A `prepare` that finds map data, the region flag set and a computed origin
cell different from the stored one: the region handler runs once, then the
buffer handler once, on the new region, and all flags end clear. -/
theorem prepare_region_then_buffers (w : World) (s : TilemapVXPrivate) (md : TableRef)
    (h : s.mapData = some md) (hv : s.mapViewportDirty = true)
    (hne : tileOrigin (isub s.offset.x s.sceneOffset.x) ≠ s.mapViewp.x ∨
      tileOrigin (isub s.offset.y s.sceneOffset.y) ≠ s.mapViewp.y) :
    (prepare w s).mapViewp = { s.mapViewp with
        x := tileOrigin (isub s.offset.x s.sceneOffset.x)
        y := tileOrigin (isub s.offset.y s.sceneOffset.y) } ∧
    ((prepare w s).atlasDirty = false ∧ (prepare w s).mapViewportDirty = false ∧
      (prepare w s).buffersDirty = false) ∧
    ((prepare w s).callsSince s).count Call.updateMapViewport = 1 ∧
    ((prepare w s).callsSince s).count Call.rebuildBuffers = 1 ∧
    ((prepare w s).callsSince s).indexOf Call.updateMapViewport <
      ((prepare w s).callsSince s).indexOf Call.rebuildBuffers ∧
    (prepare w s).groundVert = streamOf false (batches w (updateMapViewport s) md) ∧
    (prepare w s).aboveVert = streamOf true (batches w (updateMapViewport s) md) := by
  have rb := fun t ht => rebuildBuffers_eq w t md ht
  by_cases ha : s.atlasDirty = true <;> rcases hne with hne | hne <;>
    simp [prepare, h, hv, ha, hne, rebuildAtlas, call, updateMapViewport_eq, rb, callsSince,
      batches] <;>
    split_ifs <;> simp

/-- After a `prepare` that finds map data, a renderer whose region was current
or flagged dirty is prepared. -/
theorem prepare_prepared (w : World) (s : TilemapVXPrivate) (md : TableRef)
    (h : s.mapData = some md) (hinv : s.mapViewportDirty = false → s.RegionCurrent) :
    (prepare w s).Prepared := by
  obtain ⟨h1, h2, h3, h4⟩ := prepare_flags w s md h
  refine ⟨by simp [h1], h2, h3, h4, ?_⟩
  have rb := fun t ht => rebuildBuffers_eq w t md ht
  unfold RegionCurrent at *
  by_cases ha : s.atlasDirty = true <;> by_cases hv : s.mapViewportDirty = true <;>
    by_cases hb : s.buffersDirty = true <;>
    simp_all [prepare, rebuildAtlas, call, updateMapViewport_eq] <;>
    split_ifs <;> simp_all

/-- The region invariant holds after construction and is kept by a geometry
change, by the scroll setters and by `prepare`; so every renderer that has been
prepared with map data assigned satisfies `Prepared`. -/
theorem regionInv_kept (w : World) (s : TilemapVXPrivate) (geo : Geometry) (v : Int)
    (hinv : s.RegionInv) :
    (TilemapVXPrivate.new geo).RegionInv ∧ (onGeometryChange s geo).RegionInv ∧
    (∃ s1, TilemapVX.setOX { p := some s } v = Except.ok { p := some s1 } ∧ s1.RegionInv) ∧
    (∃ s1, TilemapVX.setOY { p := some s } v = Except.ok { p := some s1 } ∧ s1.RegionInv) ∧
    (prepare w s).RegionInv := by
  refine ⟨?_, ?_, ?_, ?_, ?_⟩
  · intro h
    simp [TilemapVXPrivate.new, onGeometryChange] at h
  · intro h
    simp [onGeometryChange] at h
  · rw [setOX_live]
    refine ⟨_, rfl, ?_⟩
    split_ifs with h
    · exact hinv
    · intro h2
      simp at h2
  · rw [setOY_live]
    refine ⟨_, rfl, ?_⟩
    split_ifs with h
    · exact hinv
    · intro h2
      simp at h2
  · cases hmd : s.mapData with
    | none => rw [prepare_none w s hmd]; exact hinv
    | some md => exact fun _ => (prepare_prepared w s md hmd hinv).2.2.2.2

/-- C4: from a prepared renderer at scroll offset (0, 0) with region origin
(0, 0), `setOX(32)` followed by one `prepare` moves the region origin to (1, 0),
runs `updateMapViewport` once and then `rebuildBuffers` once (and no atlas
rebuild), rebuilds the streams from the new region, and leaves all dirty flags
clear. More generally, for every state `t` with map data assigned, the region
flag set and a computed origin cell different from the stored one, a single
`prepare` runs the region handler and then the buffer handler, once each, and
the streams it leaves are those of the new region. -/
theorem scroll_one_cell_then_prepare (w : World) (s t : TilemapVXPrivate) (md : TableRef)
    (hmd : s.mapData = some md) (hp : s.Prepared)
    (ho : s.offset = { x := 0, y := 0 }) (hx : s.mapViewp.x = 0) (hy : s.mapViewp.y = 0) :
    (∃ s1, TilemapVX.setOX { p := some s } 32 = Except.ok { p := some s1 } ∧
      (prepare w s1).mapViewp = { s.mapViewp with x := 1, y := 0 } ∧
      ((prepare w s1).callsSince s).count Call.rebuildBuffers = 1 ∧
      ((prepare w s1).callsSince s).count Call.updateMapViewport = 1 ∧
      ((prepare w s1).callsSince s).count Call.rebuildAtlas = 0 ∧
      ((prepare w s1).callsSince s).indexOf Call.updateMapViewport <
        ((prepare w s1).callsSince s).indexOf Call.rebuildBuffers ∧
      Call.readTiles md s.flags 1 0 s.mapViewp.w s.mapViewp.h ∈ (prepare w s1).callsSince s ∧
      (prepare w s1).groundVert = streamOf false
        (TileAtlasVX.readTiles w (w.table md) (s.flags.map w.table) 1 0 s.mapViewp.w
          s.mapViewp.h) ∧
      (prepare w s1).aboveVert = streamOf true
        (TileAtlasVX.readTiles w (w.table md) (s.flags.map w.table) 1 0 s.mapViewp.w
          s.mapViewp.h) ∧
      (prepare w s1).atlasDirty = false ∧ (prepare w s1).mapViewportDirty = false ∧
      (prepare w s1).buffersDirty = false) ∧
    (t.mapData = some md → t.mapViewportDirty = true →
      (tileOrigin (isub t.offset.x t.sceneOffset.x) ≠ t.mapViewp.x ∨
        tileOrigin (isub t.offset.y t.sceneOffset.y) ≠ t.mapViewp.y) →
      (prepare w t).mapViewp = (updateMapViewport t).mapViewp ∧
      ((prepare w t).callsSince t).count Call.updateMapViewport = 1 ∧
      ((prepare w t).callsSince t).count Call.rebuildBuffers = 1 ∧
      ((prepare w t).callsSince t).indexOf Call.updateMapViewport <
        ((prepare w t).callsSince t).indexOf Call.rebuildBuffers ∧
      (prepare w t).groundVert = streamOf false (batches w (updateMapViewport t) md) ∧
      (prepare w t).aboveVert = streamOf true (batches w (updateMapViewport t) md) ∧
      (prepare w t).atlasDirty = false ∧ (prepare w t).mapViewportDirty = false ∧
      (prepare w t).buffersDirty = false) := by
  constructor
  · obtain ⟨_, ha, hv, hb, hcx, hcy⟩ := hp
    rw [setOX_live]
    refine ⟨_, rfl, ?_⟩
    have hox : s.offset.x = 0 := by rw [ho]
    have hoy : s.offset.y = 0 := by rw [ho]
    have h1 : tileOrigin (isub 32 s.sceneOffset.x) = 1 :=
      tileOrigin_scroll_one_cell _ (by rw [hox] at hcx; exact hcx.symm.trans hx)
    have h0 : tileOrigin (isub 0 s.sceneOffset.y) = 0 := by
      rw [hoy] at hcy; exact hcy.symm.trans hy
    have rb := fun t ht => rebuildBuffers_eq w t md ht
    simp [hox, prepare, hmd, ha, hv, hb, hx, hy, hoy, h1, h0, call, updateMapViewport_eq, rb,
      callsSince, batches]
    split_ifs <;> simp
  · intro h1 h2 h3
    obtain ⟨e1, ⟨e2, e3, e4⟩, e5, e6, e7, e8, e9⟩ := prepare_region_then_buffers w t md h1 h2 h3
    rw [updateMapViewport_mapViewp]
    exact ⟨e1, e5, e6, e7, e8, e9, e2, e3, e4⟩

/-- Witness of C4 on the 10 by 10 filled map: `preparedAtOrigin` is prepared at
offset (0, 0) with region origin (0, 0), and `scrollPending` has a flagged scroll
across a cell boundary. -/
theorem scroll_one_cell_then_prepare_witness :
    preparedAtOrigin.Prepared ∧
    (∃ s1, TilemapVX.setOX { p := some preparedAtOrigin } 32 = Except.ok { p := some s1 } ∧
      (prepare filledWorld s1).mapViewp = { preparedAtOrigin.mapViewp with x := 1, y := 0 } ∧
      ((prepare filledWorld s1).callsSince preparedAtOrigin).count Call.rebuildBuffers = 1) ∧
    ((prepare filledWorld scrollPending).callsSince scrollPending).count
      Call.rebuildBuffers = 1 := by
  have h := scroll_one_cell_then_prepare filledWorld preparedAtOrigin scrollPending 1
    rfl (by decide) rfl rfl rfl
  obtain ⟨⟨s1, e, hm, hc, _⟩, ht⟩ := h
  exact ⟨by decide, ⟨s1, e, hm, hc⟩, (ht rfl rfl (Or.inl (by decide))).2.2.1⟩

/-- The quads of a cell inside a table filled with a non-negative tile code
whose atlas rule is one ground quad. -/
theorem cellQuads_filled (w : World) (xs ys : Nat) (c : Int) (tex : FloatRect)
    (flags : Option Table) (hc : 0 ≤ c) (hq : ∀ f, w.tileQuads c f = [(tex, false)])
    (cx cy : Int) (hx0 : 0 ≤ cx) (hx1 : cx < xs) (hy0 : 0 ≤ cy) (hy1 : cy < ys) :
    TileAtlasVX.cellQuads w { xSize := xs, ySize := ys, data := List.replicate (xs * ys) c }
        flags cx cy =
      [{ t := [tex], p := [{ x := cx * 32, y := cy * 32, w := 32, h := 32 }], n := 1,
         overPlayer := false }] := by
  unfold TileAtlasVX.cellQuads Table.get?
  have hlt : cy.toNat * xs + cx.toNat < xs * ys := by
    have h1 : cy.toNat < ys := by omega
    have h2 : cx.toNat < xs := by omega
    calc cy.toNat * xs + cx.toNat < cy.toNat * xs + xs := by omega
      _ = (cy.toNat + 1) * xs := by ring
      _ ≤ ys * xs := Nat.mul_le_mul_right xs h1
      _ = xs * ys := Nat.mul_comm ys xs
  simp [hx0, hx1, hy0, hy1, hlt, hq, not_lt.mpr hc]

/-- The stream of a concatenation of reader calls. -/
theorem streamOf_flatMap {α : Type} (over : Bool) (l : List α) (f : α → List QuadBatch) :
    streamOf over (l.flatMap f) = l.flatMap fun a => streamOf over (f a) := by
  induction l with
  | nil => simp [streamOf]
  | cons a l ih =>
    rw [List.flatMap_cons, List.flatMap_cons, ← ih]
    simp [streamOf, List.filter_append, List.flatMap_append]

/-- On a map filled with a tile code drawn as one ground quad, a region lying
inside the map yields four ground vertices per cell and no above-player vertex. -/
theorem readTiles_filled (w : World) (xs ys : Nat) (c : Int) (tex : FloatRect)
    (flags : Option Table) (hc : 0 ≤ c) (hq : ∀ f, w.tileQuads c f = [(tex, false)])
    (ox oy rw rh : Int) (hox : 0 ≤ ox) (hoy : 0 ≤ oy) (hw : ox + rw ≤ xs) (hh : oy + rh ≤ ys) :
    (streamOf false (TileAtlasVX.readTiles w
        { xSize := xs, ySize := ys, data := List.replicate (xs * ys) c } flags ox oy rw rh)).length
      = rh.toNat * (rw.toNat * 4) ∧
    streamOf true (TileAtlasVX.readTiles w
        { xSize := xs, ySize := ys, data := List.replicate (xs * ys) c } flags ox oy rw rh) = [] := by
  have cell : ∀ j ∈ List.range rh.toNat, ∀ i ∈ List.range rw.toNat,
      TileAtlasVX.cellQuads w { xSize := xs, ySize := ys, data := List.replicate (xs * ys) c }
        flags (ox + i) (oy + j) =
      [{ t := [tex], p := [{ x := (ox + i) * 32, y := (oy + j) * 32, w := 32, h := 32 }], n := 1,
         overPlayer := false }] := by
    intro j hj i hi
    rw [List.mem_range] at hj hi
    exact cellQuads_filled w xs ys c tex flags hc hq _ _ (by omega) (by omega) (by omega)
      (by omega)
  unfold TileAtlasVX.readTiles
  rw [streamOf_flatMap, streamOf_flatMap]
  constructor
  · rw [length_flatMap_const _ _ (rw.toNat * 4), List.length_range]
    intro j hj
    rw [streamOf_flatMap, length_flatMap_const _ _ 4, List.length_range]
    intro i hi
    rw [cell j hj i hi]
    simp [streamOf, verts_length]
  · rw [List.flatMap_eq_nil_iff]
    intro j hj
    rw [streamOf_flatMap, List.flatMap_eq_nil_iff]
    intro i hi
    rw [cell j hj i hi]
    simp [streamOf]

/-- Rebuild on a filled map after a geometry change to a viewport of 160 by 160
pixels with scene offset zero, at scroll offset (0, 0): the region is 6 by 6
cells at (0, 0) and every one of its 36 cells yields one ground quad. -/
theorem prepare_filled_map (w : World) (s : TilemapVXPrivate) (geo : Geometry) (md : TableRef)
    (c : Int) (tex : FloatRect)
    (hgw : geo.rect.w = 160) (hgh : geo.rect.h = 160)
    (hgx : geo.rect.x = geo.xOrigin) (hgy : geo.rect.y = geo.yOrigin)
    (ho : s.offset = { x := 0, y := 0 }) (hmd : s.mapData = some md)
    (htab : w.table md = { xSize := 10, ySize := 10, data := List.replicate 100 c })
    (hc : 0 ≤ c) (hq : ∀ f, w.tileQuads c f = [(tex, false)]) :
    (prepare w (onGeometryChange s geo)).mapViewp = { x := 0, y := 0, w := 6, h := 6 } ∧
    (prepare w (onGeometryChange s geo)).groundQuads = 36 ∧
    (prepare w (onGeometryChange s geo)).aboveQuads = 0 := by
  have rb := fun t ht => rebuildBuffers_eq w t md ht
  have hsub : ∀ a : Int, isub a a = 0 := fun a => by unfold isub wrap32; simp
  have t0 : tileOrigin 0 = 0 := by decide
  have w6 : iadd (iadd (idiv 160 32) (notnot (imod 160 32))) 1 = 6 := by decide
  have hox : s.offset.x = 0 := by rw [ho]
  have hoy : s.offset.y = 0 := by rw [ho]
  obtain ⟨hg, ha⟩ := readTiles_filled w 10 10 c tex (s.flags.map w.table) hc hq 0 0 6 6
    (by decide) (by decide) (by decide) (by decide)
  norm_num at hg ha
  rw [← htab] at hg ha
  by_cases had : s.atlasDirty = true <;>
    simp [prepare, onGeometryChange, hmd, hgw, hgh, hgx, hgy, hox, hoy, hsub, t0, w6, had,
      rebuildAtlas, call, updateMapViewport_eq, rb, batches, hg, ha]

/-- C5 (as amended): for a 10 by 10 map filled with one tile code that yields one
ground quad per cell and no above-player quad, with a viewport of 160 by 160
pixels (5 by 5 cells) and scene offset zero at scroll offset (0, 0), the region
is 6 by 6 cells (the 5 covering cells plus the trailing margin cell on each
axis) and a rebuild produces exactly 36 ground quads and 0 above-player quads. -/
theorem filled_map_viewport_quads (w : World) (s : TilemapVXPrivate) (geo : Geometry)
    (md : TableRef) (c : Int) (tex : FloatRect)
    (hgw : geo.rect.w = 160) (hgh : geo.rect.h = 160)
    (hgx : geo.rect.x = geo.xOrigin) (hgy : geo.rect.y = geo.yOrigin)
    (ho : s.offset = { x := 0, y := 0 }) (hmd : s.mapData = some md)
    (htab : w.table md = { xSize := 10, ySize := 10, data := List.replicate 100 c })
    (hc : 0 ≤ c) (hq : ∀ f, w.tileQuads c f = [(tex, false)]) :
    (prepare w (onGeometryChange s geo)).mapViewp.w = 6 ∧
    (prepare w (onGeometryChange s geo)).mapViewp.h = 6 ∧
    (prepare w (onGeometryChange s geo)).groundQuads = 36 ∧
    (prepare w (onGeometryChange s geo)).aboveQuads = 0 := by
  obtain ⟨h1, h2, h3⟩ := prepare_filled_map w s geo md c tex hgw hgh hgx hgy ho hmd htab hc hq
  rw [h1]
  exact ⟨rfl, rfl, h2, h3⟩

/-- Witness of C5 (as amended) in `filledWorld`, on the renderer of the
end-to-end scenario. -/
theorem filled_map_viewport_quads_witness :
    fiveByFive.mapData = some 1 ∧ fiveByFive.offset = { x := 0, y := 0 } ∧
    filledWorld.table 1 = { xSize := 10, ySize := 10, data := List.replicate 100 1 } ∧
    (prepare filledWorld (onGeometryChange fiveByFive viewport5x5)).groundQuads = 36 ∧
    (prepare filledWorld (onGeometryChange fiveByFive viewport5x5)).aboveQuads = 0 :=
  ⟨rfl, rfl, rfl,
    (filled_map_viewport_quads filledWorld fiveByFive viewport5x5 1 1
      { x := 0, y := 0, w := 32, h := 32 } rfl rfl rfl rfl rfl rfl rfl (by decide)
      (fun _ => rfl)).2.2⟩

/-- C5 (counterexample to the claim as stated): in the end-to-end
scenario, a renderer created for a viewport of 160 by 160 pixels, given a 10 by
10 map filled with a tile code of one ground quad, at scroll offset (0, 0), the
first `prepare` produces 36 ground quads, not 25. -/
theorem filled_map_viewport_not_25 :
    TilemapVX.setMapData { p := some (TilemapVXPrivate.new viewport5x5) } (some 1)
      = Except.ok { p := some fiveByFive } ∧
    fiveByFive.offset = { x := 0, y := 0 } ∧
    (prepare filledWorld fiveByFive).groundQuads = 36 ∧
    (prepare filledWorld fiveByFive).aboveQuads = 0 ∧
    ¬ ((prepare filledWorld fiveByFive).groundQuads = 25 ∧
      (prepare filledWorld fiveByFive).aboveQuads = 0) := by
  have e : fiveByFive = onGeometryChange
      { mapData := some 1, mapDataCon := some 1, prepareCon := true,
        trace := [Call.disconnect Slot.mapData, Call.connect Slot.mapData 1] } viewport5x5 := by
    decide
  obtain ⟨_, h2, h3⟩ := prepare_filled_map filledWorld
    { mapData := some 1, mapDataCon := some 1, prepareCon := true,
      trace := [Call.disconnect Slot.mapData, Call.connect Slot.mapData 1] } viewport5x5 1 1
    { x := 0, y := 0, w := 32, h := 32 } rfl rfl rfl rfl rfl rfl rfl (by decide) (fun _ => rfl)
  rw [← e] at h2 h3
  refine ⟨rfl, rfl, h2, h3, ?_⟩
  rw [h2]
  decide

/-- The cell count `(n / 32) + !!(n % 32) + 1` of `onGeometryChange` for a
non-negative `int` pixel size. -/
theorem cells_of_pixels (n : Int) (h0 : 0 ≤ n) (h1 : n ≤ INT_MAX) :
    iadd (iadd (idiv n 32) (notnot (imod n 32))) 1 = n / 32 + (if n % 32 = 0 then 0 else 1) + 1 := by
  unfold INT_MAX at h1
  unfold iadd idiv imod notnot
  rw [Int.tdiv_eq_ediv h0 (by decide), Int.tmod_eq_emod h0 (by decide)]
  unfold wrap32
  split_ifs <;> omega

/-- The ceiling of n / 32 in terms of floor division. -/
theorem ceil_div32 (n : Int) : ⌈(n : ℚ) / 32⌉ = n / 32 + (if n % 32 = 0 then 0 else 1) := by
  rw [Int.ceil_eq_iff]
  constructor
  · rw [lt_div_iff₀ (by norm_num)]
    have h : (n / 32 + (if n % 32 = 0 then 0 else 1) - 1) * 32 < n := by split_ifs <;> omega
    exact_mod_cast h
  · rw [div_le_iff₀ (by norm_num)]
    have h : n ≤ (n / 32 + (if n % 32 = 0 then 0 else 1)) * 32 := by split_ifs <;> omega
    exact_mod_cast h

/-- C6: for every viewport width `W >= 0` and height `H >= 0` (values of type
`int`), `onGeometryChange` sets the region width to ceil(W/32) + 1 and the
region height to ceil(H/32) + 1, where ceil(W/32) is the least number of
32-pixel cells that cover `W` pixels. -/
theorem onGeometryChange_region_size (s : TilemapVXPrivate) (geo : Geometry)
    (hw0 : 0 ≤ geo.rect.w) (hw1 : geo.rect.w ≤ INT_MAX)
    (hh0 : 0 ≤ geo.rect.h) (hh1 : geo.rect.h ≤ INT_MAX) :
    (onGeometryChange s geo).mapViewp.w = ⌈(geo.rect.w : ℚ) / 32⌉ + 1 ∧
    (onGeometryChange s geo).mapViewp.h = ⌈(geo.rect.h : ℚ) / 32⌉ + 1 ∧
    (geo.rect.w ≤ 32 * ((onGeometryChange s geo).mapViewp.w - 1) ∧
      ∀ n : Int, geo.rect.w ≤ 32 * n → (onGeometryChange s geo).mapViewp.w - 1 ≤ n) ∧
    (geo.rect.h ≤ 32 * ((onGeometryChange s geo).mapViewp.h - 1) ∧
      ∀ n : Int, geo.rect.h ≤ 32 * n → (onGeometryChange s geo).mapViewp.h - 1 ≤ n) := by
  have ew : (onGeometryChange s geo).mapViewp.w
      = geo.rect.w / 32 + (if geo.rect.w % 32 = 0 then 0 else 1) + 1 := by
    rw [← cells_of_pixels _ hw0 hw1]; rfl
  have eh : (onGeometryChange s geo).mapViewp.h
      = geo.rect.h / 32 + (if geo.rect.h % 32 = 0 then 0 else 1) + 1 := by
    rw [← cells_of_pixels _ hh0 hh1]; rfl
  rw [ew, eh, ceil_div32, ceil_div32]
  refine ⟨rfl, rfl, ⟨?_, ?_⟩, ⟨?_, ?_⟩⟩
  · split_ifs <;> omega
  · intro n hn; split_ifs <;> omega
  · split_ifs <;> omega
  · intro n hn; split_ifs <;> omega

/-- Witness of C6 for a viewport of 100 by 64 pixels: 4 + 1 cells wide (100 is
not a multiple of 32) and 2 + 1 cells tall (64 is). -/
theorem onGeometryChange_region_size_witness :
    (onGeometryChange {} viewport100x64).mapViewp.w = ⌈((100 : Int) : ℚ) / 32⌉ + 1 ∧
    (onGeometryChange {} viewport100x64).mapViewp.h = ⌈((64 : Int) : ℚ) / 32⌉ + 1 ∧
    (onGeometryChange {} viewport100x64).mapViewp.w = 5 ∧
    (onGeometryChange {} viewport100x64).mapViewp.h = 3 :=
  ⟨(onGeometryChange_region_size {} viewport100x64 (by decide) (by decide) (by decide)
      (by decide)).1,
    (onGeometryChange_region_size {} viewport100x64 (by decide) (by decide) (by decide)
      (by decide)).2.1,
    by decide, by decide⟩

/-- C7: every geometry-change event leaves the region-dirty and the
buffers-dirty flag set, whatever they were and whether or not the size changes,
and changes neither the region origin nor the scroll offset. -/
theorem onGeometryChange_flags (s : TilemapVXPrivate) (geo : Geometry) :
    (onGeometryChange s geo).mapViewportDirty = true ∧
    (onGeometryChange s geo).buffersDirty = true ∧
    (onGeometryChange s geo).mapViewp.x = s.mapViewp.x ∧
    (onGeometryChange s geo).mapViewp.y = s.mapViewp.y ∧
    (onGeometryChange s geo).offset = s.offset ∧
    (onGeometryChange (onGeometryChange s geo) geo).mapViewportDirty = true ∧
    (onGeometryChange (onGeometryChange s geo) geo).buffersDirty = true := by
  simp [onGeometryChange]

/-- The calls of one `prepare` that finds map data: atlas step, region step,
buffer step, then the flash map. -/
theorem prepare_trace (w : World) (s : TilemapVXPrivate) (md : TableRef)
    (h : s.mapData = some md) :
    (prepare w s).callsSince s =
      s.atlasCalls ++ s.regionCalls ++ s.bufferCalls w md ++ [Call.flashPrepare] := by
  have rb := fun t ht => rebuildBuffers_eq w t md ht
  by_cases ha : s.atlasDirty = true <;> by_cases hv : s.mapViewportDirty = true
  · by_cases hb : ((s.buffersDirty = true ∨
        ¬ tileOrigin (isub s.offset.x s.sceneOffset.x) = s.mapViewp.x) ∨
        ¬ tileOrigin (isub s.offset.y s.sceneOffset.y) = s.mapViewp.y) <;>
      simp [prepare, h, ha, hv, hb, rebuildAtlas, call, updateMapViewport_eq, rb,
        callsSince, batches, atlasCalls, regionCalls, bufferCalls, regionState, rebuildCalls]
  · by_cases hb : s.buffersDirty = true <;>
      simp [prepare, h, ha, hv, hb, rebuildAtlas, call, updateMapViewport_eq, rb,
        callsSince, batches, atlasCalls, regionCalls, bufferCalls, regionState, rebuildCalls]
  · by_cases hb : ((s.buffersDirty = true ∨
        ¬ tileOrigin (isub s.offset.x s.sceneOffset.x) = s.mapViewp.x) ∨
        ¬ tileOrigin (isub s.offset.y s.sceneOffset.y) = s.mapViewp.y) <;>
      simp [prepare, h, ha, hv, hb, rebuildAtlas, call, updateMapViewport_eq, rb,
        callsSince, batches, atlasCalls, regionCalls, bufferCalls, regionState, rebuildCalls]
  · by_cases hb : s.buffersDirty = true <;>
      simp [prepare, h, ha, hv, hb, rebuildAtlas, call, updateMapViewport_eq, rb,
        callsSince, batches, atlasCalls, regionCalls, bufferCalls, regionState, rebuildCalls]

/-- C8 (as amended): on every `prepare` cycle that finds map data assigned,
whatever the three dirty flags, the flash map's `prepare` runs exactly once and
is the last call of the cycle; before it the atlas handler runs exactly when
`atlasDirty` is set, the region handler exactly when `mapViewportDirty` is set,
the buffer handler exactly when `buffersDirty` is set once the region step is
done, and the handlers that run do so in the order atlas, region, buffers. -/
theorem prepare_flash_after_handlers (w : World) (s : TilemapVXPrivate) (md : TableRef)
    (h : s.mapData = some md) :
    ((prepare w s).callsSince s).getLast? = some Call.flashPrepare ∧
    ((prepare w s).callsSince s).count Call.flashPrepare = 1 ∧
    ((prepare w s).callsSince s).count Call.rebuildAtlas = (if s.atlasDirty then 1 else 0) ∧
    ((prepare w s).callsSince s).count Call.updateMapViewport
      = (if s.mapViewportDirty then 1 else 0) ∧
    ((prepare w s).callsSince s).count Call.rebuildBuffers
      = (if (if s.mapViewportDirty then (updateMapViewport s).buffersDirty else s.buffersDirty)
          then 1 else 0) ∧
    (Call.rebuildAtlas ∈ (prepare w s).callsSince s →
      ((prepare w s).callsSince s).indexOf Call.rebuildAtlas
        < ((prepare w s).callsSince s).indexOf Call.updateMapViewport ∧
      ((prepare w s).callsSince s).indexOf Call.rebuildAtlas
        < ((prepare w s).callsSince s).indexOf Call.rebuildBuffers) ∧
    (Call.updateMapViewport ∈ (prepare w s).callsSince s →
      ((prepare w s).callsSince s).indexOf Call.updateMapViewport
        < ((prepare w s).callsSince s).indexOf Call.rebuildBuffers) := by
  have e : (if s.mapViewportDirty then (updateMapViewport s).buffersDirty else s.buffersDirty)
      = s.regionState.buffersDirty := by
    unfold regionState; split <;> rfl
  rw [prepare_trace w s md h, e]
  unfold atlasCalls regionCalls bufferCalls rebuildCalls
  generalize s.regionState = t
  cases s.atlasDirty <;> cases s.mapViewportDirty <;> cases t.buffersDirty <;> simp <;>
    split_ifs <;> simp

/-- Witness of C8 (as amended) at `scrollPending`, which has map data. -/
theorem prepare_flash_after_handlers_witness :
    scrollPending.mapData = some 1 ∧
    ((prepare filledWorld scrollPending).callsSince scrollPending).getLast?
      = some Call.flashPrepare ∧
    ((prepare filledWorld scrollPending).callsSince scrollPending).count Call.flashPrepare = 1 :=
  ⟨rfl, (prepare_flash_after_handlers filledWorld scrollPending 1 rfl).1,
    (prepare_flash_after_handlers filledWorld scrollPending 1 rfl).2.1⟩

/-- C8 (counterexample to the claim as stated): a freshly constructed
renderer has all three dirty flags set and no map data; its `prepare` returns at
the guard `if (!mapData) return;`, makes no call at all, and in particular does
not run the flash map's `prepare`. -/
theorem prepare_without_map_data_skips_flash :
    (TilemapVXPrivate.new viewport5x5).mapData = none ∧
    (TilemapVXPrivate.new viewport5x5).atlasDirty = true ∧
    (TilemapVXPrivate.new viewport5x5).mapViewportDirty = true ∧
    (TilemapVXPrivate.new viewport5x5).buffersDirty = true ∧
    (prepare filledWorld (TilemapVXPrivate.new viewport5x5)).trace = [] ∧
    Call.flashPrepare ∉ (prepare filledWorld (TilemapVXPrivate.new viewport5x5)).trace := by
  rw [prepare_none filledWorld _ rfl]
  decide

/-- C9: assigning the reference that is already assigned is a no-op.
`setMapData` with the current map data table and `setFlags` with the current
flag table return the renderer unchanged: dirty flags and connections are as
before and the trace has no new `disconnect` or `connect` call. So does
`BitmapArray::set(i, b)` when `b` is the bitmap that `BitmapArray::get(i)`
reports for slot `i`, which for a valid `i` is the bitmap held in that slot. -/
theorem set_same_reference_noop (s : TilemapVXPrivate) (tm : TilemapVX) (i : Int) :
    TilemapVX.setMapData { p := some s } s.mapData = Except.ok { p := some s } ∧
    TilemapVX.setFlags { p := some s } s.flags = Except.ok { p := some s } ∧
    TilemapVX.BitmapArray.set tm i (TilemapVX.BitmapArray.get tm i) = Except.ok tm ∧
    (0 ≤ i → i < BM_COUNT →
      TilemapVX.BitmapArray.set { p := some s } i (s.bitmaps.getD i.toNat none)
        = Except.ok { p := some s }) := by
  refine ⟨?_, ?_, ?_, ?_⟩
  · simp [TilemapVX.setMapData, TilemapVX.guardDisposed]
  · simp [TilemapVX.setFlags, TilemapVX.guardDisposed]
  · unfold TilemapVX.BitmapArray.set TilemapVX.BitmapArray.get
    cases tm.p with
    | none => rfl
    | some p =>
      simp only []
      split_ifs <;> simp_all
  · intro h0 h1
    unfold TilemapVX.BitmapArray.set
    simp only []
    split_ifs <;> simp_all

/-- C10 (as amended): after `setMapData(t)` with `t` a table different from the
one assigned, the renderer references `t`, buffers-dirty is set, the map-data
connection is attached to `t` and nothing else has changed (the flags
connection included). In every later state `r` whose map-data connection is
still that one, a `modified` notification from `t` sets buffers-dirty, and one
from another table `u` leaves the state unchanged unless the flags connection
is attached to `u`. The same holds for `setFlags` with the two slots exchanged. -/
theorem setMapData_moves_subscription (s r : TilemapVXPrivate) (t u : TableRef) :
    (s.mapData ≠ some t →
      TilemapVX.setMapData { p := some s } (some t) = Except.ok
        ⟨some { s with
          mapData := some t
          buffersDirty := true
          mapDataCon := some t
          trace := s.trace ++ [Call.disconnect Slot.mapData, Call.connect Slot.mapData t] }⟩ ∧
      (r.mapDataCon = some t → (tableModified t r).buffersDirty = true) ∧
      (r.mapDataCon = some t → u ≠ t → r.flagsCon ≠ some u → tableModified u r = r)) ∧
    (s.flags ≠ some t →
      TilemapVX.setFlags { p := some s } (some t) = Except.ok
        ⟨some { s with
          flags := some t
          buffersDirty := true
          flagsCon := some t
          trace := s.trace ++ [Call.disconnect Slot.flags, Call.connect Slot.flags t] }⟩ ∧
      (r.flagsCon = some t → (tableModified t r).buffersDirty = true) ∧
      (r.flagsCon = some t → u ≠ t → r.mapDataCon ≠ some u → tableModified u r = r)) := by
  refine ⟨fun hm => ⟨?_, ?_, ?_⟩, fun hf => ⟨?_, ?_, ?_⟩⟩
  · simp [TilemapVX.setMapData, TilemapVX.guardDisposed, hm, call]
  · intro h
    unfold tableModified invalidateBuffers
    simp only [h]
    split_ifs <;> simp
  · intro h hu hfu
    unfold tableModified invalidateBuffers
    have hu2 : ¬ (t = u) := fun e => hu e.symm
    simp [h, hfu, hu2]
  · simp [TilemapVX.setFlags, TilemapVX.guardDisposed, hf, call]
  · intro h
    unfold tableModified invalidateBuffers
    simp only [h]
    split_ifs <;> simp
  · intro h hu hmu
    unfold tableModified invalidateBuffers
    have hu2 : ¬ (t = u) := fun e => hu e.symm
    simp [h, hmu, hu2]

/-- Witness of C10 (as amended): on `preparedAtOrigin`, which references table 1
and no flag table, `setMapData` moves the map-data connection to table 2; in the
later state `originAfterSet` a notification from table 2 sets buffers-dirty and
one from table 1 changes nothing. -/
theorem setMapData_moves_subscription_witness :
    preparedAtOrigin.mapData ≠ some 2 ∧
    TilemapVX.setMapData { p := some preparedAtOrigin } (some 2)
      = Except.ok { p := some { originAfterSet with buffersDirty := true } } ∧
    (tableModified 2 originAfterSet).buffersDirty = true ∧
    tableModified 1 originAfterSet = originAfterSet :=
  ⟨by decide,
    ((setMapData_moves_subscription preparedAtOrigin originAfterSet 2 1).1 (by decide)).1,
    ((setMapData_moves_subscription preparedAtOrigin originAfterSet 2 1).1 (by decide)).2.1 rfl,
    ((setMapData_moves_subscription preparedAtOrigin originAfterSet 2 1).1 (by decide)).2.2 rfl
      (by decide) (by decide)⟩

/-- C10 (counterexample to the claim as stated): `sharedTableState` has
table 1 assigned both as map data and as flags. After `setMapData` to table 2
and one `prepare` (which clears buffers-dirty), the renderer holds two
`modified` connections (map data on table 2, flags on table 1), and a `modified`
notification from the previously assigned table 1 still sets buffers-dirty. -/
theorem old_table_still_notifies :
    sharedTableState.mapData = some 1 ∧
    TilemapVX.setMapData { p := some sharedTableState } (some 2)
      = Except.ok { p := some sharedAfterSet } ∧
    (prepare filledWorld sharedAfterSet).mapDataCon = some 2 ∧
    (prepare filledWorld sharedAfterSet).flagsCon = some 1 ∧
    (prepare filledWorld sharedAfterSet).buffersDirty = false ∧
    (tableModified 1 (prepare filledWorld sharedAfterSet)).buffersDirty = true ∧
    tableModified 1 (prepare filledWorld sharedAfterSet) ≠ prepare filledWorld sharedAfterSet := by
  refine ⟨rfl, rfl, by decide, by decide, by decide, by decide, ?_⟩
  intro h
  have hb := congrArg TilemapVXPrivate.buffersDirty h
  revert hb
  decide

theorem emit_foldl (sig : Signal) (source : Nat) (l : List Slot) (s : TilemapVXPrivate) :
    l.foldl
      (fun r slot => if slot.signal = sig ∧ r.connection slot = some source then slot.handler r
        else r) s =
      { s with
        buffersDirty := s.buffersDirty || l.any fun slot => slot.isTable && s.attached sig source slot
        atlasDirty := s.atlasDirty || l.any fun slot => !slot.isTable && s.attached sig source slot } := by
  induction l generalizing s with
  | nil => simp
  | cons slot l ih =>
    rw [List.foldl_cons, ih]
    by_cases h : slot.signal = sig ∧ s.connection slot = some source
    · rw [if_pos h]
      cases slot <;>
        simp [Slot.handler, Slot.isTable, List.any_cons, invalidateBuffers, invalidateAtlas,
          attached, connection] <;>
        exact Or.inr (Or.inl (by simpa [connection] using h))
    · rw [if_neg h]
      have ha : s.attached sig source slot = false := by simp [attached, h]
      simp [List.any_cons, ha]

theorem emit_eq (sig : Signal) (source : Nat) (s : TilemapVXPrivate) :
    emit sig source s =
      { s with
        buffersDirty := s.buffersDirty ||
          allSlots.any fun slot => slot.isTable && s.attached sig source slot
        atlasDirty := s.atlasDirty ||
          allSlots.any fun slot => !slot.isTable && s.attached sig source slot } :=
  emit_foldl sig source allSlots s

theorem any_const_false {α : Type} (l : List α) : (l.any fun _ => false) = false := by
  induction l with
  | nil => rfl
  | cons a l ih => simp [List.any_cons, ih]

theorem any_map_comp {α β : Type} (f : α → β) (p : β → Bool) (l : List α) :
    (l.map f).any p = l.any fun a => p (f a) := by
  induction l with
  | nil => rfl
  | cons a l ih => simp [List.any_cons, ih]

theorem any_allSlots (p : Slot → Bool) :
    allSlots.any p =
      (p Slot.mapData || p Slot.flags
        || ((List.range BM_COUNT).any fun i => p (Slot.bmChanged i))
        || ((List.range BM_COUNT).any fun i => p (Slot.bmDisposed i))) := by
  simp [allSlots, List.any_append, any_map_comp, Bool.or_assoc]

theorem emit_tableDisposed (t : TableRef) (s : TilemapVXPrivate) :
    emit Signal.tableDisposed t s = s := by
  have h : ∀ slot : Slot, s.attached Signal.tableDisposed t slot = false := by
    intro slot
    cases slot <;> simp [attached, Slot.signal]
  rw [emit_eq]
  simp [h, any_const_false]

theorem emit_tableModified (t : TableRef) (s : TilemapVXPrivate) :
    emit Signal.tableModified t s = tableModified t s := by
  rw [emit_eq, any_allSlots, any_allSlots]
  unfold tableModified invalidateBuffers
  by_cases h1 : s.mapDataCon = some t <;> by_cases h2 : s.flagsCon = some t <;>
    simp [Slot.isTable, attached, Slot.signal, connection, h1, h2, any_const_false]

theorem emit_bitmap (s : TilemapVXPrivate) (i : Nat) (b : BitmapRef) (hi : i < BM_COUNT) :
    (s.bmChangedCons.getD i none = some b →
      (emit Signal.bitmapModified b s).atlasDirty = true) ∧
    (s.bmDisposedCons.getD i none = some b →
      (emit Signal.bitmapDisposed b s).atlasDirty = true) := by
  constructor
  · intro h
    rw [emit_eq]
    have hm : Slot.bmChanged i ∈ allSlots := by
      simp [allSlots, hi]
    have ha : (!(Slot.bmChanged i).isTable && s.attached Signal.bitmapModified b (Slot.bmChanged i))
        = true := by
      simp [Slot.isTable, attached, Slot.signal, connection]
      simpa using h
    have : (allSlots.any fun slot => !slot.isTable && s.attached Signal.bitmapModified b slot)
        = true := List.any_eq_true.mpr ⟨_, hm, ha⟩
    simp [this]
  · intro h
    rw [emit_eq]
    have hm : Slot.bmDisposed i ∈ allSlots := by
      simp [allSlots, hi]
    have ha : (!(Slot.bmDisposed i).isTable && s.attached Signal.bitmapDisposed b (Slot.bmDisposed i))
        = true := by
      simp [Slot.isTable, attached, Slot.signal, connection]
      simpa using h
    have : (allSlots.any fun slot => !slot.isTable && s.attached Signal.bitmapDisposed b slot)
        = true := List.any_eq_true.mpr ⟨_, hm, ha⟩
    simp [this]

/-- Assigning a null reference over a non-null one reaches the member access
`value->modified` (or `bitmap->modified`) on the null pointer. -/
theorem clear_nonnull_fails (s : TilemapVXPrivate) (i : Int) :
    (s.mapData ≠ none →
      TilemapVX.setMapData { p := some s } none = Except.error Error.nullDereference) ∧
    (s.flags ≠ none →
      TilemapVX.setFlags { p := some s } none = Except.error Error.nullDereference) ∧
    (0 ≤ i → i < BM_COUNT → s.bitmaps.getD i.toNat none ≠ none →
      TilemapVX.BitmapArray.set { p := some s } i none
        = Except.error Error.nullDereference) := by
  refine ⟨?_, ?_, ?_⟩
  · intro h
    simp [TilemapVX.setMapData, TilemapVX.guardDisposed, h]
  · intro h
    simp [TilemapVX.setFlags, TilemapVX.guardDisposed, h]
  · intro h0 h1 h
    unfold TilemapVX.BitmapArray.set
    have hr : ¬ (i < 0 ∨ i ≥ BM_COUNT) := by omega
    simp only [hr, if_false, h]

/-- C11 (the code departs from the claim): clearing a reference that is set
does dereference the null reference. With a map data table assigned,
`setMapData(null)` stores the null pointer, disconnects, and then evaluates
`value->modified` on it; `setFlags(null)` and `BitmapArray::set(i, null)` do the
same with `value->modified` and `bitmap->modified`. -/
theorem clear_reference_dereferences_null :
    preparedAtOrigin.mapData = some 1 ∧
    TilemapVX.setMapData { p := some preparedAtOrigin } none
      = Except.error Error.nullDereference ∧
    sharedTableState.flags = some 1 ∧
    TilemapVX.setFlags { p := some sharedTableState } none
      = Except.error Error.nullDereference ∧
    withBitmap.bitmaps.getD BM_A1 none = some 7 ∧
    TilemapVX.BitmapArray.set { p := some withBitmap } 0 none
      = Except.error Error.nullDereference :=
  ⟨rfl, rfl, rfl, rfl, rfl, rfl⟩

/-- The whole effect of `drawGround`: its calls, and nothing else. -/
theorem drawGround_eq (w : World) (s : TilemapVXPrivate) :
    drawGround w s = { s with trace := s.trace ++ s.groundCalls w } := by
  unfold drawGround groundCalls call
  by_cases h0 : s.groundQuads = 0
  · rw [if_pos h0, if_pos h0, List.append_nil]
  · cases hn : nullOrDisposed w (s.bitmaps.getD BM_A1 none) <;> simp [h0, hn]

/-- The whole effect of `drawAbove`: its calls, and nothing else. -/
theorem drawAbove_eq (w : World) (s : TilemapVXPrivate) :
    drawAbove w s = { s with trace := s.trace ++ s.aboveCalls w } := by
  unfold drawAbove aboveCalls call
  by_cases h0 : s.aboveQuads = 0
  · rw [if_pos h0, if_pos h0, List.append_nil]
  · simp [h0]

/-- The whole effect of one frame: ground layer, flash overlay, above-player
layer, flash overlay. -/
theorem frame_eq (w : World) (s : TilemapVXPrivate) :
    frame w s = { s with trace := s.trace ++ s.groundCalls w
      ++ [Call.flashDraw s.flashLayerAlpha s.dispPos] ++ s.aboveCalls w
      ++ [Call.flashDraw s.flashLayerAlpha s.dispPos] } := by
  unfold frame AboveLayer.draw draw drawFlashLayer call
  simp [drawGround_eq, drawAbove_eq, aboveCalls, flashLayerAlpha]

/-- What `BitmapArray::set` does on a live renderer for a valid slot and a
non-null bitmap. -/
theorem bitmap_set_live (s : TilemapVXPrivate) (i : Int) (b : BitmapRef)
    (h0 : 0 ≤ i) (h1 : i < BM_COUNT) :
    TilemapVX.BitmapArray.set { p := some s } i (some b) =
      Except.ok { p := some (if s.bitmaps.getD i.toNat none = some b then s else
        { s with
          bitmaps := s.bitmaps.set i.toNat (some b)
          atlasDirty := true
          bmChangedCons := s.bmChangedCons.set i.toNat (some b)
          bmDisposedCons := s.bmDisposedCons.set i.toNat (some b)
          trace := s.trace ++
            [Call.disconnect (Slot.bmChanged i.toNat), Call.connect (Slot.bmChanged i.toNat) b,
              Call.disconnect (Slot.bmDisposed i.toNat),
              Call.connect (Slot.bmDisposed i.toNat) b] }) } := by
  have hr : ¬ (i < 0 ∨ i ≥ BM_COUNT) := by omega
  by_cases hb : s.bitmaps.getD i.toNat none = some b
  · simp only [TilemapVX.BitmapArray.set, hr, if_false, hb, if_true]
  · simp only [TilemapVX.BitmapArray.set, hr, if_false, hb, call, List.set_set,
      List.append_assoc, List.cons_append, List.nil_append]

/-- Construction leaves the bitmap slots empty and unconnected, and
`BitmapArray::set` keeps the connections in step with the slots. -/
theorem slotsWF_kept (s : TilemapVXPrivate) (geo : Geometry) (i : Int) (b : BitmapRef)
    (hwf : s.SlotsWF) (h0 : 0 ≤ i) (h1 : i < BM_COUNT) :
    (TilemapVXPrivate.new geo).SlotsWF ∧
    ∃ s1, TilemapVX.BitmapArray.set { p := some s } i (some b) = Except.ok { p := some s1 } ∧
      s1.SlotsWF ∧ s1.bitmaps.getD i.toNat none = some b := by
  refine ⟨by simp [TilemapVXPrivate.new, onGeometryChange, SlotsWF], ?_⟩
  rw [bitmap_set_live s i b h0 h1]
  refine ⟨_, rfl, ?_⟩
  obtain ⟨hl, hc, hd⟩ := hwf
  have hlt : i.toNat < s.bitmaps.length := by rw [hl]; omega
  by_cases hb : s.bitmaps.getD i.toNat none = some b
  · rw [if_pos hb]
    exact ⟨⟨hl, hc, hd⟩, hb⟩
  · rw [if_neg hb]
    refine ⟨⟨by simp [hl], by simp [hc], by simp [hd]⟩, ?_⟩
    simp [List.getD_eq_getElem?_getD, hlt]

/-- C12: after `BitmapArray::set(i, b)` for a valid slot `i`, slot `i` holds `b`
and both connections of the slot are attached to `b`; in every later state `r`
in which they still are, a `modified` and a `wasDisposed` notification from `b`
each set atlas-dirty. A `prepare` that finds map data and atlas-dirty set runs
the atlas rebuild exactly once, on the current bitmaps, and clears the flag. The
ground draw with a disposed bitmap in the animated-tileset slot makes the calls
it makes with that slot empty, none of them on the animated shader. -/
theorem bitmap_notification_rebuilds_atlas (w : World) (s r : TilemapVXPrivate) (i : Int)
    (b a : BitmapRef) (md : TableRef) (h0 : 0 ≤ i) (h1 : i < BM_COUNT) (hwf : s.SlotsWF) :
    (∃ s1, TilemapVX.BitmapArray.set { p := some s } i (some b) = Except.ok { p := some s1 } ∧
      s1.bitmaps.getD i.toNat none = some b ∧
      s1.bmChangedCons.getD i.toNat none = some b ∧
      s1.bmDisposedCons.getD i.toNat none = some b) ∧
    (r.bmChangedCons.getD i.toNat none = some b →
      (emit Signal.bitmapModified b r).atlasDirty = true) ∧
    (r.bmDisposedCons.getD i.toNat none = some b →
      (emit Signal.bitmapDisposed b r).atlasDirty = true) ∧
    (r.mapData = some md → r.atlasDirty = true →
      ((prepare w r).callsSince r).count Call.rebuildAtlas = 1 ∧
      ((prepare w r).callsSince r).count (Call.atlasBuild r.bitmaps) = 1 ∧
      (prepare w r).atlasDirty = false) ∧
    (r.bitmaps.getD BM_A1 none = some a → w.bitmapDisposed a = true →
      (drawGround w r).callsSince r
        = (drawGround w { r with bitmaps := r.bitmaps.set BM_A1 none }).callsSince r ∧
      Call.shaderBind ShaderKind.tilemapVX ∉ (drawGround w r).callsSince r) := by
  have hi : i.toNat < BM_COUNT := by omega
  refine ⟨?_, (emit_bitmap r i.toNat b hi).1, (emit_bitmap r i.toNat b hi).2, ?_, ?_⟩
  · obtain ⟨s1, e, hw, hb⟩ := (slotsWF_kept s {} i b hwf h0 h1).2
    obtain ⟨_, hc, hd⟩ := hw
    exact ⟨s1, e, hb, by rw [hc]; exact hb, by rw [hd]; exact hb⟩
  · intro hmd hat
    refine ⟨?_, ?_, (prepare_flags w r md hmd).2.1⟩
    · rw [prepare_trace w r md hmd]
      unfold atlasCalls regionCalls bufferCalls rebuildCalls
      generalize r.regionState = t
      cases r.mapViewportDirty <;> cases t.buffersDirty <;> simp [hat] <;> split_ifs <;> simp
    · rw [prepare_trace w r md hmd]
      unfold atlasCalls regionCalls bufferCalls rebuildCalls
      generalize r.regionState = t
      cases r.mapViewportDirty <;> cases t.buffersDirty <;> simp [hat] <;> split_ifs <;> simp
  · intro ha hd
    have hlen : BM_A1 < r.bitmaps.length := by
      by_contra hlt
      rw [List.getD_eq_getElem?_getD, List.getElem?_eq_none (by omega)] at ha
      simp at ha
    have hn1 : nullOrDisposed w (r.bitmaps.getD BM_A1 none) = true := by
      rw [ha]; exact hd
    have hn2 : nullOrDisposed w ((r.bitmaps.set BM_A1 none).getD BM_A1 none) = true := by
      simp [List.getD_eq_getElem?_getD, hlen, nullOrDisposed]
    rw [drawGround_eq, drawGround_eq]
    simp only [callsSince, groundCalls, hn1, hn2, List.drop_left, if_true]
    refine ⟨trivial, ?_⟩
    split_ifs <;> simp

/-- Witness of C12: bitmap 7 is assigned to slot 0 of `preparedAtOrigin`; in the
later state `withBitmap`, whose atlas-dirty flag is clear, its notifications set
the flag, and with bitmap 7 disposed the ground draw uses the plain shader. -/
theorem bitmap_notification_rebuilds_atlas_witness :
    preparedAtOrigin.SlotsWF ∧ withBitmap.atlasDirty = false ∧
    (emit Signal.bitmapModified 7 withBitmap).atlasDirty = true ∧
    (emit Signal.bitmapDisposed 7 withBitmap).atlasDirty = true ∧
    Call.shaderBind ShaderKind.tilemapVX
      ∉ (drawGround disposedWorld withBitmapQuads).callsSince withBitmapQuads :=
  ⟨by decide, rfl,
    (bitmap_notification_rebuilds_atlas disposedWorld preparedAtOrigin withBitmap 0 7 7 1
      (by decide) (by decide) (by decide)).2.1 rfl,
    (bitmap_notification_rebuilds_atlas disposedWorld preparedAtOrigin withBitmap 0 7 7 1
      (by decide) (by decide) (by decide)).2.2.1 rfl,
    ((bitmap_notification_rebuilds_atlas disposedWorld preparedAtOrigin withBitmapQuads 0 7 7 1
      (by decide) (by decide) (by decide)).2.2.2.2 rfl rfl).2⟩

/-- C13 (as amended): the renderer subscribes to the `modified` notification of
the assigned map-data table and flag table, and to nothing else of a table: both
table connections are attached to `modified`, `setMapData` and `setFlags` make
exactly one `connect` call each, no connection member is attached to a table
disposal signal, a `modified` notification from an assigned table sets
buffers-dirty, and a disposal notification from it leaves the renderer
unchanged. -/
theorem table_subscription_modified_only (s r : TilemapVXPrivate) (t : TableRef) :
    Slot.mapData.signal = Signal.tableModified ∧ Slot.flags.signal = Signal.tableModified ∧
    (∀ slot ∈ allSlots, slot.signal ≠ Signal.tableDisposed) ∧
    (s.mapData ≠ some t → ∃ s1,
      TilemapVX.setMapData { p := some s } (some t) = Except.ok { p := some s1 } ∧
      s1.callsSince s = [Call.disconnect Slot.mapData, Call.connect Slot.mapData t]) ∧
    (s.flags ≠ some t → ∃ s1,
      TilemapVX.setFlags { p := some s } (some t) = Except.ok { p := some s1 } ∧
      s1.callsSince s = [Call.disconnect Slot.flags, Call.connect Slot.flags t]) ∧
    (r.mapDataCon = some t ∨ r.flagsCon = some t →
      (emit Signal.tableModified t r).buffersDirty = true) ∧
    emit Signal.tableDisposed t r = r := by
  refine ⟨rfl, rfl, ?_, ?_, ?_, ?_, emit_tableDisposed t r⟩
  · intro slot _
    cases slot <;> simp [Slot.signal]
  · intro hm
    refine ⟨_, by simp [TilemapVX.setMapData, TilemapVX.guardDisposed, hm, call]; rfl, ?_⟩
    simp [callsSince]
  · intro hf
    refine ⟨_, by simp [TilemapVX.setFlags, TilemapVX.guardDisposed, hf, call]; rfl, ?_⟩
    simp [callsSince]
  · intro h
    rw [emit_tableModified]
    unfold tableModified invalidateBuffers
    rcases h with h | h
    · simp only [h]
      split_ifs <;> simp
    · by_cases h2 : r.mapDataCon = some t <;> simp [h, h2]

/-- C13 (counterexample to the claim as stated): in `originAfterSet` table 2
is the assigned map data and buffers-dirty is clear; a disposal notification
from table 2 leaves buffers-dirty clear, whereas a `modified` notification from
it sets the flag. -/
theorem table_disposal_does_not_invalidate :
    originAfterSet.mapData = some 2 ∧ originAfterSet.mapDataCon = some 2 ∧
    originAfterSet.buffersDirty = false ∧
    (emit Signal.tableDisposed 2 originAfterSet).buffersDirty = false ∧
    (emit Signal.tableModified 2 originAfterSet).buffersDirty = true := by
  refine ⟨rfl, rfl, rfl, ?_, ?_⟩
  · rw [emit_tableDisposed]; rfl
  · rw [emit_tableModified]; rfl

/-- What `update` does on a live renderer. -/
theorem update_live (s : TilemapVXPrivate) :
    TilemapVX.update { p := some s } = Except.ok { p := some (s.ticked 1) } := by
  unfold TilemapVX.update TilemapVX.guardDisposed ticked
  simp only [Function.iterate_one]
  unfold nextFrame nextFlash aniOffsetOf
  split_ifs <;> simp_all

/-- What `n` ticks do on a live renderer. -/
theorem ticks_live (n : Nat) (s : TilemapVXPrivate) :
    TilemapVX.ticks n { p := some s } = Except.ok { p := some (s.ticked n) } := by
  induction n generalizing s with
  | zero => simp [TilemapVX.ticks, ticked]
  | succ n ih =>
    rw [TilemapVX.ticks, update_live]
    simp only [Except.bind]
    rw [ih]
    cases n <;> simp [ticked, Function.iterate_succ_apply]

theorem nextFrame_iterate (n i : Nat) (h : i < 360) : nextFrame^[n] i = (i + n) % 360 := by
  induction n with
  | zero => simp; omega
  | succ n ih =>
    rw [Function.iterate_succ_apply', ih]
    unfold nextFrame
    split_ifs <;> omega

theorem nextFlash_iterate (n a : Nat) (h : a < 32) : nextFlash^[n] a = (a + n) % 32 := by
  have hN : flashAlphaN = 32 := by decide
  induction n with
  | zero => simp; omega
  | succ n ih =>
    rw [Function.iterate_succ_apply', ih]
    unfold nextFlash
    rw [hN]
    split_ifs <;> omega

/-- Within one cycle the animation offset is (0, 0) during the first 30 frames
only. -/
theorem aniOffsetOf_zero (m : Nat) (h : m < 360) :
    aniOffsetOf m = { x := 0, y := 0 } ↔ m < 30 := by
  unfold aniOffsetOf
  have hk : m / 30 < 12 := by omega
  have hz : m < 30 ↔ m / 30 = 0 := by omega
  rw [hz]
  generalize m / 30 = k at hk
  interval_cases k <;> simp [aniIndicesA, aniIndicesC]

/-- C14: for every renderer state with frame index below 360 (whose animation
offset is the one derived from its frame index, as it is after construction and
after every tick), 360 consecutive `update` ticks bring frame index and
animation offset back to what they were. From the constructed state (frame
index 0, offset (0, 0)) the offset is (0, 0) again after 360 ticks, and between
tick 30 and tick 359 it is not. After `n` ticks the frame index is (i + n) mod
360: it returns to `i` for no `n` with 0 < n < 360, stays below 360, and the
index `frameIdx / 30` into the 12-entry tables is in bounds, also after a tick
from an arbitrary state `r`. -/
theorem animation_cycle (s r : TilemapVXPrivate) (n : Nat) (geo : Geometry)
    (hf : s.frameIdx < 360) (hinv : s.aniOffset = aniOffsetOf s.frameIdx) :
    (∃ s1, TilemapVX.ticks 360 { p := some s } = Except.ok { p := some s1 } ∧
      s1.frameIdx = s.frameIdx ∧ s1.aniOffset = s.aniOffset) ∧
    ((TilemapVXPrivate.new geo).frameIdx = 0 ∧
      (TilemapVXPrivate.new geo).aniOffset = { x := 0, y := 0 } ∧
      (TilemapVXPrivate.new geo).aniOffset = aniOffsetOf (TilemapVXPrivate.new geo).frameIdx ∧
      ∃ s1, TilemapVX.ticks n { p := some (TilemapVXPrivate.new geo) }
          = Except.ok { p := some s1 } ∧
        (n = 360 → s1.frameIdx = 0 ∧ s1.aniOffset = { x := 0, y := 0 }) ∧
        (30 ≤ n → n < 360 → s1.aniOffset ≠ { x := 0, y := 0 })) ∧
    (∃ s2, TilemapVX.ticks n { p := some s } = Except.ok { p := some s2 } ∧
      s2.frameIdx = (s.frameIdx + n) % 360 ∧ s2.frameIdx < 360 ∧
      s2.frameIdx / 30 < aniIndicesA.length ∧ s2.frameIdx / 30 < aniIndicesC.length ∧
      s2.aniOffset = aniOffsetOf s2.frameIdx ∧
      (0 < n → n < 360 → s2.frameIdx ≠ s.frameIdx)) ∧
    (∃ s3, TilemapVX.update { p := some r } = Except.ok { p := some s3 } ∧
      s3.frameIdx < 360 ∧ s3.frameIdx / 30 < aniIndicesA.length ∧
      s3.frameIdx / 30 < aniIndicesC.length ∧ s3.aniOffset = aniOffsetOf s3.frameIdx) := by
  have hA : aniIndicesA.length = 12 := rfl
  have hC : aniIndicesC.length = 12 := rfl
  have hnf : (TilemapVXPrivate.new geo).frameIdx = 0 := rfl
  have hz : aniOffsetOf 0 = { x := 0, y := 0 } := by decide
  have h0 : (TilemapVXPrivate.new geo).frameIdx < 360 := by rw [hnf]; decide
  refine ⟨⟨_, ticks_live 360 s, ?_, ?_⟩, ⟨rfl, rfl, by rw [hnf, hz]; rfl, _, ticks_live n _, ?_, ?_⟩,
    ⟨_, ticks_live n s, ?_, ?_, ?_, ?_, ?_, ?_⟩, ⟨_, update_live r, ?_, ?_, ?_, ?_⟩⟩
  · simp only [ticked, nextFrame_iterate 360 _ hf]
    omega
  · simp only [ticked, nextFrame_iterate 360 _ hf]
    rw [hinv]
    have e : (s.frameIdx + 360) % 360 = s.frameIdx := by omega
    simp [e]
  · intro hn
    subst hn
    have e : nextFrame^[360] (TilemapVXPrivate.new geo).frameIdx = 0 := by
      rw [nextFrame_iterate 360 _ h0, hnf]
    simp only [ticked, e]
    exact ⟨trivial, hz⟩
  · intro h30 h360
    have hn0 : n ≠ 0 := by omega
    have e : nextFrame^[n] (TilemapVXPrivate.new geo).frameIdx = n := by
      rw [nextFrame_iterate n _ h0, hnf]
      omega
    simp only [ticked, e, hn0, if_false]
    rw [Ne, aniOffsetOf_zero n h360]
    omega
  · simp only [ticked, nextFrame_iterate n _ hf]
  · simp only [ticked, nextFrame_iterate n _ hf]
    omega
  · simp only [ticked, nextFrame_iterate n _ hf, hA]
    omega
  · simp only [ticked, nextFrame_iterate n _ hf, hC]
    omega
  · simp only [ticked, nextFrame_iterate n _ hf]
    split_ifs with h
    · subst h
      rw [hinv]
      have e : (s.frameIdx + 0) % 360 = s.frameIdx := by omega
      rw [e]
    · rfl
  · intro h1 h2
    simp only [ticked, nextFrame_iterate n _ hf]
    omega
  · simp only [ticked, Function.iterate_one, nextFrame]
    split_ifs <;> omega
  · simp only [ticked, Function.iterate_one, nextFrame, hA]
    split_ifs <;> omega
  · simp only [ticked, Function.iterate_one, nextFrame, hC]
    split_ifs <;> omega
  · simp [ticked]

/-- Witness of C14 at the constructed renderer. -/
theorem animation_cycle_witness :
    (TilemapVXPrivate.new viewport5x5).frameIdx < 360 ∧
    ∃ s1, TilemapVX.ticks 360 { p := some (TilemapVXPrivate.new viewport5x5) }
        = Except.ok { p := some s1 } ∧
      s1.frameIdx = (TilemapVXPrivate.new viewport5x5).frameIdx ∧
      s1.aniOffset = (TilemapVXPrivate.new viewport5x5).aniOffset :=
  ⟨by decide,
    (animation_cycle (TilemapVXPrivate.new viewport5x5) {} 360 viewport5x5 (by decide) rfl).1⟩

/-- C15: each `update` tick increments the flash pulse index modulo 32. From an
index `i < 32` the index after one tick is (i + 1) mod 32 and after `n` ticks
(i + n) mod 32, so it is back at `i` after 32 ticks and after no fewer. The
index is 0 after construction and below 32, the length of `flashAlpha`, after
every tick, even one from an arbitrary state `r`. -/
theorem flash_index_cycle (s r : TilemapVXPrivate) (n : Nat) (geo : Geometry)
    (hi : s.flashAlphaIdx < 32) :
    (∃ s1, TilemapVX.update { p := some s } = Except.ok { p := some s1 } ∧
      s1.flashAlphaIdx = (s.flashAlphaIdx + 1) % 32) ∧
    (∃ s2, TilemapVX.ticks n { p := some s } = Except.ok { p := some s2 } ∧
      s2.flashAlphaIdx = (s.flashAlphaIdx + n) % 32 ∧
      s2.flashAlphaIdx < flashAlpha.length ∧
      (n = 32 → s2.flashAlphaIdx = s.flashAlphaIdx) ∧
      (0 < n → n < 32 → s2.flashAlphaIdx ≠ s.flashAlphaIdx)) ∧
    (flashAlphaN = 32 ∧ flashAlpha.length = 32 ∧ (TilemapVXPrivate.new geo).flashAlphaIdx = 0) ∧
    (∃ s3, TilemapVX.update { p := some r } = Except.ok { p := some s3 } ∧
      s3.flashAlphaIdx < flashAlpha.length) := by
  have hN : flashAlphaN = 32 := by decide
  have hL : flashAlpha.length = 32 := by decide
  refine ⟨⟨_, update_live s, ?_⟩, ⟨_, ticks_live n s, ?_, ?_, ?_, ?_⟩, ⟨hN, hL, rfl⟩,
    ⟨_, update_live r, ?_⟩⟩
  · simp only [ticked, nextFlash_iterate 1 _ hi]
  · simp only [ticked, nextFlash_iterate n _ hi]
  · simp only [ticked, nextFlash_iterate n _ hi, hL]
    omega
  · intro hn
    simp only [ticked, nextFlash_iterate n _ hi]
    omega
  · intro h1 h2
    simp only [ticked, nextFlash_iterate n _ hi]
    omega
  · simp only [ticked, Function.iterate_one, nextFlash, hN, hL]
    split_ifs <;> omega

/-- Witness of C15 at the constructed renderer and 5 ticks. -/
theorem flash_index_cycle_witness :
    (TilemapVXPrivate.new viewport5x5).flashAlphaIdx < 32 ∧
    ∃ s2, TilemapVX.ticks 5 { p := some (TilemapVXPrivate.new viewport5x5) }
        = Except.ok { p := some s2 } ∧
      s2.flashAlphaIdx = ((TilemapVXPrivate.new viewport5x5).flashAlphaIdx + 5) % 32 := by
  obtain ⟨s2, e, h, _⟩ := (flash_index_cycle (TilemapVXPrivate.new viewport5x5) {} 5
    viewport5x5 (by decide)).2.1
  exact ⟨by decide, s2, e, h⟩

/-- The flash alpha table rises, or holds, up to tick 16 and falls, or holds,
from there on. -/
theorem flashAlpha_monotone :
    (∀ u : Nat, u < 16 → flashAlpha.getD u 0 ≤ flashAlpha.getD (u + 1) 0) ∧
    (∀ u : Nat, u < 31 → 16 ≤ u → flashAlpha.getD (u + 1) 0 ≤ flashAlpha.getD u 0) := by
  decide

/-- C16 (as amended): the 32-entry flash alpha table is a fade-in/fade-out
curve. It does not decrease from tick 0 (0x78) up to the peak 0xF0, held at
ticks 16 to 19, does not increase from there to tick 31 (0x96), and is symmetric
about the peak: for every tick `t` with 4 <= t <= 31 the value at tick `t`
equals the value at tick 35 - t. The four entries 0x78 at ticks 0 to 3 have no
mirror entry. -/
theorem flashAlpha_fade_symmetry (t u : Nat) (h4 : 4 ≤ t) (h31 : t ≤ 31) :
    flashAlpha.getD t 0 = flashAlpha.getD (35 - t) 0 ∧
    (u < 16 → flashAlpha.getD u 0 ≤ flashAlpha.getD (u + 1) 0) ∧
    (16 ≤ u → u < 31 → flashAlpha.getD (u + 1) 0 ≤ flashAlpha.getD u 0) ∧
    (16 ≤ t → t ≤ 19 → flashAlpha.getD t 0 = 0xF0) ∧
    flashAlpha.getD 0 0 = 0x78 ∧ flashAlpha.getD 31 0 = 0x96 ∧ flashAlpha.length = 32 := by
  refine ⟨?_, flashAlpha_monotone.1 u, fun h1 h2 => flashAlpha_monotone.2 u h2 h1, ?_,
    by decide, by decide, by decide⟩
  · interval_cases t <;> decide
  · intro h1 h2
    interval_cases t <;> decide

/-- Witness of C16 (as amended) at tick 4, whose mirror is tick 31. -/
theorem flashAlpha_fade_symmetry_witness :
    flashAlpha.getD 4 0 = flashAlpha.getD (35 - 4) 0 ∧ flashAlpha.getD 4 0 = 0x96 :=
  ⟨(flashAlpha_fade_symmetry 4 0 (by decide) (by decide)).1, by decide⟩

/-- C16 (counterexample to the claim as stated): at tick 0 the table holds
0x78 and at tick 16 - 0 it holds 0xF0, so the value at tick `t` is not the value
at tick 16 - t for every `t` from 0 to 16. -/
theorem flashAlpha_not_mirrored_at_16 :
    flashAlpha.getD 0 0 = 0x78 ∧ flashAlpha.getD (16 - 0) 0 = 0xF0 ∧
    ¬ (∀ t : Nat, t ≤ 16 → flashAlpha.getD t 0 = flashAlpha.getD (16 - t) 0) := by
  refine ⟨by decide, by decide, ?_⟩
  intro h
  have h0 := h 0 (by decide)
  revert h0
  decide

/-- The allocated capacity after `prepare`: changed by the buffer step only. -/
theorem prepare_allocQuads (w : World) (s : TilemapVXPrivate) :
    s.allocQuads ≤ (prepare w s).allocQuads := by
  cases hmd : s.mapData with
  | none => rw [prepare_none w s hmd]
  | some md =>
    have rb := fun t ht => rebuildBuffers_eq w t md ht
    by_cases ha : s.atlasDirty = true <;> by_cases hv : s.mapViewportDirty = true <;>
      simp [prepare, hmd, ha, hv, rebuildAtlas, call, updateMapViewport_eq] <;>
      split_ifs <;> simp [rb, hmd] <;> split_ifs <;> omega

/-- The allocated capacity after `rebuildBuffers`. -/
theorem rebuildBuffers_allocQuads (w : World) (s : TilemapVXPrivate) :
    s.allocQuads ≤ (rebuildBuffers w s).allocQuads ∧
    (s.mapData ≠ none → (rebuildBuffers w s).groundQuads + (rebuildBuffers w s).aboveQuads
      ≤ (rebuildBuffers w s).allocQuads) ∧
    (s.groundQuads + s.aboveQuads ≤ s.allocQuads →
      (rebuildBuffers w s).groundQuads + (rebuildBuffers w s).aboveQuads
        ≤ (rebuildBuffers w s).allocQuads) := by
  cases hmd : s.mapData with
  | none =>
    rw [rebuildBuffers_none w s hmd]
    simp [call]
  | some md =>
    rw [rebuildBuffers_eq w s md hmd]
    simp only []
    refine ⟨?_, fun _ => ?_, fun _ => ?_⟩ <;> split_ifs <;> omega

/-- A sequence of rebuilds, in worlds that may differ, never lowers the
allocated capacity. -/
theorem rebuilds_allocQuads (ws : List World) (s : TilemapVXPrivate) :
    s.allocQuads ≤ (ws.foldl (fun r v => rebuildBuffers v r) s).allocQuads := by
  induction ws generalizing s with
  | nil => exact Nat.le_refl _
  | cons v ws ih =>
    rw [List.foldl_cons]
    exact Nat.le_trans (rebuildBuffers_allocQuads v s).1 (ih _)

/-- When `rebuildBuffers` reallocates: exactly when map data is assigned and the
new total quad count exceeds the capacity; the capacity then becomes that
total. -/
theorem rebuildBuffers_realloc (w : World) (s : TilemapVXPrivate) :
    ((∃ bytes, Call.vboAllocEmpty bytes ∈ (rebuildBuffers w s).callsSince s) ↔
      (s.mapData ≠ none ∧
        s.allocQuads < (rebuildBuffers w s).groundQuads + (rebuildBuffers w s).aboveQuads)) ∧
    ((rebuildBuffers w s).allocQuads ≠ s.allocQuads ↔
      (s.mapData ≠ none ∧
        s.allocQuads < (rebuildBuffers w s).groundQuads + (rebuildBuffers w s).aboveQuads)) ∧
    ((rebuildBuffers w s).allocQuads ≠ s.allocQuads →
      (rebuildBuffers w s).allocQuads
        = (rebuildBuffers w s).groundQuads + (rebuildBuffers w s).aboveQuads ∧
      Call.vboAllocEmpty (quadBytes w (rebuildBuffers w s).allocQuads)
        ∈ (rebuildBuffers w s).callsSince s) := by
  cases hmd : s.mapData with
  | none =>
    rw [rebuildBuffers_none w s hmd]
    simp [call, callsSince]
  | some md =>
    rw [rebuildBuffers_eq w s md hmd]
    simp only [callsSince, List.append_assoc, List.drop_left]
    refine ⟨?_, ?_, ?_⟩ <;> split_ifs with h <;> simp [h]
    all_goals omega

/-- The draw calls of one frame: their counts and offsets come from the logical
quad counts, and no call depends on the allocated capacity. -/
theorem frame_uses_logical_counts (w : World) (s : TilemapVXPrivate) (a : Nat) :
    (frame w { s with allocQuads := a }).trace = (frame w s).trace ∧
    ∀ c o, Call.drawElements c o ∈ (frame w s).callsSince s →
      (c = s.groundQuads * 6 ∧ o = 0) ∨
      (c = s.aboveQuads * 6 ∧ o = s.groundQuads * 6 * w.sizeofIndex) := by
  constructor
  · simp [frame_eq, groundCalls, aboveCalls, flashLayerAlpha]
  · intro c o
    rw [frame_eq]
    simp only [callsSince, List.append_assoc, List.drop_left]
    unfold groundCalls aboveCalls
    split_ifs <;> simp <;> omega

/-- C17: `rebuildBuffers`, `prepare` and any sequence of rebuilds never lower the
allocated capacity `allocQuads`; after a `rebuildBuffers` with map data assigned,
and after any `rebuildBuffers` in a state where it held before (as it does after
construction), `allocQuads` is at least `groundQuads + aboveQuads`. The buffer is
reallocated exactly when map data is assigned and the new total quad count
strictly exceeds the capacity. The draw calls of a frame take their counts and
offsets from `groundQuads` and `aboveQuads` and are the same whatever
`allocQuads` is. -/
theorem allocQuads_only_grows (w : World) (ws : List World) (s : TilemapVXPrivate)
    (geo : Geometry) (a : Nat) :
    s.allocQuads ≤ (rebuildBuffers w s).allocQuads ∧
    s.allocQuads ≤ (prepare w s).allocQuads ∧
    s.allocQuads ≤ (ws.foldl (fun r v => rebuildBuffers v r) s).allocQuads ∧
    (s.mapData ≠ none → (rebuildBuffers w s).groundQuads + (rebuildBuffers w s).aboveQuads
      ≤ (rebuildBuffers w s).allocQuads) ∧
    (s.groundQuads + s.aboveQuads ≤ s.allocQuads →
      (rebuildBuffers w s).groundQuads + (rebuildBuffers w s).aboveQuads
        ≤ (rebuildBuffers w s).allocQuads) ∧
    (TilemapVXPrivate.new geo).groundQuads + (TilemapVXPrivate.new geo).aboveQuads
      ≤ (TilemapVXPrivate.new geo).allocQuads ∧
    ((∃ bytes, Call.vboAllocEmpty bytes ∈ (rebuildBuffers w s).callsSince s) ↔
      (s.mapData ≠ none ∧
        s.allocQuads < (rebuildBuffers w s).groundQuads + (rebuildBuffers w s).aboveQuads)) ∧
    ((rebuildBuffers w s).allocQuads ≠ s.allocQuads ↔
      (s.mapData ≠ none ∧
        s.allocQuads < (rebuildBuffers w s).groundQuads + (rebuildBuffers w s).aboveQuads)) ∧
    (frame w { s with allocQuads := a }).trace = (frame w s).trace ∧
    (∀ c o, Call.drawElements c o ∈ (frame w s).callsSince s →
      (c = s.groundQuads * 6 ∧ o = 0) ∨
      (c = s.aboveQuads * 6 ∧ o = s.groundQuads * 6 * w.sizeofIndex)) :=
  ⟨(rebuildBuffers_allocQuads w s).1, prepare_allocQuads w s, rebuilds_allocQuads ws s,
    (rebuildBuffers_allocQuads w s).2.1, (rebuildBuffers_allocQuads w s).2.2,
    Nat.le_refl _, (rebuildBuffers_realloc w s).1, (rebuildBuffers_realloc w s).2.1,
    (frame_uses_logical_counts w s a).1, (frame_uses_logical_counts w s a).2⟩

/-- The vertices a sequence of reader calls contributes to a stream come in
whole quads. -/
theorem streamOf_length_mod (over : Bool) (bs : List QuadBatch) :
    (streamOf over bs).length % 4 = 0 := by
  induction bs with
  | nil => simp [streamOf]
  | cons b bs ih =>
    unfold streamOf at *
    rw [List.filter_cons]
    split_ifs
    · rw [List.flatMap_cons, List.length_append, verts_length]
      omega
    · exact ih

/-- C18: every `onQuads` call with `n` quads appends exactly `4 * n` vertices to
exactly one stream, the above-player stream when `overPlayer` is set and the
ground stream otherwise, keeps what that stream held, and leaves the other
stream unchanged. After every `rebuildBuffers` with map data assigned the ground
stream has exactly `groundQuads * 4` vertices and the above-player stream exactly
`aboveQuads * 4`, both multiples of 4. -/
theorem vertex_stream_sizes (w : World) (s : TilemapVXPrivate) (t p : List FloatRect) (n : Nat)
    (md : TableRef) :
    ((onQuads s t p n true).aboveVert.length = s.aboveVert.length + 4 * n ∧
      s.aboveVert <+: (onQuads s t p n true).aboveVert ∧
      (onQuads s t p n true).groundVert = s.groundVert) ∧
    ((onQuads s t p n false).groundVert.length = s.groundVert.length + 4 * n ∧
      s.groundVert <+: (onQuads s t p n false).groundVert ∧
      (onQuads s t p n false).aboveVert = s.aboveVert) ∧
    (s.mapData = some md →
      (rebuildBuffers w s).groundVert.length = (rebuildBuffers w s).groundQuads * 4 ∧
      (rebuildBuffers w s).aboveVert.length = (rebuildBuffers w s).aboveQuads * 4 ∧
      (rebuildBuffers w s).groundVert.length % 4 = 0 ∧
      (rebuildBuffers w s).aboveVert.length % 4 = 0) := by
  refine ⟨?_, ?_, ?_⟩
  · rw [onQuads_eq]
    simp only [if_true, List.length_append, verts_length]
    exact ⟨by omega, List.prefix_append _ _, trivial⟩
  · rw [onQuads_eq]
    simp only [Bool.false_eq_true, if_false, List.length_append, verts_length]
    exact ⟨by omega, List.prefix_append _ _, trivial⟩
  · intro hmd
    rw [rebuildBuffers_eq w s md hmd]
    simp only []
    have hg := streamOf_length_mod false (s.batches w md)
    have ha := streamOf_length_mod true (s.batches w md)
    refine ⟨by omega, by omega, hg, ha⟩

/-- An integer rounds to itself. -/
theorem roundHalfEven_intCast (m : Int) : roundHalfEven (m : ℚ) = m := by
  unfold roundHalfEven
  simp

/-- Rounding moves a value by at most one half. -/
theorem roundHalfEven_near (t : ℚ) : |(roundHalfEven t : ℚ) - t| ≤ 1 / 2 := by
  have h1 := Int.floor_le t
  have h2 := Int.lt_floor_add_one t
  unfold roundHalfEven
  rw [abs_le]
  split_ifs <;> push_cast <;> constructor <;> linarith

/-- Rounding keeps a value between the integers it lies between. -/
theorem roundHalfEven_bounds (t : ℚ) (lo hi : Int) (h1 : (lo : ℚ) ≤ t) (h2 : t ≤ hi) :
    lo ≤ roundHalfEven t ∧ roundHalfEven t ≤ hi := by
  have hlo : lo ≤ ⌊t⌋ := Int.le_floor.mpr h1
  have hfl := Int.floor_le t
  have hhi : ⌊t⌋ ≤ hi := by exact_mod_cast hfl.trans h2
  have hup : (⌊t⌋ : ℚ) < t → ⌊t⌋ + 1 ≤ hi := by
    intro h
    have : (⌊t⌋ : ℚ) < hi := lt_of_lt_of_le h h2
    have : ⌊t⌋ < hi := by exact_mod_cast this
    omega
  unfold roundHalfEven
  split_ifs with a b c
  · exact ⟨hlo, hhi⟩
  · exact ⟨by omega, hup (by linarith)⟩
  · exact ⟨hlo, hhi⟩
  · refine ⟨by omega, hup ?_⟩
    push_neg at a
    linarith

/-- A value less than one half away from an integer rounds to it. -/
theorem roundHalfEven_eq_of_near (t : ℚ) (m : Int) (h : |t - m| < 1 / 2) :
    roundHalfEven t = m := by
  rw [abs_lt] at h
  by_cases hm : (m : ℚ) ≤ t
  · have hf : ⌊t⌋ = m := Int.floor_eq_iff.mpr ⟨hm, by linarith⟩
    unfold roundHalfEven
    rw [hf, if_pos (by linarith)]
  · push_neg at hm
    have hf : ⌊t⌋ = m - 1 := Int.floor_eq_iff.mpr ⟨by push_cast; linarith, by push_cast; linarith⟩
    unfold roundHalfEven
    rw [hf, if_neg (by push_cast; linarith), if_pos (by push_cast; linarith)]
    omega

/-- A power of two split at a natural exponent. -/
theorem two_zpow_split (e : Int) (k : Nat) : (2 : ℚ) ^ e = 2 ^ k * 2 ^ (e - k) := by
  rw [← zpow_natCast, ← zpow_add₀ (two_ne_zero)]
  congr 1
  omega

/-- The exponent of a value between two consecutive powers of two. -/
theorem f32Exponent_eq (x : ℚ) (e : Int) (he : -126 ≤ e) (h1 : (2 : ℚ) ^ e ≤ |x|)
    (h2 : |x| < 2 ^ (e + 1)) : f32Exponent x = e := by
  have hpos : 0 < |x| := lt_of_lt_of_le (zpow_pos (by norm_num) e) h1
  have hl1 : e ≤ Int.log 2 |x| := (Int.zpow_le_iff_le_log (by norm_num) hpos).mp (by simpa using h1)
  have hl2 : Int.log 2 |x| < e + 1 :=
    (Int.lt_zpow_iff_log_lt (by norm_num) hpos).mp (by simpa using h2)
  unfold f32Exponent
  omega

/-- The rounding of a value between two consecutive powers of two. -/
theorem f32Round_eq (x : ℚ) (e : Int) (he : -126 ≤ e) (h1 : (2 : ℚ) ^ e ≤ |x|)
    (h2 : |x| < 2 ^ (e + 1)) :
    f32Round x = roundHalfEven (x / 2 ^ (e - 23)) * 2 ^ (e - 23) := by
  unfold f32Round f32Ulp
  rw [f32Exponent_eq x e he h1 h2]

/-- Zero is a `float`. -/
theorem f32Round_zero : f32Round 0 = 0 := by
  unfold f32Round
  rw [zero_div]
  have := roundHalfEven_intCast 0
  simp only [Int.cast_zero] at this
  rw [this]
  simp

/-- A value with a significand of 24 bits and an exponent in the normal range is
a `float`: rounding leaves it as it is. -/
theorem f32Round_float (m e : Int) (he : -126 ≤ e) (hm1 : 2 ^ 23 ≤ m) (hm2 : m ≤ 2 ^ 24) :
    f32Round ((m : ℚ) * 2 ^ (e - 23)) = m * 2 ^ (e - 23) := by
  have hu : (0 : ℚ) < 2 ^ (e - 23) := zpow_pos (by norm_num) _
  have hmq1 : (2 : ℚ) ^ 23 ≤ m := by exact_mod_cast hm1
  have hmq2 : (m : ℚ) ≤ 2 ^ 24 := by exact_mod_cast hm2
  have hmpos : (0 : ℚ) < m := lt_of_lt_of_le (by norm_num) hmq1
  have habs : |(m : ℚ) * 2 ^ (e - 23)| = m * 2 ^ (e - 23) := abs_of_pos (mul_pos hmpos hu)
  have e0 : (2 : ℚ) ^ e = 2 ^ 23 * 2 ^ (e - 23) := by
    have := two_zpow_split e 23
    simpa using this
  have e1 : (2 : ℚ) ^ (e + 1) = 2 ^ 24 * 2 ^ (e - 23) := by
    have := two_zpow_split (e + 1) 24
    rw [this]
    congr 2
    push_cast
    ring
  by_cases hlt : m < 2 ^ 24
  · have hmq3 : (m : ℚ) < 2 ^ 24 := by exact_mod_cast hlt
    rw [f32Round_eq _ e he (by rw [habs, e0]; exact mul_le_mul_of_nonneg_right hmq1 hu.le)
      (by rw [habs, e1]; exact mul_lt_mul_of_pos_right hmq3 hu)]
    rw [mul_div_assoc, div_self hu.ne.symm, mul_one, roundHalfEven_intCast]
  · have hm : m = 2 ^ 24 := by omega
    subst hm
    have hx : (((2 ^ 24 : Int) : ℚ)) * 2 ^ (e - 23) = 2 ^ (e + 1) := by
      rw [e1]
      norm_num
    rw [hx]
    have hu1 : (0 : ℚ) < 2 ^ (e + 1 - 23) := zpow_pos (by norm_num) _
    have e2 : (2 : ℚ) ^ (e + 1) = 2 ^ 23 * 2 ^ (e + 1 - 23) := by
      have := two_zpow_split (e + 1) 23
      simpa using this
    have hp : (0 : ℚ) < 2 ^ (e + 1) := zpow_pos (by norm_num) _
    rw [f32Round_eq _ (e + 1) (by omega) (by rw [abs_of_pos hp])
      (by rw [abs_of_pos hp]; exact zpow_lt_zpow_right₀ (by norm_num) (by omega))]
    nth_rewrite 1 [e2]
    rw [mul_div_assoc, div_self hu1.ne.symm, mul_one]
    have c1 : (2 : ℚ) ^ 23 = ((2 ^ 23 : Int) : ℚ) := by norm_num
    rw [c1, roundHalfEven_intCast, ← c1]
    exact e2.symm

/-- The rounding of a positive value in the normal range: a significand of 24
bits at the exponent of the value, at most half a unit in the last place away. -/
theorem f32Round_spec (x : ℚ) (e : Int) (he : -126 ≤ e) (h1 : (2 : ℚ) ^ e ≤ x)
    (h2 : x < 2 ^ (e + 1)) :
    ∃ m : Int, 2 ^ 23 ≤ m ∧ m ≤ 2 ^ 24 ∧ f32Round x = m * 2 ^ (e - 23) ∧
      |f32Round x - x| ≤ 2 ^ (e - 24) := by
  have hu : (0 : ℚ) < 2 ^ (e - 23) := zpow_pos (by norm_num) _
  have hx : 0 < x := lt_of_lt_of_le (zpow_pos (by norm_num) e) h1
  have e0 : (2 : ℚ) ^ e = 2 ^ 23 * 2 ^ (e - 23) := by
    have := two_zpow_split e 23
    simpa using this
  have e1 : (2 : ℚ) ^ (e + 1) = 2 ^ 24 * 2 ^ (e - 23) := by
    have := two_zpow_split (e + 1) 24
    rw [this]
    congr 2
    push_cast
    ring
  have e3 : (2 : ℚ) ^ (e - 23) = 2 * 2 ^ (e - 24) := by
    have := two_zpow_split (e - 23) 1
    rw [this]
    congr 2
    push_cast
    ring
  have hr := f32Round_eq x e he (by rw [abs_of_pos hx]; exact h1) (by rw [abs_of_pos hx]; exact h2)
  have c1 : ((2 ^ 23 : Int) : ℚ) = 2 ^ 23 := by norm_num
  have c2 : ((2 ^ 24 : Int) : ℚ) = 2 ^ 24 := by norm_num
  have hb := roundHalfEven_bounds (x / 2 ^ (e - 23)) (2 ^ 23) (2 ^ 24)
    (by rw [c1, le_div_iff₀ hu, ← e0]; exact h1)
    (by rw [c2, div_le_iff₀ hu, ← e1]; exact h2.le)
  refine ⟨roundHalfEven (x / 2 ^ (e - 23)), hb.1, hb.2, hr, ?_⟩
  rw [hr]
  have hn := roundHalfEven_near (x / 2 ^ (e - 23))
  have : (roundHalfEven (x / 2 ^ (e - 23)) : ℚ) * 2 ^ (e - 23) - x
      = ((roundHalfEven (x / 2 ^ (e - 23)) : ℚ) - x / 2 ^ (e - 23)) * 2 ^ (e - 23) := by
    field_simp
  rw [this, abs_mul, abs_of_pos hu]
  have h4 : (1 : ℚ) / 2 * 2 ^ (e - 23) = 2 ^ (e - 24) := by
    rw [e3]
    ring
  rw [← h4]
  exact mul_le_mul_of_nonneg_right hn hu.le

/-- Halving a rounded value of the normal range is exact: the quotient by 2 of a
`float` with exponent above -126 is a `float`. -/
theorem fdiv_two (x : ℚ) (e : Int) (he : -125 ≤ e) (h1 : (2 : ℚ) ^ e ≤ x)
    (h2 : x < 2 ^ (e + 1)) : fdiv (f32Round x) 2 = f32Round x / 2 := by
  obtain ⟨m, hm1, hm2, hr, _⟩ := f32Round_spec x e (by omega) h1 h2
  have e3 : (2 : ℚ) ^ (e - 23) = 2 * 2 ^ (e - 1 - 23) := by
    have := two_zpow_split (e - 23) 1
    rw [this]
    congr 2
    push_cast
    ring
  have hh : f32Round x / 2 = m * 2 ^ (e - 1 - 23) := by
    rw [hr, e3]
    ring
  unfold fdiv
  rw [hh]
  exact f32Round_float m (e - 1) (by omega) hm1 hm2

/-- The quotient by `255.f` of a byte value and its half, as `drawFlashLayer`
computes them: the second division is exact, and the first delivers the real
quotient to within 2^-25. -/
theorem fdiv_byte (a : Nat) (h : a ≤ 255) :
    fdiv (fdiv a 255) 2 = fdiv a 255 / 2 ∧ |fdiv a 255 - (a : ℚ) / 255| ≤ 1 / 2 ^ 25 := by
  rcases Nat.eq_zero_or_pos a with h0 | hpos
  · subst h0
    have hz : fdiv ((0 : Nat) : ℚ) 255 = 0 := by
      unfold fdiv
      rw [Nat.cast_zero, zero_div, f32Round_zero]
    rw [hz]
    constructor
    · unfold fdiv
      rw [zero_div, f32Round_zero]
    · norm_num
  · have hx0 : (0 : ℚ) < (a : ℚ) / 255 := by positivity
    have hx1 : (a : ℚ) / 255 ≤ 1 := by
      rw [div_le_one (by norm_num)]
      exact_mod_cast h
    have hlo : (2 : ℚ) ^ (-8 : Int) ≤ (a : ℚ) / 255 := by
      have ha : (1 : ℚ) ≤ a := by exact_mod_cast hpos
      rw [le_div_iff₀ (by norm_num)]
      norm_num
      linarith
    have hl1 : (2 : ℚ) ^ Int.log 2 ((a : ℚ) / 255) ≤ (a : ℚ) / 255 := by
      have := Int.zpow_log_le_self (b := 2) (r := (a : ℚ) / 255) (by norm_num) hx0
      simpa using this
    have hl2 : (a : ℚ) / 255 < (2 : ℚ) ^ (Int.log 2 ((a : ℚ) / 255) + 1) := by
      have := Int.lt_zpow_succ_log_self (b := 2) (by norm_num) ((a : ℚ) / 255)
      simpa using this
    have he1 : -8 ≤ Int.log 2 ((a : ℚ) / 255) :=
      (Int.zpow_le_iff_le_log (by norm_num) hx0).mp (by simpa using hlo)
    have he2 : Int.log 2 ((a : ℚ) / 255) < 1 :=
      (Int.lt_zpow_iff_log_lt (by norm_num) hx0).mp (by norm_num; linarith)
    refine ⟨fdiv_two _ _ (by omega) hl1 hl2, ?_⟩
    by_cases h255 : a = 255
    · subst h255
      have h1 : ((255 : Nat) : ℚ) / 255 = ((2 ^ 23 : Int) : ℚ) * 2 ^ ((0 : Int) - 23) := by
        norm_num
      unfold fdiv
      rw [h1, f32Round_float (2 ^ 23) 0 (by norm_num) (by norm_num) (by norm_num)]
      norm_num
    · have hlt : (a : ℚ) / 255 < 1 := by
        rw [div_lt_one (by norm_num)]
        have : a < 255 := by omega
        exact_mod_cast this
      have he3 : Int.log 2 ((a : ℚ) / 255) < 0 :=
        (Int.lt_zpow_iff_log_lt (by norm_num) hx0).mp (by norm_num; linarith)
      obtain ⟨m, _, _, _, hb⟩ := f32Round_spec _ _ (by omega) hl1 hl2
      refine le_trans hb ?_
      have : (2 : ℚ) ^ (Int.log 2 ((a : ℚ) / 255) - 24) ≤ 2 ^ (-25 : Int) :=
        zpow_le_zpow_right₀ (by norm_num) (by omega)
      refine le_trans this ?_
      norm_num

/-- The alpha of the first pulse step, byte 0x78: the `float` quotient
`120 / 255.f` is 15790321 / 2^25 and its half 15790321 / 2^26. -/
theorem fdiv_first_pulse :
    fdiv 120 255 = 15790321 / 33554432 ∧ fdiv (fdiv 120 255) 2 = 15790321 / 67108864 := by
  have h1 : fdiv 120 255 = 15790321 / 33554432 := by
    unfold fdiv
    rw [f32Round_eq _ (-2) (by norm_num) (by rw [abs_of_pos (by norm_num)]; norm_num)
      (by rw [abs_of_pos (by norm_num)]; norm_num)]
    rw [roundHalfEven_eq_of_near _ 15790321 (by rw [abs_lt]; norm_num)]
    norm_num
  have h2 := (fdiv_byte 120 (by norm_num)).1
  refine ⟨h1, ?_⟩
  have h3 : ((120 : Nat) : ℚ) = 120 := by norm_num
  rw [h3] at h2
  rw [h2, h1]
  norm_num

/-- Every entry of `flashAlpha`, and the 0 the model reads outside the table, is
a byte. -/
theorem flashAlpha_byte (i : Nat) : flashAlpha.getD i 0 ≤ 255 := by
  have h : ∀ x ∈ flashAlpha, x ≤ 255 := by decide
  rw [List.getD_eq_getElem?_getD]
  cases hi : flashAlpha[i]? with
  | none => simp
  | some x =>
    obtain ⟨hlt, hget⟩ := List.getElem?_eq_some_iff.mp hi
    simpa using h x (hget ▸ List.getElem_mem hlt)

/-- The alpha of the flash overlay at the first pulse step, where the renderer
starts: 15790321 / 2^26, the `float` nearest to 120 / 255 halved. -/
theorem flashLayerAlpha_first (s : TilemapVXPrivate) (h : s.flashAlphaIdx = 0) :
    s.flashLayerAlpha = 15790321 / 67108864 := by
  unfold flashLayerAlpha
  rw [h]
  have h3 : ((flashAlpha.getD 0 0 : Nat) : ℚ) = 120 := by
    have : flashAlpha.getD 0 0 = 120 := by decide
    rw [this]
    norm_num
  rw [h3]
  exact fdiv_first_pulse.2

/-- C19: within one frame the ground element draws the ground layer and then
the flash overlay, and the above-player element, at scene z 200, draws the
above-player layer and then the flash overlay. The flash overlay is drawn
exactly twice, both times at the same display position with the same alpha, the
`float` that `(flashAlpha[flashAlphaIdx] / 255.f) / 2` evaluates to. The halving
is exact: the alpha is half of the `float` quotient
`flashAlpha[flashAlphaIdx] / 255.f`, so the two alphas add up to that quotient,
which is `flashAlpha[flashAlphaIdx] / 255` rounded to the nearest `float`, no
more than 2^-25 away from it. -/
theorem frame_draw_order (w : World) (s : TilemapVXPrivate) :
    (draw w s).callsSince s = s.groundCalls w ++ [Call.flashDraw s.flashLayerAlpha s.dispPos] ∧
    (AboveLayer.draw w s).callsSince s
      = s.aboveCalls w ++ [Call.flashDraw s.flashLayerAlpha s.dispPos] ∧
    (frame w s).callsSince s
      = (draw w s).callsSince s ++ (AboveLayer.draw w s).callsSince s ∧
    (drawGround w s).callsSince s = s.groundCalls w ∧
    (drawAbove w s).callsSince s = s.aboveCalls w ∧
    (∀ α d, Call.flashDraw α d ∉ s.groundCalls w ∧ Call.flashDraw α d ∉ s.aboveCalls w) ∧
    ((frame w s).callsSince s).count (Call.flashDraw s.flashLayerAlpha s.dispPos) = 2 ∧
    (∀ α d, Call.flashDraw α d ∈ (frame w s).callsSince s →
      α = s.flashLayerAlpha ∧ d = s.dispPos) ∧
    s.flashLayerAlpha = fdiv (fdiv (flashAlpha.getD s.flashAlphaIdx 0 : ℚ) 255) 2 ∧
    s.flashLayerAlpha = fdiv (flashAlpha.getD s.flashAlphaIdx 0 : ℚ) 255 / 2 ∧
    s.flashLayerAlpha + s.flashLayerAlpha = fdiv (flashAlpha.getD s.flashAlphaIdx 0 : ℚ) 255 ∧
    fdiv (flashAlpha.getD s.flashAlphaIdx 0 : ℚ) 255
      = f32Round ((flashAlpha.getD s.flashAlphaIdx 0 : ℚ) / 255) ∧
    |s.flashLayerAlpha + s.flashLayerAlpha - (flashAlpha.getD s.flashAlphaIdx 0 : ℚ) / 255|
      ≤ 1 / 2 ^ 25 ∧
    AboveLayer.z = 200 := by
  have hno : ∀ α d, Call.flashDraw α d ∉ s.groundCalls w ∧ Call.flashDraw α d ∉ s.aboveCalls w := by
    intro α d
    unfold groundCalls aboveCalls
    constructor <;> split_ifs <;> simp
  have hd : (draw w s).callsSince s
      = s.groundCalls w ++ [Call.flashDraw s.flashLayerAlpha s.dispPos] := by
    simp [draw, drawFlashLayer, call, drawGround_eq, callsSince, flashLayerAlpha]
  have ha : (AboveLayer.draw w s).callsSince s
      = s.aboveCalls w ++ [Call.flashDraw s.flashLayerAlpha s.dispPos] := by
    simp [AboveLayer.draw, drawFlashLayer, call, drawAbove_eq, callsSince, flashLayerAlpha]
  have hf : (frame w s).callsSince s = s.groundCalls w
      ++ [Call.flashDraw s.flashLayerAlpha s.dispPos] ++ s.aboveCalls w
      ++ [Call.flashDraw s.flashLayerAlpha s.dispPos] := by
    rw [frame_eq]
    simp [callsSince]
  have hb := fdiv_byte (flashAlpha.getD s.flashAlphaIdx 0) (flashAlpha_byte s.flashAlphaIdx)
  have hhalf : s.flashLayerAlpha = fdiv (flashAlpha.getD s.flashAlphaIdx 0 : ℚ) 255 / 2 := hb.1
  have hsum : s.flashLayerAlpha + s.flashLayerAlpha
      = fdiv (flashAlpha.getD s.flashAlphaIdx 0 : ℚ) 255 := by
    rw [hhalf]
    ring
  refine ⟨hd, ha, ?_, ?_, ?_, hno, ?_, ?_, rfl, hhalf, hsum, rfl, ?_, rfl⟩
  · rw [hf, hd, ha]
    simp
  · simp [drawGround_eq, callsSince]
  · simp [drawAbove_eq, callsSince]
  · rw [hf]
    have h1 := (hno s.flashLayerAlpha s.dispPos).1
    have h2 := (hno s.flashLayerAlpha s.dispPos).2
    simp [List.count_append, List.count_eq_zero_of_not_mem h1, List.count_eq_zero_of_not_mem h2]
  · intro α d hm
    rw [hf] at hm
    have h1 := (hno α d).1
    have h2 := (hno α d).2
    simp [h1, h2] at hm
    exact hm
  · rw [hsum]
    exact hb.2

/-- C20 (as amended): on a renderer whose resources have been released,
`update`, `getBitmapArray`, and the getters and setters of map data, flags,
flash data, OX, OY, viewport and visible all fail at the disposed guard, without
reading or changing anything. The bitmap slot proxy has no such guard: through
it `set` returns normally having done nothing, and `get` returns the null
bitmap. -/
theorem released_renderer_operations (tm : TilemapVX) (i x : Int) (b : Option BitmapRef)
    (v : Option TableRef) (vp : Option Nat) (vis : Bool) :
    (TilemapVX.releaseResources tm).p = none ∧
    TilemapVX.update (TilemapVX.releaseResources tm) = Except.error Error.disposed ∧
    TilemapVX.getBitmapArray (TilemapVX.releaseResources tm) = Except.error Error.disposed ∧
    TilemapVX.getMapData (TilemapVX.releaseResources tm) = Except.error Error.disposed ∧
    TilemapVX.getFlashData (TilemapVX.releaseResources tm) = Except.error Error.disposed ∧
    TilemapVX.getFlags (TilemapVX.releaseResources tm) = Except.error Error.disposed ∧
    TilemapVX.getOX (TilemapVX.releaseResources tm) = Except.error Error.disposed ∧
    TilemapVX.getOY (TilemapVX.releaseResources tm) = Except.error Error.disposed ∧
    TilemapVX.getViewport (TilemapVX.releaseResources tm) = Except.error Error.disposed ∧
    TilemapVX.getVisible (TilemapVX.releaseResources tm) = Except.error Error.disposed ∧
    TilemapVX.setViewport (TilemapVX.releaseResources tm) vp = Except.error Error.disposed ∧
    TilemapVX.setMapData (TilemapVX.releaseResources tm) v = Except.error Error.disposed ∧
    TilemapVX.setFlashData (TilemapVX.releaseResources tm) v = Except.error Error.disposed ∧
    TilemapVX.setFlags (TilemapVX.releaseResources tm) v = Except.error Error.disposed ∧
    TilemapVX.setVisible (TilemapVX.releaseResources tm) vis = Except.error Error.disposed ∧
    TilemapVX.setOX (TilemapVX.releaseResources tm) x = Except.error Error.disposed ∧
    TilemapVX.setOY (TilemapVX.releaseResources tm) x = Except.error Error.disposed ∧
    TilemapVX.BitmapArray.set (TilemapVX.releaseResources tm) i b
      = Except.ok (TilemapVX.releaseResources tm) ∧
    TilemapVX.BitmapArray.get (TilemapVX.releaseResources tm) i = none :=
  ⟨rfl, rfl, rfl, rfl, rfl, rfl, rfl, rfl, rfl, rfl, rfl, rfl, rfl, rfl, rfl, rfl, rfl, rfl, rfl⟩

/-- C20 (counterexample to the claim as stated): after the resources of the
renderer `withBitmap` have been released, `BitmapArray::set(0, bitmap 7)` through
the slot proxy does not fail: it returns normally and leaves the released
renderer as it is, and `BitmapArray::get(0)` returns the null bitmap. -/
theorem released_proxy_set_succeeds :
    (TilemapVX.releaseResources { p := some withBitmap }).p = none ∧
    TilemapVX.BitmapArray.set (TilemapVX.releaseResources { p := some withBitmap }) 0 (some 7)
      = Except.ok (TilemapVX.releaseResources { p := some withBitmap }) ∧
    TilemapVX.BitmapArray.set (TilemapVX.releaseResources { p := some withBitmap }) 0 (some 7)
      ≠ Except.error Error.disposed ∧
    TilemapVX.BitmapArray.get (TilemapVX.releaseResources { p := some withBitmap }) 0 = none := by
  refine ⟨rfl, rfl, ?_, rfl⟩
  intro h
  cases h

/-- The calls of `rebuildBuffers` with map data assigned, split at the uploads. -/
theorem rebuildBuffers_calls (w : World) (s : TilemapVXPrivate) (md : TableRef)
    (h : s.mapData = some md) :
    (rebuildBuffers w s).callsSince s =
      s.callsBeforeUpload w md ++
      [Call.vboUploadSubData 0 (quadBytes w (rebuildBuffers w s).groundQuads)
          (rebuildBuffers w s).groundVert,
        Call.vboUploadSubData (quadBytes w (rebuildBuffers w s).groundQuads)
          (quadBytes w (rebuildBuffers w s).aboveQuads) (rebuildBuffers w s).aboveVert,
        Call.vboUnbind,
        Call.ensureQuadIBO
          ((rebuildBuffers w s).groundQuads + (rebuildBuffers w s).aboveQuads)] := by
  unfold callsBeforeUpload
  rw [rebuildBuffers_eq w s md h]
  simp [callsSince]

/-- After a `rebuildBuffers` with map data assigned each stream holds four
vertices for each of its quads. -/
theorem rebuildBuffers_stream_lengths (w : World) (s : TilemapVXPrivate) (md : TableRef)
    (h : s.mapData = some md) :
    (rebuildBuffers w s).groundVert.length = (rebuildBuffers w s).groundQuads * 4 ∧
    (rebuildBuffers w s).aboveVert.length = (rebuildBuffers w s).aboveQuads * 4 := by
  rw [rebuildBuffers_eq w s md h]
  simp only []
  have hg := streamOf_length_mod false (s.batches w md)
  have ha := streamOf_length_mod true (s.batches w md)
  exact ⟨by omega, by omega⟩

/-- The capacity the buffer has when `rebuildBuffers` uploads. -/
theorem callsBeforeUpload_capacity (w : World) (s : TilemapVXPrivate) (md : TableRef)
    (h : s.mapData = some md) :
    vboCapacity (quadBytes w s.allocQuads) (s.callsBeforeUpload w md)
      = quadBytes w (rebuildBuffers w s).allocQuads := by
  unfold callsBeforeUpload
  rw [rebuildBuffers_eq w s md h]
  simp only []
  split_ifs <;> simp [vboCapacity]

/-- C21: every `rebuildBuffers` with map data assigned makes exactly two
uploads, after any reallocation: the ground stream at byte range
[0, quadBytes(groundQuads)) and the above-player stream at
[quadBytes(groundQuads), quadBytes(groundQuads) + quadBytes(aboveQuads)). Each
range has the size in bytes of the stream uploaded, the second starts where the
first ends, no byte lies in both, and both end within quadBytes(allocQuads),
which is the capacity of the buffer at the time of the uploads whenever
quadBytes(allocQuads) was its capacity before the call (as after construction,
where both are 0). With no map data assigned nothing is uploaded. -/
theorem rebuildBuffers_upload_ranges (w : World) (s : TilemapVXPrivate) (geo : Geometry) :
    (s.mapData = none → uploadRanges ((rebuildBuffers w s).callsSince s) = []) ∧
    (∀ md, s.mapData = some md →
      (rebuildBuffers w s).callsSince s =
        s.callsBeforeUpload w md ++
        [Call.vboUploadSubData 0 (quadBytes w (rebuildBuffers w s).groundQuads)
            (rebuildBuffers w s).groundVert,
          Call.vboUploadSubData (quadBytes w (rebuildBuffers w s).groundQuads)
            (quadBytes w (rebuildBuffers w s).aboveQuads) (rebuildBuffers w s).aboveVert,
          Call.vboUnbind,
          Call.ensureQuadIBO
            ((rebuildBuffers w s).groundQuads + (rebuildBuffers w s).aboveQuads)] ∧
      uploadRanges ((rebuildBuffers w s).callsSince s) =
        [(0, quadBytes w (rebuildBuffers w s).groundQuads),
          (quadBytes w (rebuildBuffers w s).groundQuads,
            quadBytes w (rebuildBuffers w s).aboveQuads)] ∧
      (rebuildBuffers w s).groundVert.length * w.sizeofSVertex
        = quadBytes w (rebuildBuffers w s).groundQuads ∧
      (rebuildBuffers w s).aboveVert.length * w.sizeofSVertex
        = quadBytes w (rebuildBuffers w s).aboveQuads ∧
      vboCapacity (quadBytes w s.allocQuads) (s.callsBeforeUpload w md)
        = quadBytes w (rebuildBuffers w s).allocQuads ∧
      vboCapacity (quadBytes w s.allocQuads) ((rebuildBuffers w s).callsSince s)
        = quadBytes w (rebuildBuffers w s).allocQuads) ∧
    (s.mapData ≠ none →
      0 + quadBytes w (rebuildBuffers w s).groundQuads
        ≤ quadBytes w (rebuildBuffers w s).allocQuads ∧
      quadBytes w (rebuildBuffers w s).groundQuads + quadBytes w (rebuildBuffers w s).aboveQuads
        ≤ quadBytes w (rebuildBuffers w s).allocQuads) ∧
    (∀ b : Nat,
      ¬ ((0 ≤ b ∧ b < 0 + quadBytes w (rebuildBuffers w s).groundQuads) ∧
        (quadBytes w (rebuildBuffers w s).groundQuads ≤ b ∧
          b < quadBytes w (rebuildBuffers w s).groundQuads
            + quadBytes w (rebuildBuffers w s).aboveQuads))) ∧
    vboCapacity 0 (TilemapVXPrivate.new geo).trace
      = quadBytes w (TilemapVXPrivate.new geo).allocQuads := by
  have hcap : ∀ md, s.mapData = some md →
      (rebuildBuffers w s).groundQuads + (rebuildBuffers w s).aboveQuads
        ≤ (rebuildBuffers w s).allocQuads := fun md hmd =>
    (rebuildBuffers_allocQuads w s).2.1 (by rw [hmd]; exact Option.some_ne_none md)
  refine ⟨?_, ?_, ?_, ?_, ?_⟩
  · intro hmd
    rw [rebuildBuffers_none w s hmd]
    simp [call, callsSince, uploadRanges]
  · intro md hmd
    have hc := rebuildBuffers_calls w s md hmd
    have hv := rebuildBuffers_stream_lengths w s md hmd
    refine ⟨hc, ?_, ?_, ?_, callsBeforeUpload_capacity w s md hmd, ?_⟩
    · rw [hc]
      unfold callsBeforeUpload
      split_ifs <;> simp [uploadRanges]
    · rw [hv.1]
      rfl
    · rw [hv.2]
      rfl
    · rw [hc]
      unfold vboCapacity
      rw [List.foldl_append]
      exact callsBeforeUpload_capacity w s md hmd
  · intro hmd
    cases hs : s.mapData with
    | none => exact absurd hs hmd
    | some md =>
      have h := hcap md hs
      have hm : quadBytes w (rebuildBuffers w s).groundQuads
          + quadBytes w (rebuildBuffers w s).aboveQuads
          = quadBytes w ((rebuildBuffers w s).groundQuads + (rebuildBuffers w s).aboveQuads) := by
        unfold quadBytes
        ring
      have hle : quadBytes w ((rebuildBuffers w s).groundQuads + (rebuildBuffers w s).aboveQuads)
          ≤ quadBytes w (rebuildBuffers w s).allocQuads := by
        unfold quadBytes
        exact Nat.mul_le_mul_right _ (Nat.mul_le_mul_right _ h)
      omega
  · intro b
    omega
  · simp [TilemapVXPrivate.new, onGeometryChange, vboCapacity, quadBytes]

/-- The vertex buffer after a `rebuildBuffers` with map data assigned: the
ground stream from vertex 0, the above-player stream right after it. -/
theorem vboContents_rebuild (w : World) (s : TilemapVXPrivate) (md : TableRef)
    (h : s.mapData = some md) (hs : 0 < w.sizeofSVertex) (v : Nat) :
    (v < (rebuildBuffers w s).groundQuads * 4 →
      vboContents w ((rebuildBuffers w s).callsSince s) v = (rebuildBuffers w s).groundVert[v]?) ∧
    ((rebuildBuffers w s).groundQuads * 4 ≤ v →
      v < (rebuildBuffers w s).groundQuads * 4 + (rebuildBuffers w s).aboveQuads * 4 →
      vboContents w ((rebuildBuffers w s).callsSince s) v
        = (rebuildBuffers w s).aboveVert[v - (rebuildBuffers w s).groundQuads * 4]?) := by
  rw [rebuildBuffers_calls w s md h]
  have d : ∀ q : Nat, quadBytes w q / w.sizeofSVertex = q * 4 := fun q => by
    unfold quadBytes
    exact Nat.mul_div_cancel _ hs
  unfold vboContents
  rw [List.foldl_append]
  simp only [List.foldl_cons, List.foldl_nil, d, Nat.zero_div]
  constructor
  · intro hv
    have h2 : ¬ ((rebuildBuffers w s).groundQuads * 4 ≤ v ∧
        v < (rebuildBuffers w s).groundQuads * 4 + (rebuildBuffers w s).aboveQuads * 4) := by
      omega
    have h1 : 0 ≤ v ∧ v < 0 + (rebuildBuffers w s).groundQuads * 4 := by omega
    rw [if_neg h2, if_pos h1]
    rfl
  · intro h1 h2
    rw [if_pos ⟨h1, h2⟩]

/-- The index the shared index buffer holds for corner position `j` of quad `k`. -/
theorem quadIndex_quad (k j : Nat) (hj : j < 6) :
    quadIndex (6 * k + j) = 4 * k + quadIndexPattern.getD j 0 ∧
    quadIndexPattern.getD j 0 < 4 := by
  unfold quadIndex
  have h1 : (6 * k + j) / 6 = k := by omega
  have h2 : (6 * k + j) % 6 = j := by omega
  rw [h1, h2]
  refine ⟨by omega, ?_⟩
  interval_cases j <;> decide

/-- C22: after a `rebuildBuffers` with map data assigned, `drawGround` issues a
draw call only when `groundQuads` is non-zero, for index positions
[0, 6*groundQuads), and `drawAbove` only when `aboveQuads` is non-zero, for index
positions [6*groundQuads, 6*(groundQuads+aboveQuads)); the rebuild requested
exactly `groundQuads + aboveQuads` quads from the shared index buffer, so both
ranges lie within its 6*(groundQuads+aboveQuads) indices. With the standard quad
index pattern, position `j` of quad `k` of the above-player draw call reads
vertex `4*(groundQuads+k) + pattern[j]` of the vertex buffer, which is vertex
`4*k + pattern[j]` of the above-player stream as uploaded; and likewise quad `k`
of the ground draw call reads the vertices of quad `k` of the ground stream. -/
theorem draw_index_ranges (w : World) (s r : TilemapVXPrivate) (md : TableRef)
    (h : s.mapData = some md) (hs : 0 < w.sizeofSVertex) (hi : 0 < w.sizeofIndex)
    (hr : r = rebuildBuffers w s) :
    drawRanges ((drawGround w r).callsSince r)
      = (if r.groundQuads = 0 then [] else [(r.groundQuads * 6, 0)]) ∧
    drawRanges ((drawAbove w r).callsSince r)
      = (if r.aboveQuads = 0 then []
         else [(r.aboveQuads * 6, r.groundQuads * 6 * w.sizeofIndex)]) ∧
    indexRange w (r.groundQuads * 6, 0) = (0, 6 * r.groundQuads) ∧
    indexRange w (r.aboveQuads * 6, r.groundQuads * 6 * w.sizeofIndex)
      = (6 * r.groundQuads, 6 * (r.groundQuads + r.aboveQuads)) ∧
    Call.ensureQuadIBO (r.groundQuads + r.aboveQuads) ∈ r.callsSince s ∧
    (∀ q, Call.ensureQuadIBO q ∈ r.callsSince s → q = r.groundQuads + r.aboveQuads) ∧
    6 * r.groundQuads ≤ 6 * (r.groundQuads + r.aboveQuads) ∧
    (∀ k j, k < r.aboveQuads → j < 6 →
      6 * r.groundQuads ≤ 6 * (r.groundQuads + k) + j ∧
      6 * (r.groundQuads + k) + j < 6 * (r.groundQuads + r.aboveQuads) ∧
      quadIndex (6 * (r.groundQuads + k) + j)
        = 4 * (r.groundQuads + k) + quadIndexPattern.getD j 0 ∧
      quadIndexPattern.getD j 0 < 4 ∧
      4 * k + quadIndexPattern.getD j 0 < r.aboveVert.length ∧
      vboContents w (r.callsSince s) (quadIndex (6 * (r.groundQuads + k) + j))
        = r.aboveVert[4 * k + quadIndexPattern.getD j 0]?) ∧
    (∀ k c, k < r.aboveQuads → c < 4 →
      vboContents w (r.callsSince s) (4 * (r.groundQuads + k) + c) = r.aboveVert[4 * k + c]?) ∧
    (∀ k j, k < r.groundQuads → j < 6 →
      6 * k + j < 6 * r.groundQuads ∧
      quadIndex (6 * k + j) = 4 * k + quadIndexPattern.getD j 0 ∧
      4 * k + quadIndexPattern.getD j 0 < r.groundVert.length ∧
      vboContents w (r.callsSince s) (quadIndex (6 * k + j))
        = r.groundVert[4 * k + quadIndexPattern.getD j 0]?) := by
  subst hr
  have hc := rebuildBuffers_calls w s md h
  have hl := rebuildBuffers_stream_lengths w s md h
  have hab : ∀ k c, k < (rebuildBuffers w s).aboveQuads → c < 4 →
      vboContents w ((rebuildBuffers w s).callsSince s)
        (4 * ((rebuildBuffers w s).groundQuads + k) + c)
        = (rebuildBuffers w s).aboveVert[4 * k + c]? := by
    intro k c hk hc4
    rw [(vboContents_rebuild w s md h hs _).2 (by omega) (by omega)]
    congr 1
    omega
  refine ⟨?_, ?_, ?_, ?_, ?_, ?_, by omega, ?_, hab, ?_⟩
  · rw [drawGround_eq]
    unfold groundCalls
    simp only [callsSince, List.drop_left]
    split_ifs <;> simp [drawRanges]
  · rw [drawAbove_eq]
    unfold aboveCalls
    simp only [callsSince, List.drop_left]
    split_ifs <;> simp [drawRanges]
  · simp [indexRange, Nat.mul_comm]
  · unfold indexRange
    simp only [Nat.mul_div_cancel _ hi]
    refine Prod.ext (by simp only []; omega) (by simp only []; omega)
  · rw [hc]
    simp
  · intro q hq
    rw [hc] at hq
    unfold callsBeforeUpload at hq
    split_ifs at hq <;> simp at hq <;> exact hq
  · intro k j hk hj
    have hq := quadIndex_quad ((rebuildBuffers w s).groundQuads + k) j hj
    refine ⟨by omega, by omega, hq.1, hq.2, by omega, ?_⟩
    rw [hq.1]
    exact hab k _ hk hq.2
  · intro k j hk hj
    have hq := quadIndex_quad k j hj
    refine ⟨by omega, hq.1, by omega, ?_⟩
    rw [hq.1]
    exact (vboContents_rebuild w s md h hs _).1 (by omega)

/-- Witness of C22: the pending rebuild of the 10 by 10 map filled with tile
code 1, in a world with 16-byte vertices and 4-byte indices. -/
theorem draw_index_ranges_witness :
    rebuildPending.mapData = some 1 ∧ 0 < filledWorld.sizeofSVertex ∧
    0 < filledWorld.sizeofIndex ∧
    drawRanges ((drawGround filledWorld (rebuildBuffers filledWorld rebuildPending)).callsSince
        (rebuildBuffers filledWorld rebuildPending))
      = (if (rebuildBuffers filledWorld rebuildPending).groundQuads = 0 then []
         else [((rebuildBuffers filledWorld rebuildPending).groundQuads * 6, 0)]) :=
  ⟨rfl, by decide, by decide,
    (draw_index_ranges filledWorld rebuildPending (rebuildBuffers filledWorld rebuildPending) 1
      rfl (by decide) (by decide) rfl).1⟩

/-- C23: when it draws (`groundQuads` non-zero), `drawGround` binds the
tile-animation-aware shader and passes it the current animation offset exactly
when the bitmap in slot A1 is neither null nor disposed, and binds the plain
shader, setting no animation offset, otherwise. `drawAbove`, when it draws,
always binds the plain shader and never sets an animation offset. Every
`setTexSize` of either layer passes the atlas size and every `setTranslation`
the display position, also for the above-player layer drawn after the ground
element within a frame. -/
theorem ground_shader_selection (w : World) (s : TilemapVXPrivate) :
    (s.groundQuads ≠ 0 → nullOrDisposed w (s.bitmaps.getD BM_A1 none) = false →
      (drawGround w s).callsSince s =
        [Call.shaderBind ShaderKind.tilemapVX, Call.setAniOffset s.aniOffset,
          Call.setTexSize ShaderKind.tilemapVX w.atlasSize,
          Call.applyViewportProj ShaderKind.tilemapVX,
          Call.setTranslation ShaderKind.tilemapVX s.dispPos,
          Call.texBind, Call.vaoBind, Call.drawElements (s.groundQuads * 6) 0,
          Call.vaoUnbind]) ∧
    (s.groundQuads ≠ 0 → nullOrDisposed w (s.bitmaps.getD BM_A1 none) = true →
      (drawGround w s).callsSince s =
        [Call.shaderBind ShaderKind.simple,
          Call.setTexSize ShaderKind.simple w.atlasSize,
          Call.applyViewportProj ShaderKind.simple,
          Call.setTranslation ShaderKind.simple s.dispPos,
          Call.texBind, Call.vaoBind, Call.drawElements (s.groundQuads * 6) 0,
          Call.vaoUnbind]) ∧
    (s.aboveQuads ≠ 0 →
      (drawAbove w s).callsSince s =
        [Call.shaderBind ShaderKind.simple,
          Call.setTexSize ShaderKind.simple w.atlasSize,
          Call.applyViewportProj ShaderKind.simple,
          Call.setTranslation ShaderKind.simple s.dispPos,
          Call.texBind, Call.vaoBind,
          Call.drawElements (s.aboveQuads * 6) (s.groundQuads * 6 * w.sizeofIndex),
          Call.vaoUnbind]) ∧
    (Call.shaderBind ShaderKind.tilemapVX ∈ (drawGround w s).callsSince s ↔
      s.groundQuads ≠ 0 ∧
        ∃ b, s.bitmaps.getD BM_A1 none = some b ∧ w.bitmapDisposed b = false) ∧
    (Call.shaderBind ShaderKind.simple ∈ (drawGround w s).callsSince s ↔
      s.groundQuads ≠ 0 ∧
        (s.bitmaps.getD BM_A1 none = none ∨
          ∃ b, s.bitmaps.getD BM_A1 none = some b ∧ w.bitmapDisposed b = true)) ∧
    (∀ o, Call.setAniOffset o ∈ (drawGround w s).callsSince s ↔
      o = s.aniOffset ∧ Call.shaderBind ShaderKind.tilemapVX ∈ (drawGround w s).callsSince s) ∧
    Call.shaderBind ShaderKind.tilemapVX ∉ (drawAbove w s).callsSince s ∧
    (∀ o, Call.setAniOffset o ∉ (drawAbove w s).callsSince s) ∧
    (∀ sh size, Call.setTexSize sh size ∈ (drawGround w s).callsSince s ∨
        Call.setTexSize sh size ∈ (drawAbove w s).callsSince s → size = w.atlasSize) ∧
    (∀ sh d, Call.setTranslation sh d ∈ (drawGround w s).callsSince s ∨
        Call.setTranslation sh d ∈ (drawAbove w s).callsSince s → d = s.dispPos) ∧
    (drawAbove w (draw w s)).callsSince (draw w s) = (drawAbove w s).callsSince s := by
  have hg : (drawGround w s).callsSince s = s.groundCalls w := by
    simp [drawGround_eq, callsSince]
  have ha : (drawAbove w s).callsSince s = s.aboveCalls w := by
    simp [drawAbove_eq, callsSince]
  have hd : (drawAbove w (draw w s)).callsSince (draw w s) = s.aboveCalls w := by
    simp [drawAbove_eq, callsSince, draw, drawFlashLayer, call, drawGround_eq, aboveCalls]
  rw [hg, ha, hd]
  unfold groundCalls aboveCalls
  refine ⟨?_, ?_, ?_, ?_, ?_, ?_, ?_, ?_, ?_, ?_, rfl⟩
  · intro h0 hn
    rw [if_neg h0, hn]
    rfl
  · intro h0 hn
    rw [if_neg h0, hn]
    rfl
  · intro h0
    simp [h0]
  · by_cases h0 : s.groundQuads = 0
    · simp [h0]
    · cases hb : s.bitmaps.getD BM_A1 none with
      | none => simp [h0, hb, nullOrDisposed]
      | some b => cases hdis : w.bitmapDisposed b <;> simp [h0, hb, nullOrDisposed, hdis]
  · by_cases h0 : s.groundQuads = 0
    · simp [h0]
    · cases hb : s.bitmaps.getD BM_A1 none with
      | none => simp [h0, hb, nullOrDisposed]
      | some b => cases hdis : w.bitmapDisposed b <;> simp [h0, hb, nullOrDisposed, hdis]
  · intro o
    by_cases h0 : s.groundQuads = 0
    · simp [h0]
    · cases hn : nullOrDisposed w (s.bitmaps.getD BM_A1 none) <;> simp [h0, hn]
  · split_ifs <;> simp
  · intro o
    split_ifs <;> simp
  · intro sh size
    split_ifs <;> simp
    all_goals tauto
  · intro sh d
    split_ifs <;> simp
    all_goals tauto

/-- C24: `rebuildBuffers` replaces both vertex streams wholesale. It is called
from `prepare` only, which returns before the call when no map data is assigned;
and on the map data it is called with, for two renderers with the same map data,
flags and visible region, whatever their streams and quad counts held before,
the streams and quad counts after `rebuildBuffers` are equal, each stream being
exactly what the tile reader emits for it. -/
theorem rebuildBuffers_replaces_streams (w : World) (s t : TilemapVXPrivate)
    (hmd : s.mapData = t.mapData) (hf : s.flags = t.flags) (hv : s.mapViewp = t.mapViewp) :
    (∀ md, s.mapData = some md →
      (rebuildBuffers w s).groundVert = (rebuildBuffers w t).groundVert ∧
      (rebuildBuffers w s).aboveVert = (rebuildBuffers w t).aboveVert ∧
      (rebuildBuffers w s).groundQuads = (rebuildBuffers w t).groundQuads ∧
      (rebuildBuffers w s).aboveQuads = (rebuildBuffers w t).aboveQuads ∧
      (rebuildBuffers w s).groundVert = streamOf false (s.batches w md) ∧
      (rebuildBuffers w s).aboveVert = streamOf true (s.batches w md)) ∧
    (∀ p : TilemapVXPrivate, Call.rebuildBuffers ∈ (prepare w p).callsSince p →
      p.mapData ≠ none) := by
  constructor
  · intro md hs
    have ht : t.mapData = some md := by rw [← hmd]; exact hs
    rw [rebuildBuffers_eq w s md hs, rebuildBuffers_eq w t md ht]
    simp [batches, hf, hv]
  · intro p hp hn
    rw [prepare_none w p hn] at hp
    simp [callsSince] at hp

/-- Witness of C24: the renderer awaiting a rebuild, once as it is and once with
a stale quad left in its ground stream. -/
theorem rebuildBuffers_replaces_streams_witness :
    (rebuildBuffers filledWorld rebuildPending).groundVert
      = (rebuildBuffers filledWorld
          { rebuildPending with groundVert := [{}, {}, {}, {}], groundQuads := 1 }).groundVert :=
  ((rebuildBuffers_replaces_streams filledWorld rebuildPending
      { rebuildPending with groundVert := [{}, {}, {}, {}], groundQuads := 1 }
      rfl rfl rfl).1 1 rfl).1

/-- A wrapped value lies in the range of `int`. -/
theorem wrap32_range (x : Int) : INT_MIN ≤ wrap32 x ∧ wrap32 x ≤ INT_MAX := by
  unfold wrap32 INT_MIN INT_MAX
  omega

/-- The display position `updatePosition` computes on one axis from scroll
offset `o` and scene offset `so`, with the origin cell of `updateMapViewport`:
minus the non-negative remainder of `o - so` modulo 32, unless the wrapped
difference is one of the 32 lowest `int` values. -/
theorem dispPos_axis (o so : Int) (h : INT_MIN + 32 ≤ isub o so) :
    iadd (ineg (isub o (imul (tileOrigin (isub o so)) 32))) so = -((o - so) % 32) := by
  have ht := tileOrigin_eq_floor (isub o so) h (wrap32_range _).2
  rw [ht]
  unfold INT_MIN at h
  unfold iadd ineg isub imul wrap32 at *
  omega

/-- The region size `onGeometryChange` computes from a viewport extent of `n`
pixels reaches past the extent from any display position of at least -31. -/
theorem region_reaches (n d : Int) (h0 : INT_MIN ≤ n) (h1 : n ≤ INT_MAX) (hd : -31 ≤ d) :
    n ≤ d + 32 * iadd (iadd (idiv n 32) (notnot (imod n 32))) 1 := by
  unfold INT_MIN at h0
  unfold INT_MAX at h1
  have hm := Int.tmod_add_tdiv n 32
  have hdv := tdiv32 n
  unfold iadd idiv imod notnot wrap32
  split_ifs at hdv <;> split_ifs <;> omega

/-- In-range behaviour of the display position: unless the wrapped difference
of scroll offset and scene offset on an axis is one of the 32 lowest `int`
values, after `updateMapViewport` the display position on that axis is minus
the non-negative remainder of (offset - scene offset) modulo 32, so it lies in
[-31, 0]; and for a renderer whose region size and scene offset come from
`onGeometryChange` with a viewport of W by H pixels, display position plus 32
times the region size is at least W (H on the y axis). -/
theorem updateMapViewport_dispPos (s : TilemapVXPrivate) (geo : Geometry) :
    (INT_MIN + 32 ≤ isub s.offset.x s.sceneOffset.x →
      (updateMapViewport s).dispPos.x = -((s.offset.x - s.sceneOffset.x) % 32) ∧
      -31 ≤ (updateMapViewport s).dispPos.x ∧ (updateMapViewport s).dispPos.x ≤ 0) ∧
    (INT_MIN + 32 ≤ isub s.offset.y s.sceneOffset.y →
      (updateMapViewport s).dispPos.y = -((s.offset.y - s.sceneOffset.y) % 32) ∧
      -31 ≤ (updateMapViewport s).dispPos.y ∧ (updateMapViewport s).dispPos.y ≤ 0) ∧
    (INT_MIN ≤ geo.rect.w → geo.rect.w ≤ INT_MAX →
      INT_MIN + 32 ≤ isub s.offset.x (isub geo.rect.x geo.xOrigin) →
      (updateMapViewport (onGeometryChange s geo)).dispPos.x ≤ 0 ∧
      geo.rect.w ≤ (updateMapViewport (onGeometryChange s geo)).dispPos.x
        + 32 * (updateMapViewport (onGeometryChange s geo)).mapViewp.w) ∧
    (INT_MIN ≤ geo.rect.h → geo.rect.h ≤ INT_MAX →
      INT_MIN + 32 ≤ isub s.offset.y (isub geo.rect.y geo.yOrigin) →
      (updateMapViewport (onGeometryChange s geo)).dispPos.y ≤ 0 ∧
      geo.rect.h ≤ (updateMapViewport (onGeometryChange s geo)).dispPos.y
        + 32 * (updateMapViewport (onGeometryChange s geo)).mapViewp.h) := by
  refine ⟨?_, ?_, ?_, ?_⟩
  · intro h
    rw [updateMapViewport_eq]
    simp only []
    rw [dispPos_axis _ _ h]
    omega
  · intro h
    rw [updateMapViewport_eq]
    simp only []
    rw [dispPos_axis _ _ h]
    omega
  · intro h0 h1 h
    rw [updateMapViewport_eq]
    simp only [onGeometryChange]
    rw [dispPos_axis _ _ h]
    exact ⟨by omega, region_reaches _ _ h0 h1 (by omega)⟩
  · intro h0 h1 h
    rw [updateMapViewport_eq]
    simp only [onGeometryChange]
    rw [dispPos_axis _ _ h]
    exact ⟨by omega, region_reaches _ _ h0 h1 (by omega)⟩

/-- C25 (the code departs from the claim at the low end of the `int` range):
for a renderer created for a viewport of 640 by 480 pixels at scene offset zero
and scrolled to x = `INT_MIN + 1`, `updateMapViewport` stores the origin cell
67108863 and the display position x = -33, whereas minus the remainder of the
offset modulo 32 is -1; -33 is outside [-31, 0], and with the region width of 21
cells the drawn range ends at 639, short of the viewport width 640. -/
theorem updateMapViewport_dispPos_overflow :
    scrolledToIntMin.offset.x = INT_MIN + 1 ∧
    scrolledToIntMin.sceneOffset.x = 0 ∧
    scrolledToIntMin.mapViewp.x = 67108863 ∧
    scrolledToIntMin.mapViewp.w = 21 ∧
    scrolledToIntMin.dispPos.x = -33 ∧
    -((scrolledToIntMin.offset.x - scrolledToIntMin.sceneOffset.x) % 32) = -1 ∧
    ¬ (-31 ≤ scrolledToIntMin.dispPos.x) ∧
    scrolledToIntMin.dispPos.x + 32 * scrolledToIntMin.mapViewp.w = 639 ∧
    ¬ (viewport640x480.rect.w
      ≤ scrolledToIntMin.dispPos.x + 32 * scrolledToIntMin.mapViewp.w) := by
  decide

/-- Every operation other than `prepare` keeps the dirty flags that are set. -/
theorem apply_keepsDirty (w : World) (op : Op) (s t : TilemapVXPrivate)
    (hop : op ≠ Op.prepare) (h : op.apply w s = Except.ok t) : s.KeepsDirty t := by
  unfold KeepsDirty
  cases op with
  | prepare => exact absurd rfl hop
  | setMapData value =>
    simp only [Op.apply, TilemapVX.setMapData, TilemapVX.guardDisposed] at h
    split_ifs at h
    · simp only [TilemapVX.after, TilemapVX.guardDisposed, Except.ok.injEq] at h
      subst h
      simp
    · cases value with
      | none => simp [TilemapVX.after] at h
      | some v =>
        simp only [TilemapVX.after, TilemapVX.guardDisposed, Except.ok.injEq] at h
        subst h
        simp [call]
  | setFlags value =>
    simp only [Op.apply, TilemapVX.setFlags, TilemapVX.guardDisposed] at h
    split_ifs at h
    · simp only [TilemapVX.after, TilemapVX.guardDisposed, Except.ok.injEq] at h
      subst h
      simp
    · cases value with
      | none => simp [TilemapVX.after] at h
      | some v =>
        simp only [TilemapVX.after, TilemapVX.guardDisposed, Except.ok.injEq] at h
        subst h
        simp [call]
  | setFlashData value =>
    simp only [Op.apply, TilemapVX.setFlashData, TilemapVX.guardDisposed, TilemapVX.after,
      Except.ok.injEq] at h
    subst h
    simp [call]
  | setOX value =>
    simp only [Op.apply, TilemapVX.setOX, TilemapVX.guardDisposed] at h
    split_ifs at h <;>
      simp only [TilemapVX.after, TilemapVX.guardDisposed, Except.ok.injEq] at h <;>
      subst h <;> simp
  | setOY value =>
    simp only [Op.apply, TilemapVX.setOY, TilemapVX.guardDisposed] at h
    split_ifs at h <;>
      simp only [TilemapVX.after, TilemapVX.guardDisposed, Except.ok.injEq] at h <;>
      subst h <;> simp
  | setViewport value =>
    simp only [Op.apply, TilemapVX.setViewport, TilemapVX.guardDisposed, TilemapVX.after,
      Except.ok.injEq] at h
    subst h
    simp
  | setVisible value =>
    simp only [Op.apply, TilemapVX.setVisible, TilemapVX.guardDisposed, TilemapVX.after,
      Except.ok.injEq] at h
    subst h
    simp
  | setBitmap i bitmap =>
    simp only [Op.apply, TilemapVX.BitmapArray.set] at h
    split_ifs at h
    · simp only [TilemapVX.after, TilemapVX.guardDisposed, Except.ok.injEq] at h
      subst h
      simp
    · simp only [TilemapVX.after, TilemapVX.guardDisposed, Except.ok.injEq] at h
      subst h
      simp
    · cases bitmap with
      | none => simp [TilemapVX.after] at h
      | some b =>
        simp only [TilemapVX.after, TilemapVX.guardDisposed, Except.ok.injEq] at h
        subst h
        simp [call]
  | update =>
    simp only [Op.apply, update_live, TilemapVX.after, TilemapVX.guardDisposed,
      Except.ok.injEq] at h
    subst h
    simp [ticked]
  | geometryChange geo =>
    simp only [Op.apply, Except.ok.injEq] at h
    subst h
    simp [onGeometryChange]
  | emit sig source =>
    simp only [Op.apply, Except.ok.injEq] at h
    subst h
    rw [emit_eq]
    simp only []
    refine ⟨fun h => ?_, fun h => h, fun h => ?_, List.prefix_refl _⟩ <;> simp [h]
  | draw =>
    simp only [Op.apply, Except.ok.injEq] at h
    subst h
    simp [TilemapVXPrivate.draw, drawFlashLayer, call, drawGround_eq]
  | drawAbove =>
    simp only [Op.apply, Except.ok.injEq] at h
    subst h
    simp [TilemapVXPrivate.AboveLayer.draw, drawFlashLayer, call, drawAbove_eq]

/-- A `prepare` that finds map data runs the handler of every dirty flag that
is set, ticks the flash map, and extends the trace. -/
theorem prepare_handlers (w : World) (s : TilemapVXPrivate) (md : TableRef)
    (h : s.mapData = some md) :
    (s.atlasDirty = true → Call.rebuildAtlas ∈ (prepare w s).callsSince s) ∧
    (s.mapViewportDirty = true → Call.updateMapViewport ∈ (prepare w s).callsSince s) ∧
    (s.buffersDirty = true → Call.rebuildBuffers ∈ (prepare w s).callsSince s) ∧
    Call.flashPrepare ∈ (prepare w s).trace ∧
    s.trace <+: (prepare w s).trace := by
  have ht := prepare_trace w s md h
  have hp : (prepare w s).trace = s.trace ++ (prepare w s).callsSince s := by
    have rb := fun t ht => rebuildBuffers_eq w t md ht
    unfold callsSince
    by_cases ha : s.atlasDirty = true <;> by_cases hv : s.mapViewportDirty = true <;>
      simp [prepare, h, ha, hv, rebuildAtlas, call, updateMapViewport_eq] <;>
      split_ifs <;> simp [rb, h]
  refine ⟨?_, ?_, ?_, ?_, ?_⟩
  · intro ha
    rw [ht]
    simp [atlasCalls, ha]
  · intro hv
    rw [ht]
    simp [regionCalls, hv]
  · intro hb
    rw [ht]
    have hr : s.regionState.buffersDirty = true := by
      unfold regionState
      split_ifs
      · rw [updateMapViewport_buffersDirty, hb]
        simp
      · exact hb
    simp [bufferCalls, hr, rebuildCalls]
  · rw [hp, ht]
    simp
  · rw [hp]
    exact List.prefix_append _ _

/-- A dirty flag that is set before an operation and clear after it: the
operation is `prepare`, and it ran the handler of that flag. -/
theorem apply_clears (w : World) (op : Op) (s t : TilemapVXPrivate)
    (h : op.apply w s = Except.ok t) :
    (s.atlasDirty = true → t.atlasDirty = false →
      op = Op.prepare ∧ Call.rebuildAtlas ∈ t.callsSince s) ∧
    (s.mapViewportDirty = true → t.mapViewportDirty = false →
      op = Op.prepare ∧ Call.updateMapViewport ∈ t.callsSince s) ∧
    (s.buffersDirty = true → t.buffersDirty = false →
      op = Op.prepare ∧ Call.rebuildBuffers ∈ t.callsSince s) := by
  by_cases hop : op = Op.prepare
  · subst hop
    simp only [Op.apply, Except.ok.injEq] at h
    subst h
    cases hmd : s.mapData with
    | none =>
      rw [prepare_none w s hmd]
      refine ⟨fun h1 h2 => ?_, fun h1 h2 => ?_, fun h1 h2 => ?_⟩ <;> rw [h1] at h2 <;>
        exact absurd h2 (by decide)
    | some md =>
      have hh := prepare_handlers w s md hmd
      exact ⟨fun h1 _ => ⟨rfl, hh.1 h1⟩, fun h1 _ => ⟨rfl, hh.2.1 h1⟩,
        fun h1 _ => ⟨rfl, hh.2.2.1 h1⟩⟩
  · have hk := apply_keepsDirty w op s t hop h
    refine ⟨fun h1 h2 => ?_, fun h1 h2 => ?_, fun h1 h2 => ?_⟩
    · rw [hk.1 h1] at h2
      exact absurd h2 (by decide)
    · rw [hk.2.1 h1] at h2
      exact absurd h2 (by decide)
    · rw [hk.2.2.1 h1] at h2
      exact absurd h2 (by decide)

/-- Until a `prepare` has found map data (and ticked the flash map), a renderer
whose three dirty flags are set keeps them set. -/
theorem run_allDirty (w : World) (ops : List Op) (s t : TilemapVXPrivate)
    (h : Op.run w ops s = Except.ok t)
    (hs : Call.flashPrepare ∈ s.trace ∨ s.AllDirty) :
    Call.flashPrepare ∈ t.trace ∨ t.AllDirty := by
  induction ops generalizing s with
  | nil =>
    simp only [Op.run, Except.ok.injEq] at h
    subst h
    exact hs
  | cons op ops ih =>
    simp only [Op.run] at h
    cases ha : op.apply w s with
    | error e => simp [ha] at h
    | ok r =>
      simp only [ha] at h
      refine ih r h ?_
      by_cases hop : op = Op.prepare
      · subst hop
        simp only [Op.apply, Except.ok.injEq] at ha
        subst ha
        cases hmd : s.mapData with
        | none =>
          rw [prepare_none w s hmd]
          exact hs
        | some md => exact Or.inl (prepare_handlers w s md hmd).2.2.2.1
      · have hk := apply_keepsDirty w op s r hop ha
        rcases hs with hs | hs
        · exact Or.inl (hk.2.2.2.subset hs)
        · exact Or.inr ⟨hk.1 hs.1, hk.2.1 hs.2.1, hk.2.2.1 hs.2.2⟩

/-- The operator `&&` on two conditions that read within the buffer. -/
theorem cand_some (a b : Bool) : cand (some a) (some b) = some (a && b) := by
  cases a <;> rfl

/-- The operator `||` on two conditions that read within the buffer. -/
theorem cor_some (a b : Bool) : cor (some a) (some b) = some (a || b) := by
  cases a <;> rfl

/-- The operator `||` on two conditions on the same byte. -/
theorem cor_map (x : Option Nat) (p q : Nat → Bool) :
    cor (x.map p) (x.map q) = x.map fun b => p b || q b := by
  cases x with
  | none => rfl
  | some b => simp [cor_some]

/-- Reading the buffer that holds the string `s` and its terminating NUL. -/
theorem read_terminated (s : List Nat) (k : Nat) (hk : k ≤ s.length) :
    (s ++ [0])[k]? = some (peek s k) := by
  unfold peek
  rcases Nat.lt_or_eq_of_le hk with h | h
  · rw [List.getElem?_append_left h, List.getElem?_eq_getElem h]
    rfl
  · subst h
    simp

/-- A non-zero byte of the string lies before the terminator. -/
theorem peek_ne_zero (s : List Nat) (k : Nat) (h : peek s k ≠ 0) : k < s.length := by
  by_contra hn
  apply h
  unfold peek
  rw [List.getElem?_eq_none (by omega)]
  rfl

/-- A chain of conditions that all fail on the NUL byte is evaluated without
reading past the terminator. -/
theorem readChain_terminated (s : List Nat) (ps : List (Nat → Bool)) (k : Nat)
    (hp : ∀ p ∈ ps, p 0 = false) (hk : k ≤ s.length) :
    readChain (s ++ [0]) k ps = some (chainValue s k ps) := by
  induction ps generalizing k with
  | nil => rfl
  | cons p ps ih =>
    cases ps with
    | nil =>
      simp [readChain, chainValue, read_terminated s k hk]
    | cons q ps =>
      unfold readChain chainValue
      rw [read_terminated s k hk, Option.map_some']
      cases hv : p (peek s k) with
      | false => rfl
      | true =>
        have hne : peek s k ≠ 0 := by
          intro h0
          rw [h0, hp p (List.mem_cons_self _ _)] at hv
          exact Bool.noConfusion hv
        have hlt := peek_ne_zero s k hne
        rw [ih (k + 1) (fun r hr => hp r (List.mem_cons_of_mem _ hr)) hlt]
        rfl

/-- The ASCII condition on a terminated string. -/
theorem ascii_terminated (s : List Nat) :
    validUtf8.ascii (s ++ [0]) = some (isAscii (peek s 0)) := by
  unfold validUtf8.ascii inRange isByte
  simp only [read_terminated s 0 (Nat.zero_le _), Option.map_some', cor_some]
  unfold isAscii
  congr 1
  rw [Bool.eq_iff_iff]
  simp

/-- The 2-byte condition on a terminated string. -/
theorem twoByte_terminated (s : List Nat) :
    validUtf8.twoByte (s ++ [0]) = some (isTwoByte (peek s 0) (peek s 1)) := by
  unfold validUtf8.twoByte inRange
  have h := readChain_terminated s
    [fun b => decide (0xC2 ≤ b ∧ b ≤ 0xDF), fun b => decide (0x80 ≤ b ∧ b ≤ 0xBF)] 0
    (by simp) (Nat.zero_le _)
  simp only [readChain] at h
  rw [h]
  unfold isTwoByte
  congr 1
  rw [Bool.eq_iff_iff]
  simp [chainValue]

/-- The 3-byte condition on a terminated string. -/
theorem threeByte_terminated (s : List Nat) :
    validUtf8.threeByte (s ++ [0])
      = some (isThreeByte (peek s 0) (peek s 1) (peek s 2)) := by
  unfold validUtf8.threeByte inRange isByte
  simp only [cor_map]
  have h1 := readChain_terminated s
    [fun b => decide (b = 0xE0), fun b => decide (0xA0 ≤ b ∧ b ≤ 0xBF),
      fun b => decide (0x80 ≤ b ∧ b ≤ 0xBF)] 0 (by simp) (Nat.zero_le _)
  have h2 := readChain_terminated s
    [fun b => decide (0xE1 ≤ b ∧ b ≤ 0xEC) || (decide (b = 0xEE) || decide (b = 0xEF)),
      fun b => decide (0x80 ≤ b ∧ b ≤ 0xBF),
      fun b => decide (0x80 ≤ b ∧ b ≤ 0xBF)] 0 (by simp) (Nat.zero_le _)
  have h3 := readChain_terminated s
    [fun b => decide (b = 0xED), fun b => decide (0x80 ≤ b ∧ b ≤ 0x9F),
      fun b => decide (0x80 ≤ b ∧ b ≤ 0xBF)] 0 (by simp) (Nat.zero_le _)
  simp only [readChain] at h1 h2 h3
  rw [h1, h2, h3, cor_some, cor_some]
  unfold isThreeByte
  congr 1
  rw [Bool.eq_iff_iff]
  simp [chainValue]
  tauto

/-- The 4-byte condition on a terminated string. -/
theorem fourByte_terminated (s : List Nat) :
    validUtf8.fourByte (s ++ [0])
      = some (isFourByte (peek s 0) (peek s 1) (peek s 2) (peek s 3)) := by
  unfold validUtf8.fourByte inRange isByte
  have h1 := readChain_terminated s
    [fun b => decide (b = 0xF0), fun b => decide (0x90 ≤ b ∧ b ≤ 0xBF),
      fun b => decide (0x80 ≤ b ∧ b ≤ 0xBF), fun b => decide (0x80 ≤ b ∧ b ≤ 0xBF)] 0
    (by simp) (Nat.zero_le _)
  have h2 := readChain_terminated s
    [fun b => decide (0xF1 ≤ b ∧ b ≤ 0xF3), fun b => decide (0x80 ≤ b ∧ b ≤ 0xBF),
      fun b => decide (0x80 ≤ b ∧ b ≤ 0xBF), fun b => decide (0x80 ≤ b ∧ b ≤ 0xBF)] 0
    (by simp) (Nat.zero_le _)
  have h3 := readChain_terminated s
    [fun b => decide (b = 0xF4), fun b => decide (0x80 ≤ b ∧ b ≤ 0x8F),
      fun b => decide (0x80 ≤ b ∧ b ≤ 0xBF), fun b => decide (0x80 ≤ b ∧ b ≤ 0xBF)] 0
    (by simp) (Nat.zero_le _)
  simp only [readChain] at h1 h2 h3
  rw [h1, h2, h3, cor_some, cor_some]
  unfold isFourByte
  congr 1
  rw [Bool.eq_iff_iff]
  simp [chainValue]
  tauto

/-- The loop advances only over bytes of the string, never over the terminator. -/
theorem unitLength_le (s : List Nat) : unitLength s ≤ s.length := by
  unfold unitLength
  split_ifs with h1 h2 h3 h4
  · have : peek s 0 ≠ 0 := by
      intro h
      rw [h] at h1
      revert h1
      decide
    exact peek_ne_zero s 0 this
  · have : peek s 1 ≠ 0 := by
      intro h
      rw [h] at h2
      simp [isTwoByte] at h2
    exact peek_ne_zero s 1 this
  · have : peek s 2 ≠ 0 := by
      intro h
      rw [h] at h3
      simp [isThreeByte] at h3
    exact peek_ne_zero s 2 this
  · have : peek s 3 ≠ 0 := by
      intro h
      rw [h] at h4
      simp [isFourByte] at h4
    exact peek_ne_zero s 3 this
  · exact Nat.zero_le _

/-- One iteration of the loop on a non-empty terminated string. -/
theorem loop_step (s : List Nat) (fuel : Nat) (h0 : 0 ∉ s) (hne : s ≠ []) :
    validUtf8.loop (fuel + 1) (s ++ [0]) =
      if unitLength s = 0 then some false
      else validUtf8.loop fuel (s.drop (unitLength s) ++ [0]) := by
  have hle := unitLength_le s
  have hd : ∀ k, k ≤ s.length → (s ++ [0]).drop k = s.drop k ++ [0] := fun k hk =>
    List.drop_append_of_le_length hk
  have hb : peek s 0 ≠ 0 := by
    cases s with
    | nil => exact absurd rfl hne
    | cons b t =>
      intro h
      apply h0
      simp only [peek, List.getElem?_cons_zero, Option.getD_some] at h
      rw [h]
      exact List.mem_cons_self _ _
  conv_lhs => rw [validUtf8.loop]
  rw [read_terminated s 0 (Nat.zero_le _)]
  simp only [hb, if_false, ascii_terminated, twoByte_terminated, threeByte_terminated,
    fourByte_terminated]
  unfold unitLength at hle ⊢
  cases h1 : isAscii (peek s 0)
  · cases h2 : isTwoByte (peek s 0) (peek s 1)
    · cases h3 : isThreeByte (peek s 0) (peek s 1) (peek s 2)
      · cases h4 : isFourByte (peek s 0) (peek s 1) (peek s 2) (peek s 3)
        · simp
        · simp only [h1, h2, h3, h4] at hle
          simp [hd 4 (by simpa using hle)]
      · simp only [h1, h2, h3] at hle
        simp [hd 3 (by simpa using hle)]
    · simp only [h1, h2] at hle
      simp [hd 2 (by simpa using hle)]
  · simp only [h1] at hle
    simp [hd 1 (by simpa using hle)]

/-- A unit at the head of a string is what the loop advances over. -/
theorem unitLength_append (seg rest : List Nat) (h : unitBytes seg = true) :
    unitLength (seg ++ rest) = seg.length := by
  rcases seg with _ | ⟨b0, _ | ⟨b1, _ | ⟨b2, _ | ⟨b3, _ | ⟨b4, t⟩⟩⟩⟩⟩ <;>
    simp only [unitBytes, Bool.false_eq_true] at h
  · simp only [unitLength, peek, List.singleton_append, List.getElem?_cons_zero,
      Option.getD_some, h, if_true, List.length_singleton]
  · have ha : isAscii b0 = false := by
      simp only [isTwoByte, decide_eq_true_eq] at h
      simp only [isAscii, decide_eq_false_iff_not]
      omega
    simp [unitLength, peek, ha, h]
  · have ha : isAscii b0 = false := by
      simp only [isThreeByte, decide_eq_true_eq] at h
      simp only [isAscii, decide_eq_false_iff_not]
      omega
    have hb : isTwoByte b0 b1 = false := by
      simp only [isThreeByte, decide_eq_true_eq] at h
      simp only [isTwoByte, decide_eq_false_iff_not]
      omega
    simp [unitLength, peek, ha, hb, h]
  · have ha : isAscii b0 = false := by
      simp only [isFourByte, decide_eq_true_eq] at h
      simp only [isAscii, decide_eq_false_iff_not]
      omega
    have hb : isTwoByte b0 b1 = false := by
      simp only [isFourByte, decide_eq_true_eq] at h
      simp only [isTwoByte, decide_eq_false_iff_not]
      omega
    have hc : isThreeByte b0 b1 b2 = false := by
      simp only [isFourByte, decide_eq_true_eq] at h
      simp only [isThreeByte, decide_eq_false_iff_not]
      omega
    simp [unitLength, peek, ha, hb, hc, h]

/-- What the loop advances over at the head of a string is a unit. -/
theorem unitBytes_take (s : List Nat) (h : unitLength s ≠ 0) :
    unitBytes (s.take (unitLength s)) = true := by
  have hle := unitLength_le s
  unfold unitLength at h hle ⊢
  rcases s with _ | ⟨b0, _ | ⟨b1, _ | ⟨b2, _ | ⟨b3, t⟩⟩⟩⟩ <;>
    simp only [peek, List.getElem?_cons_zero, List.getElem?_cons_succ, Option.getD_some,
      List.getElem?_nil, Option.getD_none] at h hle ⊢ <;>
    split_ifs at h hle ⊢ <;> simp_all [unitBytes]

/-- No unit is empty. -/
theorem unitBytes_ne_nil (seg : List Nat) (h : unitBytes seg = true) : seg ≠ [] := by
  intro hs
  rw [hs] at h
  exact Bool.noConfusion h

/-- A non-empty string splits into units exactly when the loop advances at its
head and the rest splits into units. -/
theorem splitsIntoUnits_step (s : List Nat) (hne : s ≠ []) :
    SplitsIntoUnits s ↔ unitLength s ≠ 0 ∧ SplitsIntoUnits (s.drop (unitLength s)) := by
  constructor
  · rintro ⟨segs, hs, hu⟩
    cases segs with
    | nil => exact absurd (by simpa using hs) hne
    | cons seg segs =>
      have hseg := hu seg (List.mem_cons_self _ _)
      have hs2 : s = seg ++ segs.flatMap id := by simpa using hs
      have hl : unitLength s = seg.length := by
        rw [hs2]
        exact unitLength_append seg _ hseg
      have hpos : seg.length ≠ 0 := fun h =>
        unitBytes_ne_nil seg hseg (List.length_eq_zero.mp h)
      refine ⟨by rw [hl]; exact hpos, segs, ?_, fun x hx => hu x (List.mem_cons_of_mem _ hx)⟩
      rw [hl, hs2, List.drop_left]
  · rintro ⟨h, segs, hs, hu⟩
    refine ⟨s.take (unitLength s) :: segs, ?_, ?_⟩
    · rw [List.flatMap_cons, ← hs]
      exact (List.take_append_drop _ _).symm
    · intro x hx
      rcases List.mem_cons.mp hx with hx | hx
      · rw [hx]
        exact unitBytes_take s h
      · exact hu x hx

/-- The loop on a terminated string: it returns without reading past the
terminator, and returns true exactly when the string splits into units. -/
theorem loop_terminated (n : Nat) : ∀ (s : List Nat) (fuel : Nat), s.length ≤ n → 0 ∉ s →
    s.length < fuel →
    ∃ b, validUtf8.loop fuel (s ++ [0]) = some b ∧ (b = true ↔ SplitsIntoUnits s) := by
  induction n with
  | zero =>
    intro s fuel hn _ hf
    have hs : s = [] := List.length_eq_zero.mp (Nat.le_zero.mp hn)
    subst hs
    cases fuel with
    | zero => exact absurd hf (by simp)
    | succ f =>
      refine ⟨true, by simp [validUtf8.loop], fun _ => ⟨[], rfl, by simp⟩, fun _ => rfl⟩
  | succ n ih =>
    intro s fuel hn h0 hf
    by_cases hs : s = []
    · subst hs
      cases fuel with
      | zero => exact absurd hf (by simp)
      | succ f =>
        refine ⟨true, by simp [validUtf8.loop], fun _ => ⟨[], rfl, by simp⟩, fun _ => rfl⟩
    · cases fuel with
      | zero => exact absurd hf (by simp)
      | succ f =>
        have hpos : 0 < s.length := List.length_pos.mpr hs
        rw [loop_step s f h0 hs]
        by_cases hu : unitLength s = 0
        · rw [if_pos hu]
          refine ⟨false, rfl, fun h => Bool.noConfusion h, fun h => ?_⟩
          exact absurd hu ((splitsIntoUnits_step s hs).mp h).1
        · rw [if_neg hu]
          have hlen : (s.drop (unitLength s)).length ≤ n := by
            rw [List.length_drop]
            omega
          have h0d : 0 ∉ s.drop (unitLength s) := fun h => h0 (List.mem_of_mem_drop h)
          have hfd : (s.drop (unitLength s)).length < f := by
            rw [List.length_drop]
            omega
          obtain ⟨b, hb, hiff⟩ := ih (s.drop (unitLength s)) f hlen h0d hfd
          refine ⟨b, hb, ?_⟩
          rw [hiff, splitsIntoUnits_step s hs]
          exact ⟨fun h => ⟨hu, h⟩, fun h => h.2⟩

/-- The units the loop advances over are the accepted units of the claim. -/
theorem unitBytes_iff (seg : List Nat) : unitBytes seg = true ↔ AcceptedUnit seg := by
  constructor
  · intro h
    rcases seg with _ | ⟨b0, _ | ⟨b1, _ | ⟨b2, _ | ⟨b3, _ | ⟨b4, t⟩⟩⟩⟩⟩ <;>
      simp only [unitBytes, Bool.false_eq_true] at h
    · left
      simp only [isAscii, decide_eq_true_eq] at h
      exact ⟨b0, rfl, h⟩
    · right
      simp only [isTwoByte, decide_eq_true_eq] at h
      refine ⟨(b0 - 0xC0) * 64 + (b1 - 0x80), by omega, ⟨by omega, by omega⟩, ?_⟩
      unfold utf8Encode
      rw [if_neg (by omega), if_pos (by omega)]
      have e1 : 0xC0 + ((b0 - 0xC0) * 64 + (b1 - 0x80)) / 64 = b0 := by omega
      have e2 : 0x80 + ((b0 - 0xC0) * 64 + (b1 - 0x80)) % 64 = b1 := by omega
      rw [e1, e2]
    · right
      simp only [isThreeByte, decide_eq_true_eq] at h
      refine ⟨(b0 - 0xE0) * 4096 + (b1 - 0x80) * 64 + (b2 - 0x80), by omega,
        ⟨by omega, by omega⟩, ?_⟩
      unfold utf8Encode
      rw [if_neg (by omega), if_neg (by omega), if_pos (by omega)]
      have e1 : 0xE0 + ((b0 - 0xE0) * 4096 + (b1 - 0x80) * 64 + (b2 - 0x80)) / 4096 = b0 := by
        omega
      have e2 : 0x80 + ((b0 - 0xE0) * 4096 + (b1 - 0x80) * 64 + (b2 - 0x80)) / 64 % 64 = b1 := by
        omega
      have e3 : 0x80 + ((b0 - 0xE0) * 4096 + (b1 - 0x80) * 64 + (b2 - 0x80)) % 64 = b2 := by
        omega
      rw [e1, e2, e3]
    · right
      simp only [isFourByte, decide_eq_true_eq] at h
      refine ⟨(b0 - 0xF0) * 262144 + (b1 - 0x80) * 4096 + (b2 - 0x80) * 64 + (b3 - 0x80),
        by omega, ⟨by omega, by omega⟩, ?_⟩
      unfold utf8Encode
      rw [if_neg (by omega), if_neg (by omega), if_neg (by omega)]
      have e1 : 0xF0 + ((b0 - 0xF0) * 262144 + (b1 - 0x80) * 4096 + (b2 - 0x80) * 64
          + (b3 - 0x80)) / 262144 = b0 := by omega
      have e2 : 0x80 + ((b0 - 0xF0) * 262144 + (b1 - 0x80) * 4096 + (b2 - 0x80) * 64
          + (b3 - 0x80)) / 4096 % 64 = b1 := by omega
      have e3 : 0x80 + ((b0 - 0xF0) * 262144 + (b1 - 0x80) * 4096 + (b2 - 0x80) * 64
          + (b3 - 0x80)) / 64 % 64 = b2 := by omega
      have e4 : 0x80 + ((b0 - 0xF0) * 262144 + (b1 - 0x80) * 4096 + (b2 - 0x80) * 64
          + (b3 - 0x80)) % 64 = b3 := by omega
      rw [e1, e2, e3, e4]
  · rintro (⟨b, hb, h⟩ | ⟨c, h80, ⟨hmax, hsur⟩, hc⟩)
    · rw [hb]
      simp only [unitBytes, isAscii, decide_eq_true_eq]
      exact h
    · rw [hc]
      unfold utf8Encode
      split_ifs with h1 h2 h3
      · omega
      · simp only [unitBytes, isTwoByte, decide_eq_true_eq]
        omega
      · simp only [unitBytes, isThreeByte, decide_eq_true_eq]
        omega
      · simp only [unitBytes, isFourByte, decide_eq_true_eq]
        omega

/-- Splitting into units is being a concatenation of accepted units. -/
theorem splitsIntoUnits_iff (s : List Nat) : SplitsIntoUnits s ↔ AcceptedString s := by
  unfold SplitsIntoUnits AcceptedString
  constructor
  · rintro ⟨segs, hs, hu⟩
    exact ⟨segs, hs, fun seg hseg => (unitBytes_iff seg).mp (hu seg hseg)⟩
  · rintro ⟨segs, hs, hu⟩
    exact ⟨segs, hs, fun seg hseg => (unitBytes_iff seg).mpr (hu seg hseg)⟩

/-- A concatenation of accepted units is well-formed UTF-8. -/
theorem acceptedString_wellFormed (s : List Nat) (h : AcceptedString s) : WellFormedUtf8 s := by
  obtain ⟨segs, hs, hu⟩ := h
  subst hs
  induction segs with
  | nil => exact ⟨[], by simp, rfl⟩
  | cons seg segs ih =>
    obtain ⟨cs, hcs, hflat⟩ := ih (fun x hx => hu x (List.mem_cons_of_mem _ hx))
    have hseg : ∃ c, IsScalar c ∧ seg = utf8Encode c := by
      rcases hu seg (List.mem_cons_self _ _) with ⟨b, hb, h⟩ | ⟨c, _, hc, he⟩
      · refine ⟨b, ⟨by omega, by omega⟩, ?_⟩
        rw [hb]
        unfold utf8Encode
        rw [if_pos (by omega)]
      · exact ⟨c, hc, he⟩
    obtain ⟨c, hc, he⟩ := hseg
    refine ⟨c :: cs, ?_, ?_⟩
    · intro x hx
      rcases List.mem_cons.mp hx with hx | hx
      · rw [hx]
        exact hc
      · exact hcs x hx
    · rw [List.flatMap_cons, List.flatMap_cons, ← hflat, ← he]
      rfl

/-- C27: on a buffer holding a string without NUL bytes followed by its
terminating NUL, `validUtf8` returns a value without reading a byte outside the
buffer, that is, past the terminating NUL; it returns true if and only if the
string is a concatenation of single bytes from {0x09, 0x0A, 0x0D, 0x20..0x7E}
and of UTF-8 encodings of scalar values from U+0080 to U+10FFFF (two, three or
four bytes, no overlong form, no surrogate); and every string it accepts is
well-formed UTF-8. -/
theorem validUtf8_accepts_iff (s : List Nat) (h0 : 0 ∉ s) :
    (∃ b, validUtf8 (s ++ [0]) = some b) ∧
    (validUtf8 (s ++ [0]) = some true ↔ AcceptedString s) ∧
    (validUtf8 (s ++ [0]) = some true → WellFormedUtf8 s) := by
  obtain ⟨b, hb, hiff⟩ := loop_terminated s.length s (s ++ [0]).length (Nat.le_refl _) h0
    (by simp)
  have hv : validUtf8 (s ++ [0]) = some b := hb
  have hacc : validUtf8 (s ++ [0]) = some true ↔ AcceptedString s := by
    rw [hv, ← splitsIntoUnits_iff, ← hiff]
    simp
  exact ⟨⟨b, hv⟩, hacc, fun h => acceptedString_wellFormed s (hacc.mp h)⟩

/-- Witness of C27: the string of bytes C3 A9 0A is accepted, being the encoding
of U+00E9 followed by a line feed; a buffer that ends after the lead byte C3,
without a terminator, is read past its end. -/
theorem validUtf8_accepts_iff_witness :
    0 ∉ [0xC3, 0xA9, 0x0A] ∧ validUtf8 ([0xC3, 0xA9, 0x0A] ++ [0]) = some true ∧
    AcceptedString [0xC3, 0xA9, 0x0A] ∧ validUtf8 [0xC3] = none :=
  ⟨by decide, by decide,
    (validUtf8_accepts_iff [0xC3, 0xA9, 0x0A] (by decide)).2.1.mp (by decide), by decide⟩

/-- Assigning a duplicate flag keeps the number of widgets. -/
theorem setDupFlag_length (ws : List BindingWidget) (i j : Nat) (v : Bool) :
    (setDupFlag ws i j v).length = ws.length := by
  unfold setDupFlag
  split <;> simp

/-- Assigning a duplicate flag changes no source slot. -/
theorem srcAt_setDupFlag (ws : List BindingWidget) (i j : Nat) (v : Bool) (a b : Nat) :
    srcAt (setDupFlag ws i j v) a b = srcAt ws a b := by
  unfold setDupFlag srcAt
  split
  · rfl
  · next w hw =>
    rw [List.getElem?_set]
    split_ifs with h1 h2
    · subst h1
      simp [hw]
    · subst h1
      rw [List.getElem?_eq_none (by omega)] at hw
      exact Option.noConfusion hw
    · rfl

/-- Assigning a duplicate flag keeps the arrays of the widgets at four slots. -/
theorem widgetsWF_setDupFlag (ws : List BindingWidget) (i j : Nat) (v : Bool)
    (h : WidgetsWF ws) : WidgetsWF (setDupFlag ws i j v) := by
  unfold setDupFlag
  split
  · exact h
  · next w hw =>
    intro x hx
    rcases List.mem_or_eq_of_mem_set hx with hx | hx
    · exact h x hx
    · subst hx
      obtain ⟨hlt, hget⟩ := List.getElem?_eq_some_iff.mp hw
      have hm := h w (hget ▸ List.getElem_mem hlt)
      simpa using hm

/-- The duplicate flags after one assignment within the arrays. -/
theorem flagAt_setDupFlag (ws : List BindingWidget) (i j : Nat) (v : Bool) (a b : Nat)
    (h : WidgetsWF ws) (hi : i < ws.length) (hj : j < 4) :
    flagAt (setDupFlag ws i j v) a b = if a = i ∧ b = j then v else flagAt ws a b := by
  have hw : ws[i]? = some ws[i] := List.getElem?_eq_getElem hi
  have hl := (h ws[i] (List.getElem_mem _)).2
  unfold setDupFlag flagAt
  rw [hw]
  simp only [List.getElem?_set]
  by_cases ha : i = a
  · subst ha
    simp only [hi, if_true, Option.some_bind, List.getElem?_set, hw]
    by_cases hb : j = b
    · subst hb
      simp [hl, hj]
    · have hb2 : ¬ b = j := fun e => hb e.symm
      simp [hb, hb2]
  · have ha2 : ¬ a = i := fun e => ha e.symm
    simp [ha, ha2]

/-- A sequence of assignments keeps the number of widgets. -/
theorem markAll_length (v : Bool) (ms : List (Nat × Nat)) (ws : List BindingWidget) :
    (markAll v ws ms).length = ws.length := by
  induction ms generalizing ws with
  | nil => rfl
  | cons m ms ih =>
    unfold markAll at *
    rw [List.foldl_cons, ih, setDupFlag_length]

/-- A sequence of assignments changes no source slot. -/
theorem srcAt_markAll (v : Bool) (ms : List (Nat × Nat)) (ws : List BindingWidget) (a b : Nat) :
    srcAt (markAll v ws ms) a b = srcAt ws a b := by
  induction ms generalizing ws with
  | nil => rfl
  | cons m ms ih =>
    unfold markAll at *
    rw [List.foldl_cons, ih, srcAt_setDupFlag]

/-- A sequence of assignments keeps the arrays of the widgets at four slots. -/
theorem widgetsWF_markAll (v : Bool) (ms : List (Nat × Nat)) (ws : List BindingWidget)
    (h : WidgetsWF ws) : WidgetsWF (markAll v ws ms) := by
  induction ms generalizing ws with
  | nil => exact h
  | cons m ms ih =>
    unfold markAll at *
    rw [List.foldl_cons]
    exact ih _ (widgetsWF_setDupFlag ws m.1 m.2 v h)

/-- The duplicate flags after a sequence of assignments of `v` within the
arrays: `v` at the assigned index pairs, unchanged elsewhere. -/
theorem flagAt_markAll (v : Bool) (ms : List (Nat × Nat)) (ws : List BindingWidget) (a b : Nat)
    (h : WidgetsWF ws) (hm : ∀ m ∈ ms, m.1 < ws.length ∧ m.2 < 4) :
    flagAt (markAll v ws ms) a b = if (a, b) ∈ ms then v else flagAt ws a b := by
  induction ms generalizing ws with
  | nil => simp [markAll]
  | cons m ms ih =>
    have h1 := hm m (List.mem_cons_self _ _)
    have e : markAll v ws (m :: ms) = markAll v (setDupFlag ws m.1 m.2 v) ms := rfl
    rw [e, ih _ (widgetsWF_setDupFlag ws m.1 m.2 v h)
      (fun x hx => by
        rw [setDupFlag_length]
        exact hm x (List.mem_cons_of_mem _ hx)),
      flagAt_setDupFlag ws m.1 m.2 v a b h h1.1 h1.2]
    by_cases hin : (a, b) ∈ ms
    · simp [hin]
    · by_cases hab : a = m.1 ∧ b = m.2
      · have : (a, b) = m := Prod.ext hab.1 hab.2
        rw [if_pos hab, if_neg hin, if_pos (this ▸ List.mem_cons_self _ _)]
      · have : ¬ (a, b) = m := fun e => hab ⟨by rw [← e], by rw [← e]⟩
        simp [hin, hab, this]

/-- Assignments in sequence. -/
theorem markAll_append (v : Bool) (ws : List BindingWidget) (ms ns : List (Nat × Nat)) :
    markAll v (markAll v ws ms) ns = markAll v ws (ms ++ ns) := by
  unfold markAll
  rw [List.foldl_append]

/-- A concatenation is empty when both parts are. -/
theorem append_isEmpty {α : Type} (a b : List α) :
    (a ++ b).isEmpty = (a.isEmpty && b.isEmpty) := by
  cases a <;> simp

/-- A loop whose every iteration flags index pairs that depend on the source
slots only flags, in all, the index pairs of its iterations in order, and sets
`dupWarn` when there is one. -/
theorem foldl_marks {α : Type} (body : SettingsMenuPrivate → α → SettingsMenuPrivate)
    (marks : List BindingWidget → α → List (Nat × Nat))
    (hbody : ∀ p x, body p x =
      { bWidgets := markAll true p.bWidgets (marks p.bWidgets x)
        dupWarn := p.dupWarn || !(marks p.bWidgets x).isEmpty })
    (hcongr : ∀ ws ms x, marks (markAll true ws ms) x = marks ws x)
    (xs : List α) (p : SettingsMenuPrivate) :
    xs.foldl body p =
      { bWidgets := markAll true p.bWidgets (xs.flatMap (marks p.bWidgets))
        dupWarn := p.dupWarn || !(xs.flatMap (marks p.bWidgets)).isEmpty } := by
  induction xs generalizing p with
  | nil => simp [markAll]
  | cons x xs ih =>
    rw [List.foldl_cons, ih, hbody]
    have hc : marks (markAll true p.bWidgets (marks p.bWidgets x)) = marks p.bWidgets :=
      funext fun y => hcongr _ _ y
    simp only [hc, markAll_append, List.flatMap_cons, append_isEmpty, Bool.not_and,
      Bool.or_assoc]

/-- The flagged index pairs of one slot comparison depend on the source slots only. -/
theorem dupMarksSlot_markAll (src : SourceDesc) (i j k : Nat) (ws : List BindingWidget)
    (ms : List (Nat × Nat)) (l : Nat) :
    dupMarksSlot src i j k (markAll true ws ms) l = dupMarksSlot src i j k ws l := by
  unfold dupMarksSlot
  rw [srcAt_markAll]

/-- The flagged index pairs of one widget comparison depend on the source slots only. -/
theorem dupMarksWidget_markAll (src : SourceDesc) (i j : Nat) (ws : List BindingWidget)
    (ms : List (Nat × Nat)) (k : Nat) :
    dupMarksWidget src i j (markAll true ws ms) k = dupMarksWidget src i j ws k := by
  unfold dupMarksWidget
  have : dupMarksSlot src i j k (markAll true ws ms) = dupMarksSlot src i j k ws :=
    funext fun l => dupMarksSlot_markAll src i j k ws ms l
  rw [this]

/-- The flagged index pairs of one source slot depend on the source slots only. -/
theorem dupMarksSource_markAll (i : Nat) (ws : List BindingWidget)
    (ms : List (Nat × Nat)) (j : Nat) :
    dupMarksSource i (markAll true ws ms) j = dupMarksSource i ws j := by
  unfold dupMarksSource
  have : ∀ src, dupMarksWidget src i j (markAll true ws ms) = dupMarksWidget src i j ws :=
    fun src => funext fun k => dupMarksWidget_markAll src i j ws ms k
  rw [srcAt_markAll, markAll_length, this]

/-- The flagged index pairs of one widget depend on the source slots only. -/
theorem dupMarksOf_markAll (ws : List BindingWidget) (ms : List (Nat × Nat)) (i : Nat) :
    dupMarksOf (markAll true ws ms) i = dupMarksOf ws i := by
  unfold dupMarksOf
  have : dupMarksSource i (markAll true ws ms) = dupMarksSource i ws :=
    funext fun j => dupMarksSource_markAll i ws ms j
  rw [this]

/-- The second loop nest of `updateDuplicateStatus`. -/
theorem flag_loops (p : SettingsMenuPrivate) :
    (List.range p.bWidgets.length).foldl
      (fun p i => (List.range 4).foldl
        (fun p j =>
          let src := srcAt p.bWidgets i j
          if src.type = SourceType.Invalid then p
          else
            (List.range p.bWidgets.length).foldl
              (fun p k =>
                if k = i then p
                else
                  (List.range 4).foldl
                    (fun p l =>
                      if (srcAt p.bWidgets k l).differs src then p
                      else
                        let p := { p with bWidgets := setDupFlag p.bWidgets i j true }
                        let p := { p with bWidgets := setDupFlag p.bWidgets k l true }
                        { p with dupWarn := true }) p) p) p) p =
      { bWidgets := markAll true p.bWidgets (dupMarks p.bWidgets)
        dupWarn := p.dupWarn || !(dupMarks p.bWidgets).isEmpty } := by
  unfold dupMarks
  refine foldl_marks _ dupMarksOf (fun p i => ?_) dupMarksOf_markAll _ p
  unfold dupMarksOf
  refine foldl_marks _ (dupMarksSource i) (fun p j => ?_)
    (fun ws ms j => dupMarksSource_markAll i ws ms j) _ p
  unfold dupMarksSource
  simp only []
  split_ifs with hinv
  · simp [markAll]
  · refine foldl_marks _ (dupMarksWidget (srcAt p.bWidgets i j) i j) (fun p k => ?_)
      (fun ws ms k => dupMarksWidget_markAll _ i j ws ms k) _ p
    unfold dupMarksWidget
    split_ifs with hk
    · simp [markAll]
    · refine foldl_marks _ (dupMarksSlot (srcAt _ i j) i j k) (fun p l => ?_)
        (fun ws ms l => dupMarksSlot_markAll _ i j k ws ms l) _ p
      unfold dupMarksSlot
      split_ifs with hd
      · simp [markAll]
      · simp [markAll]

/-- The first loop nest of `updateDuplicateStatus`. -/
theorem clear_loops (is : List Nat) (p : SettingsMenuPrivate) :
    is.foldl
      (fun p i => (List.range 4).foldl
        (fun p j => { p with bWidgets := setDupFlag p.bWidgets i j false }) p) p =
      { p with bWidgets := markAll false p.bWidgets (allSlotsOf is) } := by
  have inner : ∀ (i : Nat) (js : List Nat) (p : SettingsMenuPrivate),
      js.foldl (fun p j => { p with bWidgets := setDupFlag p.bWidgets i j false }) p =
        { p with bWidgets := markAll false p.bWidgets (js.map fun j => (i, j)) } := by
    intro i js
    induction js with
    | nil => intro p; rfl
    | cons j js ih =>
      intro p
      rw [List.foldl_cons, ih]
      rfl
  induction is generalizing p with
  | nil => rfl
  | cons i is ih =>
    rw [List.foldl_cons, ih, inner]
    simp only [allSlotsOf, List.flatMap_cons, markAll_append]

/-- The whole effect of `updateDuplicateStatus`. -/
theorem updateDuplicateStatus_eq (p : SettingsMenuPrivate) :
    p.updateDuplicateStatus =
      { bWidgets := markAll true
          (markAll false p.bWidgets (allSlotsOf (List.range p.bWidgets.length)))
          (dupMarks p.bWidgets)
        dupWarn := !(dupMarks p.bWidgets).isEmpty } := by
  unfold updateDuplicateStatus
  simp only [clear_loops]
  rw [flag_loops]
  have hd : dupMarks (markAll false p.bWidgets (allSlotsOf (List.range p.bWidgets.length)))
      = dupMarks p.bWidgets := by
    unfold dupMarks dupMarksOf dupMarksSource dupMarksWidget dupMarksSlot
    simp only [srcAt_markAll, markAll_length]
  simp only [hd, Bool.false_or]

/-- Equal sources have the same type. -/
theorem equals_type (a o : SourceDesc) (h : a.equals o = true) : a.type = o.type := by
  unfold SourceDesc.equals at h
  by_contra hn
  simp [hn] at h

/-- Equality of sources is symmetric. -/
theorem equals_symm (a o : SourceDesc) : a.equals o = o.equals a := by
  rcases a with ⟨ta, da⟩
  rcases o with ⟨tb, db⟩
  unfold SourceDesc.equals
  simp only []
  by_cases ht : ta = tb
  · subst ht
    by_cases hi : ta = SourceType.Invalid
    · simp [hi]
    · simp [hi, eq_comm]
  · have ht2 : ¬ tb = ta := fun e => ht e.symm
    simp [ht, ht2]

/-- The index pairs `updateDuplicateStatus` flags: those of a valid source, and
of a source of another widget equal to it. -/
theorem mem_dupMarks (ws : List BindingWidget) (a b : Nat) :
    (a, b) ∈ dupMarks ws ↔
      ∃ i j k l, i < ws.length ∧ j < 4 ∧ k < ws.length ∧ l < 4 ∧
        (srcAt ws i j).type ≠ SourceType.Invalid ∧ k ≠ i ∧
        (srcAt ws k l).equals (srcAt ws i j) = true ∧
        ((a = i ∧ b = j) ∨ (a = k ∧ b = l)) := by
  unfold dupMarks dupMarksOf dupMarksSource dupMarksWidget dupMarksSlot SourceDesc.differs
  simp only [List.mem_flatMap, List.mem_range]
  constructor
  · rintro ⟨i, hi, j, hj, h⟩
    split_ifs at h with hinv
    · simp at h
    · simp only [List.mem_flatMap, List.mem_range] at h
      obtain ⟨k, hk, h⟩ := h
      split_ifs at h with hki
      · simp at h
      · simp only [List.mem_flatMap, List.mem_range] at h
        obtain ⟨l, hl, h⟩ := h
        split_ifs at h with hd
        · simp at h
        · simp only [Bool.not_eq_true, Bool.not_eq_false'] at hd
          simp only [List.mem_cons, Prod.mk.injEq, List.mem_singleton, List.mem_nil_iff,
            or_false] at h
          exact ⟨i, j, k, l, hi, hj, hk, hl, hinv, hki, hd, h⟩
  · rintro ⟨i, j, k, l, hi, hj, hk, hl, hinv, hki, hd, h⟩
    refine ⟨i, hi, j, hj, ?_⟩
    rw [if_neg hinv]
    simp only [List.mem_flatMap, List.mem_range]
    refine ⟨k, hk, ?_⟩
    rw [if_neg hki]
    simp only [List.mem_flatMap, List.mem_range]
    refine ⟨l, hl, ?_⟩
    rw [if_neg (by simp [hd])]
    simpa using h

/-- The flagged index pairs are the duplicates. -/
theorem mem_dupMarks_iff (ws : List BindingWidget) (a b : Nat) :
    (a, b) ∈ dupMarks ws ↔ a < ws.length ∧ b < 4 ∧ IsDuplicate ws a b := by
  rw [mem_dupMarks]
  unfold IsDuplicate
  constructor
  · rintro ⟨i, j, k, l, hi, hj, hk, hl, hinv, hki, he, h⟩
    rcases h with ⟨ha, hb⟩ | ⟨ha, hb⟩
    · subst ha
      subst hb
      exact ⟨hi, hj, hinv, k, l, hk, hki, hl, he⟩
    · subst ha
      subst hb
      refine ⟨hk, hl, ?_, i, j, hi, fun e => hki e.symm, hj, ?_⟩
      · rw [equals_type _ _ he]
        exact hinv
      · rw [equals_symm]
        exact he
  · rintro ⟨ha, hb, hinv, k, l, hk, hki, hl, he⟩
    exact ⟨a, b, k, l, ha, hb, hk, hl, hinv, hki, he, Or.inl ⟨rfl, rfl⟩⟩

/-- C28: after `updateDuplicateStatus`, for every widget `i` and slot `j`,
`dupFlag[i][j]` is true if and only if the source in that slot is not `Invalid`
and some slot of a different widget holds an equal source (so a source equal
only to sources of its own widget is not flagged); `dupWarn` is true if and only
if at least one `dupFlag` is true; the sources and the number of widgets are as
before. -/
theorem updateDuplicateStatus_flags (p : SettingsMenuPrivate) (h : WidgetsWF p.bWidgets) :
    (∀ i j, i < p.bWidgets.length → j < 4 →
      (flagAt p.updateDuplicateStatus.bWidgets i j = true ↔
        (srcAt p.bWidgets i j).type ≠ SourceType.Invalid ∧
        ∃ k l, k < p.bWidgets.length ∧ k ≠ i ∧ l < 4 ∧
          (srcAt p.bWidgets k l).equals (srcAt p.bWidgets i j) = true)) ∧
    (p.updateDuplicateStatus.dupWarn = true ↔
      ∃ i j, i < p.bWidgets.length ∧ j < 4 ∧
        flagAt p.updateDuplicateStatus.bWidgets i j = true) ∧
    (∀ i j, srcAt p.updateDuplicateStatus.bWidgets i j = srcAt p.bWidgets i j) ∧
    p.updateDuplicateStatus.bWidgets.length = p.bWidgets.length ∧
    WidgetsWF p.updateDuplicateStatus.bWidgets := by
  rw [updateDuplicateStatus_eq]
  simp only []
  have hwf1 := widgetsWF_markAll false (allSlotsOf (List.range p.bWidgets.length)) p.bWidgets h
  have hall : ∀ m ∈ allSlotsOf (List.range p.bWidgets.length),
      m.1 < p.bWidgets.length ∧ m.2 < 4 := by
    intro m hm
    unfold allSlotsOf at hm
    simp only [List.mem_flatMap, List.mem_range, List.mem_map] at hm
    obtain ⟨i, hi, j, hj, rfl⟩ := hm
    exact ⟨hi, hj⟩
  have hmarks : ∀ m ∈ dupMarks p.bWidgets,
      m.1 < (markAll false p.bWidgets (allSlotsOf (List.range p.bWidgets.length))).length ∧
        m.2 < 4 := by
    intro m hm
    rw [markAll_length]
    have := (mem_dupMarks_iff p.bWidgets m.1 m.2).mp hm
    exact ⟨this.1, this.2.1⟩
  have hflag : ∀ i j, i < p.bWidgets.length → j < 4 →
      (flagAt (markAll true
          (markAll false p.bWidgets (allSlotsOf (List.range p.bWidgets.length)))
          (dupMarks p.bWidgets)) i j = true ↔ IsDuplicate p.bWidgets i j) := by
    intro i j hi hj
    rw [flagAt_markAll true _ _ i j hwf1 hmarks, flagAt_markAll false _ _ i j h hall]
    have hin : (i, j) ∈ allSlotsOf (List.range p.bWidgets.length) := by
      unfold allSlotsOf
      simp only [List.mem_flatMap, List.mem_range, List.mem_map]
      exact ⟨i, hi, j, hj, rfl⟩
    rw [if_pos hin]
    by_cases hm : (i, j) ∈ dupMarks p.bWidgets
    · rw [if_pos hm]
      exact ⟨fun _ => ((mem_dupMarks_iff _ _ _).mp hm).2.2, fun _ => rfl⟩
    · rw [if_neg hm]
      exact ⟨fun e => Bool.noConfusion e,
        fun e => absurd ((mem_dupMarks_iff _ _ _).mpr ⟨hi, hj, e⟩) hm⟩
  refine ⟨hflag, ?_, ?_, ?_, ?_⟩
  · constructor
    · intro hw
      have hne : dupMarks p.bWidgets ≠ [] := by
        intro e
        rw [e] at hw
        exact Bool.noConfusion hw
      obtain ⟨m, hm⟩ := List.exists_mem_of_ne_nil _ hne
      have hx := (mem_dupMarks_iff p.bWidgets m.1 m.2).mp hm
      exact ⟨m.1, m.2, hx.1, hx.2.1, (hflag m.1 m.2 hx.1 hx.2.1).mpr hx.2.2⟩
    · rintro ⟨i, j, hi, hj, hf⟩
      have hm := (mem_dupMarks_iff p.bWidgets i j).mpr ⟨hi, hj, (hflag i j hi hj).mp hf⟩
      have hne : dupMarks p.bWidgets ≠ [] := List.ne_nil_of_mem hm
      cases hd : dupMarks p.bWidgets with
      | nil => exact absurd hd hne
      | cons m ms => rfl
  · intro i j
    rw [srcAt_markAll, srcAt_markAll]
  · rw [markAll_length, markAll_length]
  · exact widgetsWF_markAll true _ _ hwf1

set_option maxRecDepth 100000 in
/-- Witness of C28: of three widgets, the first two share the key source 40 and
get the slots holding it flagged, whatever the flags were before; the third
holds the key source 41 twice, equal only within the widget, and gets no flag. -/
theorem updateDuplicateStatus_flags_witness :
    WidgetsWF dupExample.bWidgets ∧
    dupExample.updateDuplicateStatus.bWidgets.map (fun w => w.dupFlag)
      = [[true, false, false, false], [false, true, false, false],
          [false, false, false, false]] ∧
    dupExample.updateDuplicateStatus.dupWarn = true ∧
    (dupExample.updateDuplicateStatus.dupWarn = true ↔
      ∃ i j, i < dupExample.bWidgets.length ∧ j < 4 ∧
        flagAt dupExample.updateDuplicateStatus.bWidgets i j = true) :=
  ⟨by decide, rfl, rfl, (updateDuplicateStatus_flags dupExample (by decide)).2.1⟩

/-- Storing at an index the element the list holds there changes nothing. -/
theorem set_same {α : Type} (l : List α) (i : Nat) (a : α) (h : l[i]? = some a) :
    l.set i a = l := by
  apply List.ext_getElem?
  intro n
  rw [List.getElem?_set]
  split_ifs with h1 h2
  · rw [← h1, h]
  · rw [← h1, List.getElem?_eq_none (by omega)]
  · rfl

/-- Assigning a source slot keeps the virtual buttons of the widgets. -/
theorem setSrc_vb (ws : List BindingWidget) (i j : Nat) (s : SourceDesc) :
    (setSrc ws i j s).map (fun w => w.vb) = ws.map (fun w => w.vb) := by
  unfold setSrc
  split
  · rfl
  · next w hw =>
    rw [List.map_set]
    exact set_same _ _ _ (by rw [List.getElem?_map, hw]; rfl)

/-- Assigning a source slot keeps the arrays of the widgets at four slots. -/
theorem widgetsWF_setSrc (ws : List BindingWidget) (i j : Nat) (s : SourceDesc)
    (h : WidgetsWF ws) : WidgetsWF (setSrc ws i j s) := by
  unfold setSrc
  split
  · exact h
  · next w hw =>
    intro x hx
    rcases List.mem_or_eq_of_mem_set hx with hx | hx
    · exact h x hx
    · subst hx
      obtain ⟨hlt, hget⟩ := List.getElem?_eq_some_iff.mp hw
      have hm := h w (hget ▸ List.getElem_mem hlt)
      simpa using hm

/-- The source slots after one assignment within the arrays. -/
theorem srcAt_setSrc (ws : List BindingWidget) (i j : Nat) (s : SourceDesc) (a b : Nat)
    (h : WidgetsWF ws) (hi : i < ws.length) (hj : j < 4) :
    srcAt (setSrc ws i j s) a b = if a = i ∧ b = j then s else srcAt ws a b := by
  have hw : ws[i]? = some ws[i] := List.getElem?_eq_getElem hi
  have hl := (h ws[i] (List.getElem_mem _)).1
  unfold setSrc srcAt
  rw [hw]
  simp only [List.getElem?_set]
  by_cases ha : i = a
  · subst ha
    simp only [hi, if_true, Option.some_bind, List.getElem?_set, hw]
    by_cases hb : j = b
    · subst hb
      simp [hl, hj]
    · have hb2 : ¬ b = j := fun e => hb e.symm
      simp [hb, hb2]
  · have ha2 : ¬ a = i := fun e => ha e.symm
    simp [ha, ha2]

/-- Clearing the type of a source slot keeps the virtual buttons of the widgets. -/
theorem setSrcType_vb (ws : List BindingWidget) (i j : Nat) (t : SourceType) :
    (setSrcType ws i j t).map (fun w => w.vb) = ws.map (fun w => w.vb) := by
  unfold setSrcType
  split
  · rfl
  · next w hw =>
    split
    · rfl
    · rw [List.map_set]
      exact set_same _ _ _ (by rw [List.getElem?_map, hw]; rfl)

/-- Clearing the type of a source slot keeps the arrays at four slots. -/
theorem widgetsWF_setSrcType (ws : List BindingWidget) (i j : Nat) (t : SourceType)
    (h : WidgetsWF ws) : WidgetsWF (setSrcType ws i j t) := by
  unfold setSrcType
  split
  · exact h
  · next w hw =>
    split
    · exact h
    · intro x hx
      rcases List.mem_or_eq_of_mem_set hx with hx | hx
      · exact h x hx
      · subst hx
        obtain ⟨hlt, hget⟩ := List.getElem?_eq_some_iff.mp hw
        have hm := h w (hget ▸ List.getElem_mem hlt)
        simpa using hm

/-- The type of the source slots after the type of one is assigned. -/
theorem srcAt_setSrcType (ws : List BindingWidget) (i j : Nat) (t : SourceType) (a b : Nat)
    (h : WidgetsWF ws) (hi : i < ws.length) (hj : j < 4) :
    (srcAt (setSrcType ws i j t) a b).type
      = if a = i ∧ b = j then t else (srcAt ws a b).type := by
  have hw : ws[i]? = some ws[i] := List.getElem?_eq_getElem hi
  have hl := (h ws[i] (List.getElem_mem _)).1
  have hs : ws[i].src[j]? = some (ws[i].src[j]) := List.getElem?_eq_getElem (by omega)
  unfold setSrcType srcAt
  rw [hw]
  simp only [hs, List.getElem?_set]
  by_cases ha : i = a
  · subst ha
    simp only [hi, if_true, Option.some_bind, List.getElem?_set, hw]
    by_cases hb : j = b
    · subst hb
      simp [hl, hj]
    · have hb2 : ¬ b = j := fun e => hb e.symm
      simp [hb, hb2]
  · have ha2 : ¬ a = i := fun e => ha e.symm
    simp [ha, ha2]

/-- A source slot outside the arrays reads as the default source, of type
`Invalid`. -/
theorem srcAt_outside (ws : List BindingWidget) (a b : Nat) (h : WidgetsWF ws)
    (ho : ¬ (a < ws.length ∧ b < 4)) : (srcAt ws a b).type = SourceType.Invalid := by
  unfold srcAt
  by_cases ha : a < ws.length
  · have hw : ws[a]? = some ws[a] := List.getElem?_eq_getElem ha
    have hl := (h ws[a] (List.getElem_mem _)).1
    rw [hw, Option.some_bind, List.getElem?_eq_none (by omega)]
    rfl
  · rw [List.getElem?_eq_none (by omega)]
    rfl

/-- The widget of a virtual button is the one at its index in `vButtons`. -/
theorem buttonIndex_code (c : ButtonCode) (h : buttonIndex c < vButtonsN) :
    (vButtons[buttonIndex c]?).map (fun vb => vb.code) = some c := by
  cases c <;> first | rfl | exact absurd h (by decide)

/-- The index of the button of entry `j` of `vButtons` is `j`. -/
theorem buttonIndex_entry (j : Nat) (vb : VButton) (h : vButtons[j]? = some vb) :
    buttonIndex vb.code = j ∧ j < vButtonsN := by
  have hj : j < 12 := (List.getElem?_eq_some_iff.mp h).1
  interval_cases j <;> simp only [vButtons, List.getElem?_cons_zero, List.getElem?_cons_succ,
    Option.some.injEq] at h <;> subst h <;> exact ⟨rfl, by decide⟩

/-- Virtual buttons with the same index are the same. -/
theorem buttonIndex_inj (c e : ButtonCode) (hc : buttonIndex c < vButtonsN)
    (h : buttonIndex c = buttonIndex e) : c = e := by
  have h1 := buttonIndex_code c hc
  have h2 := buttonIndex_code e (h ▸ hc)
  rw [h, h2] at h1
  exact (Option.some.inj h1).symm

/-- On the widgets as constructed the search loop finds the index of the button. -/
theorem findWidget_eq (ws : List BindingWidget) (trg : ButtonCode)
    (h : ws.map (fun w => w.vb) = vButtons) : findWidget ws trg = buttonIndex trg := by
  unfold findWidget buttonIndex
  have e : ∀ j : Nat, (ws[j]?).map (fun (w : BindingWidget) => w.vb.code)
      = (vButtons[j]?).map (fun (vb : VButton) => vb.code) := by
    intro j
    rw [← h, List.getElem?_map, Option.map_map]
    rfl
  simp only [e]

/-- The bindings for a button among `pre` followed by one more binding. -/
theorem bindingsFor_append (pre : List BindingDesc) (desc : BindingDesc) (c : ButtonCode) :
    bindingsFor (pre ++ [desc]) c
      = if desc.target = c then bindingsFor pre c ++ [desc] else bindingsFor pre c := by
  unfold bindingsFor
  rw [List.filter_append]
  by_cases h : desc.target = c
  · simp [h]
  · simp [h]

/-- One iteration of the loop over `d` of `setupBindingData`, for a binding of a
virtual button. -/
theorem step_slotsFilled (pre : List BindingDesc) (p : SettingsMenuPrivate) (slotI : List Nat)
    (desc : BindingDesc) (hinv : SlotsFilled pre p.bWidgets slotI)
    (ht : buttonIndex desc.target < vButtonsN) :
    ∃ q slotJ, setupBindingData.step (p, slotI) desc = some (q, slotJ) ∧
      SlotsFilled (pre ++ [desc]) q.bWidgets slotJ := by
  obtain ⟨hvb, hwf, hlen, hslots⟩ := hinv
  have hfind := findWidget_eq p.bWidgets desc.target hvb
  have hwl : p.bWidgets.length = vButtonsN := by
    have := congrArg List.length hvb
    simpa using this
  obtain ⟨hcount, hsrc⟩ := hslots desc.target ht
  unfold setupBindingData.step
  simp only [hfind, ht, not_true_eq_false, if_false]
  by_cases h4 : slotI.getD (buttonIndex desc.target) 0 = 4
  · rw [if_pos h4]
    refine ⟨p, slotI, rfl, hvb, hwf, hlen, fun c hc => ?_⟩
    obtain ⟨hcc, hcs⟩ := hslots c hc
    rw [bindingsFor_append]
    by_cases hct : desc.target = c
    · subst hct
      rw [if_pos rfl]
      have hge : 4 ≤ (bindingsFor pre desc.target).length := by omega
      refine ⟨by rw [List.length_append]; simp only [List.length_singleton]; omega,
        fun k hk => ⟨fun b hb => ?_, fun hle => ?_⟩⟩
      · rw [List.getElem?_append_left (by omega)] at hb
        exact (hcs k hk).1 b hb
      · rw [List.length_append] at hle
        omega
    · rw [if_neg hct]
      exact ⟨hcc, hcs⟩
  · rw [if_neg h4]
    have hn : slotI.getD (buttonIndex desc.target) 0 = (bindingsFor pre desc.target).length := by
      omega
    have hn4 : (bindingsFor pre desc.target).length < 4 := by omega
    have hi : buttonIndex desc.target < p.bWidgets.length := by
      rw [hwl]
      exact ht
    refine ⟨_, _, rfl, ?_, ?_, ?_, fun c hc => ?_⟩
    · simp only []
      rw [setSrc_vb]
      exact hvb
    · exact widgetsWF_setSrc _ _ _ _ hwf
    · simpa using hlen
    · obtain ⟨hcc, hcs⟩ := hslots c hc
      simp only []
      rw [bindingsFor_append, hn]
      by_cases hct : desc.target = c
      · subst hct
        rw [if_pos rfl]
        refine ⟨?_, fun k hk => ⟨fun b hb => ?_, fun hle => ?_⟩⟩
        · rw [List.getD_eq_getElem?_getD, List.getElem?_set_self (by omega)]
          rw [List.length_append]
          simp only [List.length_singleton, Option.getD_some]
          omega
        · rw [srcAt_setSrc _ _ _ _ _ _ hwf hi hn4]
          by_cases hkn : k = (bindingsFor pre desc.target).length
          · rw [if_pos ⟨rfl, hkn⟩]
            subst hkn
            rw [List.getElem?_append_right (Nat.le_refl _)] at hb
            simp only [Nat.sub_self, List.getElem?_cons_zero, Option.some.injEq] at hb
            rw [hb]
          · rw [if_neg (fun h => hkn h.2)]
            by_cases hlt : k < (bindingsFor pre desc.target).length
            · rw [List.getElem?_append_left hlt] at hb
              exact (hcs k hk).1 b hb
            · rw [List.getElem?_append_right (by omega)] at hb
              have : k - (bindingsFor pre desc.target).length ≠ 0 := by omega
              obtain ⟨m, hm⟩ := Nat.exists_eq_succ_of_ne_zero this
              rw [hm] at hb
              simp at hb
        · rw [List.length_append] at hle
          simp only [List.length_singleton] at hle
          rw [srcAt_setSrc _ _ _ _ _ _ hwf hi hn4, if_neg (fun h => by omega)]
          exact (hcs k hk).2 (by omega)
      · rw [if_neg hct]
        have hne : buttonIndex c ≠ buttonIndex desc.target := fun e =>
          hct (buttonIndex_inj c desc.target hc e).symm
        refine ⟨?_, fun k hk => ?_⟩
        · rw [List.getD_eq_getElem?_getD, List.getElem?_set_ne (fun e => hne e.symm),
            ← List.getD_eq_getElem?_getD]
          exact hcc
        · rw [srcAt_setSrc _ _ _ _ _ _ hwf hi hn4, if_neg (fun h => hne h.1)]
          exact hcs k hk

/-- The first loop nest of `setupBindingData`. -/
theorem clear_type_loops (is : List Nat) (p : SettingsMenuPrivate) :
    is.foldl
      (fun p i => (List.range 4).foldl
        (fun p j => { p with bWidgets := setSrcType p.bWidgets i j SourceType.Invalid }) p) p =
      { p with bWidgets := clearAll p.bWidgets (allSlotsOf is) } := by
  have inner : ∀ (i : Nat) (js : List Nat) (p : SettingsMenuPrivate),
      js.foldl (fun p j => { p with bWidgets := setSrcType p.bWidgets i j SourceType.Invalid }) p =
        { p with bWidgets := clearAll p.bWidgets (js.map fun j => (i, j)) } := by
    intro i js
    induction js with
    | nil => intro p; rfl
    | cons j js ih =>
      intro p
      rw [List.foldl_cons, ih]
      rfl
  induction is generalizing p with
  | nil => rfl
  | cons i is ih =>
    rw [List.foldl_cons, ih, inner]
    simp only [allSlotsOf, List.flatMap_cons, clearAll, List.foldl_append]

/-- Clearing source types keeps the virtual buttons and the arrays of the widgets. -/
theorem clearAll_keeps (ms : List (Nat × Nat)) (ws : List BindingWidget) (h : WidgetsWF ws) :
    (clearAll ws ms).map (fun w => w.vb) = ws.map (fun w => w.vb) ∧
    WidgetsWF (clearAll ws ms) ∧ (clearAll ws ms).length = ws.length := by
  induction ms generalizing ws with
  | nil => exact ⟨rfl, h, rfl⟩
  | cons m ms ih =>
    have e : clearAll ws (m :: ms) = clearAll (setSrcType ws m.1 m.2 SourceType.Invalid) ms := rfl
    obtain ⟨h1, h2, h3⟩ := ih _ (widgetsWF_setSrcType ws m.1 m.2 SourceType.Invalid h)
    have hv := setSrcType_vb ws m.1 m.2 SourceType.Invalid
    rw [e]
    refine ⟨h1.trans hv, h2, h3.trans ?_⟩
    have := congrArg List.length hv
    simpa using this

/-- The types of the source slots after clearing those of the index pairs `ms`. -/
theorem clearAll_type (ms : List (Nat × Nat)) (ws : List BindingWidget) (a b : Nat)
    (h : WidgetsWF ws) (hm : ∀ m ∈ ms, m.1 < ws.length ∧ m.2 < 4) :
    (srcAt (clearAll ws ms) a b).type
      = if (a, b) ∈ ms then SourceType.Invalid else (srcAt ws a b).type := by
  induction ms generalizing ws with
  | nil => simp [clearAll]
  | cons m ms ih =>
    have h1 := hm m (List.mem_cons_self _ _)
    have e : clearAll ws (m :: ms) = clearAll (setSrcType ws m.1 m.2 SourceType.Invalid) ms := rfl
    have hl : (setSrcType ws m.1 m.2 SourceType.Invalid).length = ws.length := by
      have := congrArg List.length (setSrcType_vb ws m.1 m.2 SourceType.Invalid)
      simpa using this
    rw [e, ih _ (widgetsWF_setSrcType ws m.1 m.2 SourceType.Invalid h)
      (fun x hx => by
        rw [hl]
        exact hm x (List.mem_cons_of_mem _ hx)),
      srcAt_setSrcType ws m.1 m.2 SourceType.Invalid a b h h1.1 h1.2]
    by_cases hin : (a, b) ∈ ms
    · rw [if_pos hin, if_pos (List.mem_cons_of_mem _ hin)]
    · by_cases hab : a = m.1 ∧ b = m.2
      · have : (a, b) = m := Prod.ext hab.1 hab.2
        rw [if_neg hin, if_pos hab, if_pos (this ▸ List.mem_cons_self _ _)]
      · have hne : ¬ (a, b) = m := fun e => hab ⟨by rw [← e], by rw [← e]⟩
        have hnin : (a, b) ∉ m :: ms := fun hx => by
          rcases List.mem_cons.mp hx with hx | hx
          · exact hne hx
          · exact hin hx
        rw [if_neg hin, if_neg hab, if_neg hnin]

/-- The loop over `d` of `setupBindingData` on bindings of virtual buttons. -/
theorem foldl_slotsFilled (rest pre : List BindingDesc) (p : SettingsMenuPrivate)
    (slotI : List Nat) (hinv : SlotsFilled pre p.bWidgets slotI)
    (hr : ∀ b ∈ rest, buttonIndex b.target < vButtonsN) :
    ∃ q slotJ,
      rest.foldl setupBindingData.next (some (p, slotI)) = some (q, slotJ) ∧
      SlotsFilled (pre ++ rest) q.bWidgets slotJ := by
  induction rest generalizing pre p slotI with
  | nil => exact ⟨p, slotI, rfl, by simpa using hinv⟩
  | cons desc rest ih =>
    obtain ⟨q, slotJ, hq, hinv2⟩ :=
      step_slotsFilled pre p slotI desc hinv (hr desc (List.mem_cons_self _ _))
    obtain ⟨r, slotK, hr2, hinv3⟩ :=
      ih (pre ++ [desc]) q slotJ hinv2 (fun b hb => hr b (List.mem_cons_of_mem _ hb))
    refine ⟨r, slotK, ?_, by simpa using hinv3⟩
    rw [List.foldl_cons]
    simp only [setupBindingData.next, hq]
    exact hr2

/-- The whole of `setupBindingData` on the widgets as constructed and bindings
of virtual buttons. -/
theorem setupBindingData_slotsFilled (p : SettingsMenuPrivate) (d : List BindingDesc)
    (hp : Constructed p) (hr : ∀ b ∈ d, buttonIndex b.target < vButtonsN) :
    ∃ q slotJ, p.setupBindingData d = some q ∧ SlotsFilled d q.bWidgets slotJ := by
  obtain ⟨hvb, hwf⟩ := hp
  have hlen : p.bWidgets.length = vButtonsN := by
    have := congrArg List.length hvb
    simpa using this
  have hall : ∀ m ∈ allSlotsOf (List.range p.bWidgets.length),
      m.1 < p.bWidgets.length ∧ m.2 < 4 := by
    intro m hm
    unfold allSlotsOf at hm
    simp only [List.mem_flatMap, List.mem_range, List.mem_map] at hm
    obtain ⟨i, hi, j, hj, rfl⟩ := hm
    exact ⟨hi, hj⟩
  obtain ⟨k1, k2, _⟩ := clearAll_keeps (allSlotsOf (List.range p.bWidgets.length)) p.bWidgets hwf
  have hinit : SlotsFilled []
      (clearAll p.bWidgets (allSlotsOf (List.range p.bWidgets.length)))
      (List.replicate vButtonsN 0) := by
    refine ⟨k1.trans hvb, k2, List.length_replicate _ _, fun c hc => ⟨?_, fun k hk => ⟨?_, ?_⟩⟩⟩
    · rw [List.getD_eq_getElem?_getD, List.getElem?_replicate, if_pos hc]
      rfl
    · intro b hb
      simp [bindingsFor] at hb
    · intro _
      rw [clearAll_type _ _ _ _ hwf hall, if_pos]
      unfold allSlotsOf
      simp only [List.mem_flatMap, List.mem_range, List.mem_map]
      exact ⟨buttonIndex c, by rw [hlen]; exact hc, k, hk, rfl⟩
  obtain ⟨q, slotJ, hq, hinv⟩ := foldl_slotsFilled d []
    { p with bWidgets := clearAll p.bWidgets (allSlotsOf (List.range p.bWidgets.length)) }
    (List.replicate vButtonsN 0) hinit hr
  refine ⟨q, slotJ, ?_, by simpa using hinv⟩
  unfold setupBindingData
  simp only [clear_type_loops]
  rw [hq]
  rfl

/-- What `appendBindings` appends: the bindings of the four slots in order. -/
theorem appendBindings_eq (w : BindingWidget) (d : List BindingDesc) :
    w.appendBindings d
      = d ++ (w.slotBinding 0 ++ w.slotBinding 1 ++ w.slotBinding 2 ++ w.slotBinding 3) := by
  have r4 : List.range 4 = [0, 1, 2, 3] := by decide
  unfold BindingWidget.appendBindings BindingWidget.slotBinding
  rw [r4]
  simp only [List.foldl_cons, List.foldl_nil]
  split_ifs <;> simp

/-- The binding list of `onAccept`: what each widget appends, widget by widget. -/
theorem onAccept_eq (p : SettingsMenuPrivate) :
    p.onAccept = p.bWidgets.flatMap fun w => w.appendBindings [] := by
  unfold onAccept
  have gen : ∀ (ws : List BindingWidget) (acc : List BindingDesc),
      ws.foldl (fun binds w => w.appendBindings binds) acc
        = acc ++ ws.flatMap fun w => w.appendBindings [] := by
    intro ws
    induction ws with
    | nil => intro acc; simp
    | cons w ws ih =>
      intro acc
      rw [List.foldl_cons, ih, List.flatMap_cons, appendBindings_eq w acc,
        appendBindings_eq w []]
      simp
  simpa using gen p.bWidgets []

/-- The first four elements of a list. -/
theorem take_four {α : Type} (l : List α) :
    l.take 4 = (l[0]?).toList ++ (l[1]?).toList ++ (l[2]?).toList ++ (l[3]?).toList := by
  rcases l with _ | ⟨a, _ | ⟨b, _ | ⟨c, _ | ⟨d, t⟩⟩⟩⟩ <;> simp

/-- Two lists of equal length whose elements give the same pieces, index by
index, have the same concatenation of pieces. -/
theorem flatMap_eq_of_getElem? {α β γ : Type} (f : α → List β) (g : γ → List β) :
    ∀ (l : List α) (m : List γ), l.length = m.length →
      (∀ (j : Nat) a c, l[j]? = some a → m[j]? = some c → f a = g c) →
      l.flatMap f = m.flatMap g := by
  intro l
  induction l with
  | nil =>
    intro m hl _
    have : m = [] := List.length_eq_zero.mp hl.symm
    rw [this]
    rfl
  | cons a l ih =>
    intro m hl h
    cases m with
    | nil => simp at hl
    | cons c m =>
      rw [List.flatMap_cons, List.flatMap_cons, h 0 a c (by simp) (by simp),
        ih m (by simpa using hl) (fun j x y hx hy => h (j + 1) x y (by simpa using hx)
          (by simpa using hy))]

/-- The virtual buttons are the button codes with an index in `vButtons`. -/
theorem mem_vButtons_iff (c : ButtonCode) :
    c ∈ vButtons.map (fun vb => vb.code) ↔ buttonIndex c < vButtonsN := by
  cases c <;> decide

/-- What a widget appends once `setupBindingData` has filled its slots from `d`:
the first four bindings of `d` for its button. -/
theorem appendBindings_filled (d : List BindingDesc) (ws : List BindingWidget)
    (slotI : List Nat) (hinv : SlotsFilled d ws slotI)
    (hs : ∀ b ∈ d, b.src.type ≠ SourceType.Invalid)
    (j : Nat) (w : BindingWidget) (vb : VButton) (hw : ws[j]? = some w)
    (hv : vButtons[j]? = some vb) :
    w.vb = vb ∧ w.appendBindings [] = (bindingsFor d vb.code).take 4 := by
  obtain ⟨hvb, _, _, hslots⟩ := hinv
  have hwv : w.vb = vb := by
    have := congrArg (fun l => l[j]?) hvb
    simp only [List.getElem?_map, hw, hv, Option.map_some', Option.some.injEq] at this
    exact this
  obtain ⟨hidx, hjn⟩ := buttonIndex_entry j vb hv
  obtain ⟨_, hsrc⟩ := hslots vb.code (by rw [hidx]; exact hjn)
  rw [hidx] at hsrc
  have hget : ∀ k, srcAt ws j k = w.src.getD k {} := by
    intro k
    unfold srcAt
    rw [hw, Option.some_bind, List.getD_eq_getElem?_getD]
  have hslot : ∀ k, k < 4 → w.slotBinding k = ((bindingsFor d vb.code)[k]?).toList := by
    intro k hk
    unfold BindingWidget.slotBinding
    rw [← hget k]
    cases hb : (bindingsFor d vb.code)[k]? with
    | none =>
      have hle : (bindingsFor d vb.code).length ≤ k := List.getElem?_eq_none_iff.mp hb
      rw [if_pos ((hsrc k hk).2 hle)]
      rfl
    | some b =>
      obtain ⟨hlt, hget2⟩ := List.getElem?_eq_some_iff.mp hb
      have hmem : b ∈ bindingsFor d vb.code := hget2 ▸ List.getElem_mem hlt
      have hbd := List.mem_filter.mp hmem
      have htarget : b.target = vb.code := by simpa using hbd.2
      rw [(hsrc k hk).1 b hb, if_neg (hs b hbd.1), hwv, ← htarget]
      rfl
  refine ⟨hwv, ?_⟩
  rw [appendBindings_eq, take_four, hslot 0 (by decide), hslot 1 (by decide),
    hslot 2 (by decide), hslot 3 (by decide)]
  simp

/-- The bindings of `d`, grouped by virtual button, are a reordering of `d` when
every binding is for a virtual button. -/
theorem grouped_perm (d : List BindingDesc)
    (ht : ∀ b ∈ d, b.target ∈ vButtons.map (fun vb => vb.code)) :
    (vButtons.flatMap fun vb => bindingsFor d vb.code).Perm d := by
  rw [List.perm_iff_count]
  intro b
  have key : ∀ c, List.count b (bindingsFor d c) = if b.target = c then List.count b d else 0 := by
    intro c
    unfold bindingsFor
    by_cases h : b.target = c
    · rw [if_pos h, List.count_filter (by simpa using h)]
    · rw [if_neg h]
      exact List.count_eq_zero_of_not_mem (fun hm => h (by simpa using (List.mem_filter.mp hm).2))
  simp only [vButtons, List.flatMap_cons, List.flatMap_nil, List.count_append, key,
    List.count_nil, List.append_nil]
  by_cases hb : b ∈ d
  · have := ht b hb
    simp only [vButtons, List.map_cons, List.map_nil, List.mem_cons, List.mem_singleton,
      List.not_mem_nil, or_false] at this
    rcases this with h | h | h | h | h | h | h | h | h | h | h | h <;> simp [h]
  · rw [List.count_eq_zero_of_not_mem hb]
    simp

/-- C29: for a binding list `d` whose targets are all virtual buttons and whose
sources are all valid, on the widgets as constructed, `setupBindingData(d)`
completes, and `appendBindings` then yields for every widget the first four
bindings of `d` for the button of that widget, in their order in `d`; the list
`onAccept` collects is these, widget by widget in the order of `vButtons`, so
the bindings after the fourth for a button are dropped; and when no button has
more than four bindings in `d` that list is a reordering of `d`. -/
theorem setupBindingData_roundtrip (p : SettingsMenuPrivate) (d : List BindingDesc)
    (hp : Constructed p) (ht : ∀ b ∈ d, b.target ∈ vButtons.map (fun vb => vb.code))
    (hs : ∀ b ∈ d, b.src.type ≠ SourceType.Invalid) :
    ∃ q, p.setupBindingData d = some q ∧ Constructed q ∧
      (∀ (j : Nat) w vb, q.bWidgets[j]? = some w → vButtons[j]? = some vb →
        w.vb = vb ∧ w.appendBindings [] = (bindingsFor d vb.code).take 4) ∧
      q.onAccept = (vButtons.flatMap fun vb => (bindingsFor d vb.code).take 4) ∧
      ((∀ vb ∈ vButtons, (bindingsFor d vb.code).length ≤ 4) → q.onAccept.Perm d) := by
  obtain ⟨q, slotJ, hq, hinv⟩ := setupBindingData_slotsFilled p d hp
    (fun b hb => (mem_vButtons_iff b.target).mp (ht b hb))
  have hw := appendBindings_filled d q.bWidgets slotJ hinv hs
  have hacc : q.onAccept = (vButtons.flatMap fun vb => (bindingsFor d vb.code).take 4) := by
    rw [onAccept_eq]
    refine flatMap_eq_of_getElem? _ _ q.bWidgets vButtons ?_ (fun j w vb h1 h2 => (hw j w vb h1 h2).2)
    have := congrArg List.length hinv.1
    simpa using this
  refine ⟨q, hq, ⟨hinv.1, hinv.2.1⟩, hw, hacc, fun hle => ?_⟩
  rw [hacc]
  have e : (vButtons.flatMap fun vb => (bindingsFor d vb.code).take 4)
      = (vButtons.flatMap fun vb => bindingsFor d vb.code) := by
    refine flatMap_eq_of_getElem? _ _ vButtons vButtons rfl (fun j a c h1 h2 => ?_)
    rw [h1] at h2
    have hac : a = c := Option.some.inj h2
    subst hac
    obtain ⟨hlt, hget⟩ := List.getElem?_eq_some_iff.mp h1
    exact List.take_of_length_le (hle a (hget ▸ List.getElem_mem hlt))
  rw [e]
  exact grouped_perm d ht

set_option maxRecDepth 100000 in
/-- Witness of C29: five bindings for `Up` and one for `Z` on the menu as
constructed; the four first bindings for `Up` and the one for `Z` come back, in
the order of the widgets, and the fifth for `Up` is dropped. -/
theorem setupBindingData_roundtrip_witness :
    Constructed freshMenu ∧
    (∀ b ∈ fiveUps, b.target ∈ vButtons.map (fun vb => vb.code)) ∧
    (∀ b ∈ fiveUps, b.src.type ≠ SourceType.Invalid) ∧
    (freshMenu.setupBindingData fiveUps).map (fun q => q.onAccept)
      = some
        [ { src := { type := SourceType.Key, d := 1 }, target := ButtonCode.Up },
          { src := { type := SourceType.Key, d := 3 }, target := ButtonCode.Up },
          { src := { type := SourceType.JButton, d := 4 }, target := ButtonCode.Up },
          { src := { type := SourceType.Key, d := 5 }, target := ButtonCode.Up },
          { src := { type := SourceType.Key, d := 2 }, target := ButtonCode.Z } ] ∧
    ∃ q, freshMenu.setupBindingData fiveUps = some q ∧
      q.onAccept = (vButtons.flatMap fun vb => (bindingsFor fiveUps vb.code).take 4) :=
  ⟨by decide, by decide, by decide, by rfl,
    (setupBindingData_roundtrip freshMenu fiveUps (by decide) (by decide) (by decide)).imp
      fun _ h => ⟨h.1, h.2.2.2.1⟩⟩

/-- A clamped value lies in the range it is clamped to. -/
theorem clamp_range (value lo hi : Int) (h : lo ≤ hi) :
    lo ≤ clamp value lo hi ∧ clamp value lo hi ≤ hi := by
  unfold clamp
  split_ifs <;> omega

/-- The loop that scans for the last dot stops at index `q` when no byte after
`q` is a dot and `q` is the start of the string or holds a dot. -/
theorem scanDot_stop (s : List Nat) (q : Nat) (hq : q = 0 ∨ s.getD q 0 = 46) :
    ∀ k, (∀ i, q < i → i < q + 1 + k → s.getD i 0 ≠ 46) → scanDot s (q + 1 + k) = q := by
  intro k
  induction k with
  | zero =>
    intro _
    show scanDot s (q + 1) = q
    unfold scanDot
    rcases hq with hq | hq
    · rw [if_pos hq, hq]
    · by_cases h0 : q = 0
      · rw [if_pos h0, h0]
      · rw [if_neg h0, if_pos hq]
  | succ k ih =>
    intro h
    show scanDot s ((q + 1 + k) + 1) = q
    unfold scanDot
    rw [if_neg (by omega), if_neg (h (q + 1 + k) (by omega) (by omega))]
    exact ih (fun i h1 h2 => h i h1 (by omega))

/-- The scan over a string that ends in a dot followed by bytes `u` without a
dot stops at that dot. -/
theorem scanDot_suffix (t u : List Nat) (hu : 46 ∉ u) :
    scanDot (t ++ 46 :: u) (t ++ 46 :: u).length = t.length := by
  have hl : (t ++ 46 :: u).length = t.length + 1 + u.length := by
    simp only [List.length_append, List.length_cons]
    omega
  rw [hl]
  refine scanDot_stop _ _ (Or.inr ?_) _ (fun i h1 h2 => ?_)
  · rw [List.getD_eq_getElem?_getD, List.getElem?_append_right (Nat.le_refl _)]
    simp
  · rw [List.getD_eq_getElem?_getD, List.getElem?_append_right (by omega)]
    obtain ⟨m, hm⟩ : ∃ m, i - t.length = m + 1 := ⟨i - t.length - 1, by omega⟩
    rw [hm, List.getElem?_cons_succ]
    have hmu : m < u.length := by omega
    rw [List.getElem?_eq_getElem hmu]
    intro e
    apply hu
    simp only [Option.getD_some] at e
    rw [← e]
    exact List.getElem_mem _

/-- The C string at a pointer into a buffer without NUL bytes is the rest of the
buffer. -/
theorem cString_of_no_nul (l : List Nat) (h : 0 ∉ l) : cString l = l := by
  unfold cString
  rw [List.takeWhile_eq_self_iff]
  intro x hx
  simpa using fun e : x = 0 => h (e ▸ hx)

/-- The comparison of `readGameINI` with a literal made of a dot and bytes
without a dot or NUL succeeds exactly when the scripts path ends in the
literal. -/
theorem strcmp_iff_suffix (s u : List Nat) (h0 : 0 ∉ s) (hu : 46 ∉ u) :
    cString (s.drop (scanDot s s.length)) = 46 :: u ↔ (46 :: u) <:+ s := by
  have hd : 0 ∉ s.drop (scanDot s s.length) := fun h => h0 (List.mem_of_mem_drop h)
  rw [cString_of_no_nul _ hd]
  constructor
  · intro h
    rw [← h]
    exact List.drop_suffix _ _
  · rintro ⟨t, ht⟩
    rw [← ht, scanDot_suffix t u hu, List.drop_left]

/-- What `setupScreenSize` changes: a non-positive width or height. -/
theorem setupScreenSize_eq (conf : Config) :
    setupScreenSize conf =
      { conf with
        defScreenW := if conf.defScreenW ≤ 0 then (if conf.rgssVersion = 1 then 640 else 544)
          else conf.defScreenW
        defScreenH := if conf.defScreenH ≤ 0 then (if conf.rgssVersion = 1 then 480 else 416)
          else conf.defScreenH } := by
  unfold setupScreenSize
  simp only []
  split_ifs <;> rfl

/-- The result of `readGameINI` with a custom script. -/
theorem readGameINI_customScript (c : Config) (ini : Option GameIni)
    (h : c.customScript ≠ []) :
    c.readGameINI ini = some (setupScreenSize
      { c with
        gameTitle := baseName c.customScript
        rgssVersion := if c.rgssVersion = 0 then 1 else c.rgssVersion }) := by
  unfold Config.readGameINI
  rw [if_pos h]
  simp only []
  split_ifs <;> rfl

/-- The result of `readGameINI` without a custom script: version and scripts
path. -/
theorem readGameINI_ini (c : Config) (vm : GameIni) (h : c.customScript = []) :
    ∃ title, c.readGameINI (some vm) = some (setupScreenSize
      { c with
        gameTitle := title
        gameScripts := strReplace (guardAll c.gameScripts vm.scripts) 92 47
        rgssVersion :=
          if c.rgssVersion = 0 then
            guessVersion (strReplace (guardAll c.gameScripts vm.scripts) 92 47)
          else c.rgssVersion }) := by
  unfold Config.readGameINI guessVersion
  rw [if_neg (fun hn => hn h)]
  simp only []
  split_ifs <;> exact ⟨_, rfl⟩

/-- The version guessed from a scripts path without NUL bytes, by its ending. -/
theorem guessVersion_suffix (s : List Nat) (h0 : 0 ∉ s) :
    (dotRvdata <:+ s → guessVersion s = 2) ∧
    (dotRvdata2 <:+ s → guessVersion s = 3) ∧
    (¬ dotRvdata <:+ s → ¬ dotRvdata2 <:+ s → guessVersion s = 1) ∧
    (guessVersion s = 1 ∨ guessVersion s = 2 ∨ guessVersion s = 3) := by
  have h1 : cString (s.drop (scanDot s s.length)) = dotRvdata ↔ dotRvdata <:+ s :=
    strcmp_iff_suffix s [114, 118, 100, 97, 116, 97] h0 (by decide)
  have h2 : cString (s.drop (scanDot s s.length)) = dotRvdata2 ↔ dotRvdata2 <:+ s :=
    strcmp_iff_suffix s [114, 118, 100, 97, 116, 97, 50] h0 (by decide)
  have hne : ∀ l : List Nat, l = dotRvdata → l ≠ dotRvdata2 := by
    intro l e
    rw [e]
    decide
  unfold guessVersion
  refine ⟨fun h => ?_, fun h => ?_, fun ha hb => ?_, ?_⟩
  · have hs : s ≠ [] := by
      rintro rfl
      obtain ⟨t, ht⟩ := h
      simp [dotRvdata] at ht
    rw [if_pos hs, if_pos (h1.mpr h)]
  · have hs : s ≠ [] := by
      rintro rfl
      obtain ⟨t, ht⟩ := h
      simp [dotRvdata2] at ht
    have e2 := h2.mpr h
    rw [if_pos hs, if_neg (fun e => hne _ e e2), if_pos e2]
  · split_ifs with hs e1 e2
    · exact absurd (h1.mp e1) ha
    · exact absurd (h2.mp e2) hb
    · rfl
    · rfl
  · split_ifs <;> simp

/-- C30: `Config::read` leaves `rgssVersion` in [0, 3] and `SE.sourceCount` in
[1, 64], whatever the options hold. When `readGameINI` returns on a
configuration whose `rgssVersion` is in [0, 3], `rgssVersion` is 1, 2 or 3: a
non-zero version is kept; a version 0 becomes 1 with a custom script, and
otherwise 2 when the scripts path (without NUL bytes) ends in ".rvdata", 3 when
it ends in ".rvdata2" and 1 in every other case. `defScreenW` and `defScreenH`
are then positive: a positive value is kept, a non-positive width becomes 640
for version 1 and 544 otherwise, a non-positive height 480 for version 1 and
416 otherwise. -/
theorem config_version_and_screen (c0 c r : Config) (vm : ConfigOptions) (ini : Option GameIni)
    (hv : 0 ≤ c.rgssVersion ∧ c.rgssVersion ≤ 3) (hr : c.readGameINI ini = some r) :
    (0 ≤ (c0.read vm).rgssVersion ∧ (c0.read vm).rgssVersion ≤ 3 ∧
      1 ≤ (c0.read vm).seSourceCount ∧ (c0.read vm).seSourceCount ≤ 64) ∧
    (r.rgssVersion = 1 ∨ r.rgssVersion = 2 ∨ r.rgssVersion = 3) ∧
    0 < r.defScreenW ∧ 0 < r.defScreenH ∧
    (c.rgssVersion ≠ 0 → r.rgssVersion = c.rgssVersion) ∧
    (c.rgssVersion = 0 → c.customScript ≠ [] → r.rgssVersion = 1) ∧
    (c.rgssVersion = 0 → c.customScript = [] → 0 ∉ r.gameScripts →
      (dotRvdata <:+ r.gameScripts → r.rgssVersion = 2) ∧
      (dotRvdata2 <:+ r.gameScripts → r.rgssVersion = 3) ∧
      (¬ dotRvdata <:+ r.gameScripts → ¬ dotRvdata2 <:+ r.gameScripts → r.rgssVersion = 1)) ∧
    r.defScreenW = (if c.defScreenW ≤ 0 then (if r.rgssVersion = 1 then 640 else 544)
      else c.defScreenW) ∧
    r.defScreenH = (if c.defScreenH ≤ 0 then (if r.rgssVersion = 1 then 480 else 416)
      else c.defScreenH) := by
  have hread : 0 ≤ (c0.read vm).rgssVersion ∧ (c0.read vm).rgssVersion ≤ 3 ∧
      1 ≤ (c0.read vm).seSourceCount ∧ (c0.read vm).seSourceCount ≤ 64 := by
    unfold Config.read
    simp only []
    exact ⟨(clamp_range _ 0 3 (by decide)).1, (clamp_range _ 0 3 (by decide)).2,
      (clamp_range _ 1 64 (by decide)).1, (clamp_range _ 1 64 (by decide)).2⟩
  refine ⟨hread, ?_⟩
  have fin : ∀ ver : Int, (ver = 1 ∨ ver = 2 ∨ ver = 3) → r.rgssVersion = ver →
      r.defScreenW = (if c.defScreenW ≤ 0 then (if r.rgssVersion = 1 then 640 else 544)
        else c.defScreenW) →
      r.defScreenH = (if c.defScreenH ≤ 0 then (if r.rgssVersion = 1 then 480 else 416)
        else c.defScreenH) →
      (r.rgssVersion = 1 ∨ r.rgssVersion = 2 ∨ r.rgssVersion = 3) ∧
        0 < r.defScreenW ∧ 0 < r.defScreenH := by
    intro ver h123 hver hW hH
    refine ⟨hver ▸ h123, ?_, ?_⟩
    · rw [hW]
      split_ifs <;> omega
    · rw [hH]
      split_ifs <;> omega
  by_cases hcs : c.customScript = []
  · cases ini with
    | none =>
      unfold Config.readGameINI at hr
      rw [if_neg (fun hn => hn hcs)] at hr
      exact Option.noConfusion hr
    | some gi =>
      obtain ⟨title, ht⟩ := readGameINI_ini c gi hcs
      rw [ht, setupScreenSize_eq] at hr
      have hr2 := Option.some.inj hr
      have hver : r.rgssVersion = (if c.rgssVersion = 0 then
          guessVersion (strReplace (guardAll c.gameScripts gi.scripts) 92 47)
          else c.rgssVersion) := by rw [← hr2]
      have hW : r.defScreenW = (if c.defScreenW ≤ 0 then
          (if r.rgssVersion = 1 then 640 else 544) else c.defScreenW) := by rw [← hr2]
      have hH : r.defScreenH = (if c.defScreenH ≤ 0 then
          (if r.rgssVersion = 1 then 480 else 416) else c.defScreenH) := by rw [← hr2]
      have hS : r.gameScripts = strReplace (guardAll c.gameScripts gi.scripts) 92 47 := by
        rw [← hr2]
      have hone : guessVersion (strReplace (guardAll c.gameScripts gi.scripts) 92 47) = 1 ∨
          guessVersion (strReplace (guardAll c.gameScripts gi.scripts) 92 47) = 2 ∨
          guessVersion (strReplace (guardAll c.gameScripts gi.scripts) 92 47) = 3 := by
        unfold guessVersion
        split_ifs <;> simp
      by_cases h0 : c.rgssVersion = 0
      · rw [if_pos h0] at hver
        obtain ⟨f1, f2, f3⟩ := fin _ hone hver hW hH
        refine ⟨f1, f2, f3, fun h => absurd h0 h, fun _ h => absurd hcs h, ?_, hW, hH⟩
        intro _ _ hz
        rw [hver]
        rw [hS] at hz ⊢
        have hg := guessVersion_suffix _ hz
        exact ⟨hg.1, hg.2.1, hg.2.2.1⟩
      · rw [if_neg h0] at hver
        obtain ⟨f1, f2, f3⟩ := fin _ (by omega) hver hW hH
        exact ⟨f1, f2, f3, fun _ => hver, fun h => absurd h h0, fun h => absurd h h0, hW, hH⟩
  · rw [readGameINI_customScript c ini hcs, setupScreenSize_eq] at hr
    have hr2 := Option.some.inj hr
    have hver : r.rgssVersion = (if c.rgssVersion = 0 then 1 else c.rgssVersion) := by
      rw [← hr2]
    have hW : r.defScreenW = (if c.defScreenW ≤ 0 then
        (if r.rgssVersion = 1 then 640 else 544) else c.defScreenW) := by rw [← hr2]
    have hH : r.defScreenH = (if c.defScreenH ≤ 0 then
        (if r.rgssVersion = 1 then 480 else 416) else c.defScreenH) := by rw [← hr2]
    by_cases h0 : c.rgssVersion = 0
    · rw [if_pos h0] at hver
      obtain ⟨f1, f2, f3⟩ := fin _ (Or.inl rfl) hver hW hH
      exact ⟨f1, f2, f3, fun h => absurd h0 h, fun _ _ => hver, fun _ h => absurd h hcs, hW, hH⟩
    · rw [if_neg h0] at hver
      obtain ⟨f1, f2, f3⟩ := fin _ (by omega) hver hW hH
      exact ⟨f1, f2, f3, fun _ => hver, fun h => absurd h h0, fun h => absurd h h0, hW, hH⟩

/-- Witness of C30: the configuration as constructed (version 0, no screen
size), read with a version option of 7, then given the `Game.ini` of a game
whose scripts are in "Data\Scripts.rvdata2": version 3 and a screen of 544 by
416. -/
theorem config_version_and_screen_witness :
    (0 ≤ ({} : Config).rgssVersion ∧ ({} : Config).rgssVersion ≤ 3) ∧
    ({} : Config).readGameINI (some vxAceIni)
      = some { rgssVersion := 3, defScreenW := 544, defScreenH := 416, gameTitle := [71],
               gameScripts := [68, 97, 116, 97, 47, 83, 99, 114, 105, 112, 116, 115, 46, 114,
                 118, 100, 97, 116, 97, 50] } ∧
    (({} : Config).read { rgssVersion := some 7 }).rgssVersion = 3 ∧
    (0 ≤ (({} : Config).read { rgssVersion := some 7 }).rgssVersion ∧
      (({} : Config).read { rgssVersion := some 7 }).rgssVersion ≤ 3 ∧
      1 ≤ (({} : Config).read { rgssVersion := some 7 }).seSourceCount ∧
      (({} : Config).read { rgssVersion := some 7 }).seSourceCount ≤ 64) :=
  ⟨by decide, by decide, by decide,
    (config_version_and_screen {} {}
      { rgssVersion := 3, defScreenW := 544, defScreenH := 416, gameTitle := [71],
        gameScripts := [68, 97, 116, 97, 47, 83, 99, 114, 105, 112, 116, 115, 46, 114,
          118, 100, 97, 116, 97, 50] }
      { rgssVersion := some 7 } (some vxAceIni) (by decide) (by decide)).1⟩

end Mkxp
